import Mathlib

/-!
# gossipgo: the gossip subsystem

A shallow embedding of `gossip/info.go`, `gossip/client.go` and
`gossip/gossip.go`, and of the parts of `storage/config.go` and
`server/server.go` the specification speaks of, with the properties of the
specification proved over it.

Conventions of the embedding:

* a `float64` is its exact value, every operation rounding to the nearest
  value of 53 bits (`roundRatio`); `math.Log` is the portable implementation
  of package `math` (`Float64.Log`), and the logarithm of `maxToleratedHops`,
  a parameter of its definition, is `ceilLogFloat` in `float64`;

* a Go `string` is its sequence of bytes (`GoString`);
* `int64` values are integers (`Int`); the one subtraction the client performs
  on them wraps explicitly (`subInt64`);
* a `net.Addr` is the pair of results of its two methods `Network()` and
  `String()`;
* what a goroutine receives from its environment (the outcome of a `select`,
  the wall clock, the reply of the peer) is an explicit argument.
-/

namespace GossipGo

/-! ## Go strings -/

/-- One byte of a Go string. -/
abbrev Byte := Fin 256

/-- A Go `string`: a read-only sequence of bytes. -/
abbrev GoString := List Byte

/-- The byte `'.'` (0x2E). -/
def period : Byte := 46

/-- Go's `<` on strings: byte-wise lexicographic comparison, a proper prefix
being smaller. -/
def strLt : GoString → GoString → Bool
  | [], [] => false
  | [], _ :: _ => true
  | _ :: _, [] => false
  | a :: s, b :: t => if a < b then true else if b < a then false else strLt s t

/-- The loop of `strings.LastIndex` for a one-byte separator: scan the indices
`i - 1, i - 2, ..., 0` and return the first that holds `sep`, or `-1`. -/
def lastIndexFrom (s : GoString) (sep : Byte) : Nat → Int
  | 0 => -1
  | i + 1 => if s[i]? = some sep then (i : Int) else lastIndexFrom s sep i

/-- The library call `strings.LastIndex(s, sep)` for a one-byte `sep`: the index
of the last instance of `sep` in `s`, or `-1` if `sep` is not present. -/
def lastIndex (s : GoString) (sep : Byte) : Int :=
  lastIndexFrom s sep s.length

/-! ## `gossip/info.go` -/

/-- A `net.Addr`: the results of its methods `Network()` and `String()`. -/
structure Addr where
  Network : GoString
  String : GoString
  deriving DecidableEq, Repr

/-- The dynamic value of an info (`interface{}` in the source): one of
`int64`, `float64` (kept as its IEEE-754 bit pattern), `string`, or a user
type implementing `Ordered` (kept as an uninterpreted tag). -/
inductive Value where
  | int64 (v : Int)
  | float64 (bits : Nat)
  | string (s : GoString)
  | ordered (tag : Nat)
  deriving DecidableEq, Repr

/-- The `info` struct: the basic unit of information traded over the gossip
network. -/
structure info where
  Key : GoString
  Val : Value
  Timestamp : Int
  TTLStamp : Int
  Hops : Nat
  NodeAddr : Addr
  peerAddr : Addr
  seq : Int
  deriving DecidableEq, Repr

/-- `infoPrefix` returns the text preceding the last period within the given
key. -/
def infoPrefix (key : GoString) : GoString :=
  let index := lastIndex key period
  if index ≠ -1 then key.take index.toNat else []

/-- `expired` returns true if the node's time to live (TTL) has expired. -/
def info.expired (i : info) (now : Int) : Bool :=
  decide (i.TTLStamp ≤ now)

/-- `isFresh` returns true if the info has a sequence number newer than `seq`
and wasn't either passed directly or originated from the same address as
`addr`. -/
def info.isFresh (i : info) (addr : Addr) (seq : Int) : Bool :=
  if i.seq ≤ seq then false
  else if i.NodeAddr.String = addr.String then false
  else if i.peerAddr.String = addr.String then false
  else true

/-! ## The infostore and the address set

`infostore.go`, `addrset.go` and the gossip `server.go` are not among the
sources; only their uses in `client.go` and `gossip.go` are. -/

/-- Modelled from the spec: the infostore, and the bundle of infos two peers
exchange ("InfoBundle is {max_seq, infos: map<string, Info>, ...}"). `Infos`
is the map from key to info, `NodeAddr` the address of the owning node (read as
`g.is.NodeAddr` by the client) and `MaxSeq` the sequence watermark (read as
`delta.MaxSeq` by the client). -/
structure infoStore where
  Infos : List (GoString × info)
  NodeAddr : Addr
  MaxSeq : Int
  deriving DecidableEq, Repr

/-- Modelled from the spec: `getInfo` of the missing `infostore.go`:
"Returns the info if present and not expired at now(); otherwise not found." -/
def infoStore.getInfo (is : infoStore) (key : GoString) (now : Int) : Option info :=
  match is.Infos.lookup key with
  | some i => if i.expired now then none else some i
  | none => none

/-- The largest `seq` among the given infos, starting from `seq0`. -/
def maxSeqOf (seq0 : Int) (infos : List (GoString × info)) : Int :=
  infos.foldl (fun m kv => max m kv.2.seq) seq0

/-- Modelled from the spec: `delta` of the missing `infostore.go`: "Returns all
non-expired infos in the store with seq > since_seq AND origin_addr ≠ peer_addr
AND peer_addr ≠ peer_addr ... The result carries its own max_seq (the maximum
seq observed) ... Returns nil if no info qualifies." The selection is made by
`info.isFresh`. -/
def infoStore.delta (is : infoStore) (addr : Addr) (seq : Int) (now : Int) :
    Option infoStore :=
  let fresh := is.Infos.filter (fun kv => !kv.2.expired now && kv.2.isFresh addr seq)
  if fresh.isEmpty then none
  else some { Infos := fresh, NodeAddr := is.NodeAddr, MaxSeq := maxSeqOf seq fresh }

/-- Modelled from the spec: the address set of the missing `addrset.go`: a
"bounded set of network addresses (max size known a priori)". Members are
told apart by their string form, as everywhere in `client.go` and `gossip.go`. -/
structure addrSet where
  addrs : List Addr
  maxSize : Nat
  deriving DecidableEq, Repr

/-- Modelled from the spec: the membership test of the address set. -/
def addrSet.hasAddr (s : addrSet) (a : Addr) : Bool :=
  s.addrs.any (fun b => decide (b.String = a.String))

/-! ## `gossip/client.go` -/

/-- The constant `maxWaitForNewGossip = 10 * time.Second`, in nanoseconds. -/
def maxWaitForNewGossip : Int := 10 * 1000000000

/-- The constant `gossipDialTimeout = 2 * time.Second`, in nanoseconds. -/
def gossipDialTimeout : Int := 2 * 1000000000

/-- The value of `x` as an `int64` (two's complement wrap-around). -/
def wrapInt64 (x : Int) : Int := (x + 2 ^ 63) % 2 ^ 64 - 2 ^ 63

/-- The `int64` subtraction `a - b`. -/
def subInt64 (a b : Int) : Int := wrapInt64 (a - b)

/-- The errors a client can end with, one constructor per `util.Errorf` call
of `client.go` (and one for the error of the RPC layer). -/
inductive GossipError where
  /-- The error `"stopping outgoing client %s; already have incoming"`. -/
  | stoppingOutgoing (addr : Addr)
  /-- The error `gossipCall.Error` of the RPC layer, with its message. -/
  | rpcError (msg : GoString)
  /-- The error `"timeout after: %v"`, with the duration. -/
  | timeoutAfter (d : Int)
  /-- The error `"peer is too boring"`. -/
  | peerTooBoring
  /-- The error `"timeout connecting to remote server: %v"`. -/
  | dialTimeout (addr : Addr)
  /-- The error `"gossip client: %s"`, wrapping the error of the loop. -/
  | gossipClient (err : GossipError)
  deriving DecidableEq, Repr

/-- The part of `rpc.Client` the gossip client reads: its local address. -/
structure rpcClient where
  LAddr : Option Addr
  deriving DecidableEq, Repr

/-- The `client` struct: a client-side RPC connection to a gossip peer node.
`closer` records whether the shutdown channel has been closed. -/
structure client where
  addr : Addr
  rpcClient : Option rpcClient
  forwardAddr : Option Addr
  lastFresh : Int
  err : Option GossipError
  closer : Bool
  deriving DecidableEq, Repr

/-- `newClient` creates and returns a client struct. -/
def newClient (addr : Addr) : client :=
  { addr := addr, rpcClient := none, forwardAddr := none, lastFresh := 0,
    err := none, closer := false }

/-- The request of the RPC method `Gossip.Gossip`. -/
structure GossipRequest where
  Addr : Addr
  LAddr : Option GossipGo.Addr
  MaxSeq : Int
  Delta : Option infoStore
  deriving DecidableEq, Repr

/-- The response of the RPC method `Gossip.Gossip`. -/
structure GossipResponse where
  Alternate : Option Addr
  Delta : Option infoStore
  deriving DecidableEq, Repr

/-- A Go channel: the values it buffers, its capacity, and whether it has been
closed. -/
structure Chan (α : Type) where
  buf : List α
  cap : Nat
  closed : Bool
  deriving DecidableEq, Repr

/-- The send `ch <- v`. Only the value's arrival is recorded; a send on a full
channel waits for room and is delivered then. -/
def Chan.send {α : Type} (ch : Chan α) (v : α) : Chan α :=
  { ch with buf := ch.buf ++ [v] }

/-- Modelled from the spec: the gossip RPC server embedded in `Gossip`
(`server.go` of the gossip package is not among the sources): the state the
coordinator mutex protects on the server side, namely the infostore `is`, the
set `incoming` of peers being served, the gossip `interval` and the `closed`
flag. -/
structure server where
  is : infoStore
  incoming : addrSet
  interval : Int
  closed : Bool
  deriving DecidableEq, Repr

/-- The `Gossip` struct: an instance of a gossip node; it embeds a gossip
server. `exited` is `none` while the channel is nil; `stalled` counts the
signals sent on the condition variable. -/
structure Gossip extends server where
  Name : GoString
  Connected : Chan Unit
  hasConnected : Bool
  bootstraps : addrSet
  outgoing : addrSet
  clients : List (GoString × client)
  disconnected : Chan client
  exited : Option (Chan (Option GossipError))
  stalled : Nat
  deriving DecidableEq, Repr

/-- `hasIncoming` returns whether the server has an incoming gossip client
matching the provided address. -/
def Gossip.hasIncoming (g : Gossip) (addr : Addr) : Bool :=
  g.incoming.hasAddr addr

/-- The local variables of `client.gossip`. -/
structure loopVars where
  localMaxSeq : Int
  remoteMaxSeq : Int
  deriving DecidableEq, Repr

/-- Which case of the `select` after `rpcClient.Go` fires: the call is done
(with its error, if any, and the reply), the timer of twice the gossip interval
fires, or the client's `closer` channel is closed. -/
inductive CallOutcome where
  | done (error : Option GoString) (reply : GossipResponse)
  | timeout
  | closer
  deriving DecidableEq, Repr

/-- What the environment contributes to one iteration of the exchange loop:
the clock seen by `delta`, what the other goroutines do to the coordinator
state while the call is in flight, the outcome of the call, and the clock
sampled after the reply (`time.Now().UnixNano()`). -/
structure Round where
  deltaTime : Int
  interference : Gossip → Gossip
  outcome : CallOutcome
  now : Int

/-- What one iteration did that an observer can see: the requests it sent and
the deltas it passed to `combine`. -/
structure Effects where
  sent : List GossipRequest
  combined : List infoStore
  deriving DecidableEq, Repr

/-- Effects in sequence. -/
def Effects.append (a b : Effects) : Effects :=
  { sent := a.sent ++ b.sent, combined := a.combined ++ b.combined }

/-- The result of one iteration of the loop of `client.gossip`: go round
again, return (with the error, `none` for `nil`), or fault on the nil
`rpcClient` of a client that was never started. -/
inductive StepResult where
  | next (g : Gossip) (c : client) (vars : loopVars) (eff : Effects)
  | exit (g : Gossip) (c : client) (err : Option GossipError) (eff : Effects)
  | fault
  deriving DecidableEq, Repr

/-- The redundancy check at the head of the loop (line 105):
`g.hasIncoming(c.addr) && g.is.NodeAddr.String() < c.addr.String()`. -/
def client.redundant (c : client) (g : Gossip) : Bool :=
  g.hasIncoming c.addr && strLt g.is.NodeAddr.String c.addr.String

/-- The block "Combine remote node's infostore delta with ours" (lines
146-155). `combine` is the merge of the missing `infostore.go`, a parameter:
it returns the new store and the fresh count. The last component lists the
deltas passed to `combine`. -/
def client.combineReply (combine : infoStore → infoStore → infoStore × Int)
    (c : client) (g : Gossip) (vars : loopVars) (reply : GossipResponse) (now : Int) :
    Gossip × client × loopVars × List infoStore :=
  match reply.Delta with
  | some d =>
    let r := combine g.is d
    let c1 := if r.2 > 0 then { c with lastFresh := now } else c
    ({ g with is := r.1 }, c1, { vars with remoteMaxSeq := d.MaxSeq }, [d])
  | none => (g, c, vars, [])

/-- The boredom check (line 157):
`(now - c.lastFresh) > int64(maxWaitForNewGossip)`. -/
def client.tooBoring (c : client) (now : Int) : Bool :=
  decide (subInt64 now c.lastFresh > maxWaitForNewGossip)

/-- One iteration of the loop of `client.gossip`. `gossipInterval` is the value
of the flag `-gossip_interval`. -/
def client.gossipStep (combine : infoStore → infoStore → infoStore × Int)
    (gossipInterval : Int) (c : client) (g : Gossip) (vars : loopVars) (r : Round) :
    StepResult :=
  if c.redundant g then
    .exit g c (some (.stoppingOutgoing c.addr)) { sent := [], combined := [] }
  else
    let delta := g.is.delta c.addr vars.localMaxSeq r.deltaTime
    let vars1 : loopVars :=
      match delta with
      | some d => { vars with localMaxSeq := d.MaxSeq }
      | none => vars
    match c.rpcClient with
    | none => .fault
    | some rc =>
      let args : GossipRequest :=
        { Addr := g.is.NodeAddr, LAddr := rc.LAddr, MaxSeq := vars.remoteMaxSeq,
          Delta := delta }
      let g1 := r.interference g
      match r.outcome with
      | .done (some msg) _ =>
        .exit g1 c (some (.rpcError msg)) { sent := [args], combined := [] }
      | .timeout =>
        .exit g1 c (some (.timeoutAfter (wrapInt64 (gossipInterval * 2))))
          { sent := [args], combined := [] }
      | .closer => .exit g1 c none { sent := [args], combined := [] }
      | .done none reply =>
        match reply.Alternate with
        | some alt =>
          .exit g1 { c with forwardAddr := some alt } none { sent := [args], combined := [] }
        | none =>
          let h := c.combineReply combine g1 vars1 reply r.now
          if h.2.1.tooBoring r.now then
            .exit h.1 h.2.1 (some .peerTooBoring) { sent := [args], combined := h.2.2.2 }
          else
            .next h.1 h.2.1 h.2.2.1 { sent := [args], combined := h.2.2.2 }

/-- The local variables of `client.gossip` after the block "Compute the delta
of local node's infostore" (lines 110-115), as `gossipStep` computes them:
`localMaxSeq` follows the delta, `remoteMaxSeq` is untouched. -/
def client.afterDelta (c : client) (g : Gossip) (vars : loopVars) (r : Round) : loopVars :=
  match g.is.delta c.addr vars.localMaxSeq r.deltaTime with
  | some d => { vars with localMaxSeq := d.MaxSeq }
  | none => vars

/-- The request an iteration sends (lines 118-123), as `gossipStep` builds
it. -/
def client.request (c : client) (g : Gossip) (vars : loopVars) (r : Round)
    (rc : GossipGo.rpcClient) : GossipRequest :=
  { Addr := g.is.NodeAddr, LAddr := rc.LAddr, MaxSeq := vars.remoteMaxSeq,
    Delta := g.is.delta c.addr vars.localMaxSeq r.deltaTime }

/-- The result of running `client.gossip` against a finite supply of rounds:
still in the loop when the rounds are used up, returned, or faulted. -/
inductive LoopResult where
  | running (g : Gossip) (c : client) (vars : loopVars) (eff : Effects)
  | returned (g : Gossip) (c : client) (err : Option GossipError) (eff : Effects)
  | fault
  deriving DecidableEq, Repr

/-- Put the effects of an earlier iteration in front of a result. -/
def LoopResult.after (e : Effects) : LoopResult → LoopResult
  | .running g c vars eff => .running g c vars (e.append eff)
  | .returned g c err eff => .returned g c err (e.append eff)
  | .fault => .fault

/-- The `for` loop of `client.gossip`, from the given values of its local
variables, one round of the environment per iteration. -/
def client.gossipLoop (combine : infoStore → infoStore → infoStore × Int)
    (gossipInterval : Int) : client → Gossip → loopVars → List Round → LoopResult
  | c, g, vars, [] =>
    if c.redundant g then
      .returned g c (some (.stoppingOutgoing c.addr)) { sent := [], combined := [] }
    else if c.rpcClient.isNone then .fault
    else .running g c vars { sent := [], combined := [] }
  | c, g, vars, r :: rs =>
    match c.gossipStep combine gossipInterval g vars r with
    | .next g1 c1 vars1 eff =>
      (client.gossipLoop combine gossipInterval c1 g1 vars1 rs).after eff
    | .exit g1 c1 err eff => .returned g1 c1 err eff
    | .fault => .fault

/-- `gossip` loops, sending deltas of the infostore and receiving deltas in
turn: `localMaxSeq := 0`, `remoteMaxSeq := -1`, then the loop. -/
def client.gossip (combine : infoStore → infoStore → infoStore × Int)
    (gossipInterval : Int) (c : client) (g : Gossip) (rounds : List Round) : LoopResult :=
  c.gossipLoop combine gossipInterval g { localMaxSeq := 0, remoteMaxSeq := -1 } rounds

/-- Which case of the first `select` of `client.start` fires: the RPC client
is ready, or the dial timer (`gossipDialTimeout`) fires. -/
inductive DialOutcome where
  | ready
  | timeout
  deriving DecidableEq, Repr

/-- The result of running `client.start`: still gossiping, returned (with the
final coordinator state, the final client and the `done` channel), or
faulted. -/
inductive StartResult where
  | running
  | returned (g : Gossip) (c : client) (done : Chan client)
  | fault
  deriving DecidableEq, Repr

/-- `start` dials the remote addr and commences gossip once connected. Upon
exit, signals client is done by pushing it onto the done channel. `rc` is the
result of `rpc.NewClient(c.addr)`, `startTime` the clock read before
gossiping. -/
def client.start (combine : infoStore → infoStore → infoStore × Int)
    (gossipInterval : Int) (c : client) (g : Gossip) (done : Chan client)
    (rc : GossipGo.rpcClient) (dial : DialOutcome) (startTime : Int) (rounds : List Round) :
    StartResult :=
  let c0 := { c with rpcClient := some rc }
  match dial with
  | .timeout =>
    let c1 := { c0 with err := some (.dialTimeout c0.addr) }
    .returned g c1 (done.send c1)
  | .ready =>
    let c1 := { c0 with lastFresh := startTime }
    match c1.gossip combine gossipInterval g rounds with
    | .running _ _ _ _ => .running
    | .fault => .fault
    | .returned g2 c2 err _ =>
      let c3 :=
        match err with
        | some e => { c2 with err := some (.gossipClient e) }
        | none => c2
      .returned g2 c3 (done.send c3)

/-- The logging of the `disconnected` case of `Gossip.manage`:
`if c.err != nil { log.Printf("client disconnected: %s", c.err) }`; the result
lists the errors logged. -/
def manageDisconnectedLog (c : client) : List GossipError :=
  match c.err with
  | some e => [e]
  | none => []

/-! ## `gossip/gossip.go` -/

/-- The constant `MaxPeers`: the maximum number of connected gossip peers. -/
def MaxPeers : Nat := 10

/-- The constant `defaultNodeCount`: the default number of nodes in the gossip
network. -/
def defaultNodeCount : Int := 1000

/-- `maxToleratedHops` computes the maximum number of hops which the gossip
network should allow when optimally configured. The result is `none` when the
type assertion `info.Val.(int64)` fails and the function does not return.

Two parameters stand for what the sources do not hold: `KeyNodeCount`, the
well-known key (declared outside the sources), and `ceilLogRatio n p`, the
value of `uint32(math.Ceil(math.Log(float64(n)) / math.Log(float64(p))))` as
the `math` package computes it in `float64` (`ceilLogFloat` below). The
arithmetic on the result is `uint32` arithmetic. -/
def Gossip.maxToleratedHops (ceilLogRatio : Int → Int → Nat) (KeyNodeCount : GoString)
    (g : Gossip) (now : Int) : Option Nat :=
  let nodeCount : Option Int :=
    match g.is.getInfo KeyNodeCount now with
    | some i =>
      match i.Val with
      | .int64 n => some n
      | _ => none
    | none => some defaultNodeCount
  nodeCount.map (fun n => (ceilLogRatio n MaxPeers % 2 ^ 32 * 2 + 1) % 2 ^ 32)

/-! ### The address set, continued

The operations of the missing `addrset.go` that `gossip.go` calls. The spec
lists them ("add, remove, membership test, size, uniformly-random selection,
filtering") and says of two what they do: "`select_random` picks uniformly
from current members. `filter(pred)` returns a new set retaining members
satisfying `pred`." -/

/-- Modelled from the spec: `newAddrSet(maxSize)`, the empty address set. -/
def newAddrSet (maxSize : Nat) : addrSet :=
  { addrs := [], maxSize := maxSize }

/-- Modelled from the spec: the size of the address set. -/
def addrSet.len (s : addrSet) : Nat :=
  s.addrs.length

/-- Modelled from the spec: "add" of the address set: the address joins the
set unless an address of the same string form is a member already. The spec
gives no rule for a set that has reached `maxSize`, and `startClient` reads no
result of the call: the address is added. -/
def addrSet.addAddr (s : addrSet) (a : Addr) : addrSet :=
  if s.hasAddr a then s else { s with addrs := s.addrs ++ [a] }

/-- Modelled from the spec: "remove" of the address set. -/
def addrSet.removeAddr (s : addrSet) (a : Addr) : addrSet :=
  { s with addrs := s.addrs.filter (fun b => decide (b.String ≠ a.String)) }

/-- Modelled from the spec: "`filter(pred)` returns a new set retaining members
satisfying `pred`". -/
def addrSet.filter (s : addrSet) (pred : Addr → Bool) : addrSet :=
  { s with addrs := s.addrs.filter pred }

/-- Modelled from the spec: "`select_random` picks uniformly from current
members"; `choice` is the random number drawn, and the empty set yields
`nil`. -/
def addrSet.selectRandom (s : addrSet) (choice : Nat) : Option Addr :=
  s.addrs[choice % s.addrs.length]?

/-- Modelled from the spec: the members of the address set as a slice. -/
def addrSet.asSlice (s : addrSet) : List Addr :=
  s.addrs

/-! ### The coordinator -/

/-- What `gossip.go` uses and the sources do not hold, as parameters:
`ceilLogRatio` (the `float64` expression of `maxToleratedHops`), the
well-known keys `KeyNodeCount` and `KeySentinel`, and two queries of the missing
`infostore.go`: `distant` (store, hop threshold, clock) and `leastUseful`
(store, candidate set). -/
structure Deps where
  ceilLogRatio : Int → Int → Nat
  KeyNodeCount : GoString
  KeySentinel : GoString
  distant : infoStore → Nat → Int → addrSet
  leastUseful : infoStore → addrSet → Option Addr

/-- A line written with `log.Printf` by the coordinator. -/
inductive LogLine where
  /-- The line `"client disconnected: %s"`. -/
  | clientDisconnected (err : GossipError)
  /-- The line `"bootstrapping gossip protocol using host %+v"`. -/
  | bootstrapping (addr : Addr)
  /-- The line `"closing least useful client %+v to tighten network graph"`. -/
  | closingLeastUseful (addr : Addr)
  /-- The line `"no outgoing hosts; signaling bootstrap"`. -/
  | noOutgoingHosts
  /-- The line `"missing sentinel gossip %s; assuming partition and reconnecting"`. -/
  | missingSentinel
  deriving DecidableEq, Repr

/-- What a stretch of coordinator code did besides changing the coordinator
state: the clients it launched (`go c.start(g, g.disconnected)`), the clients
it closed (`c.close()`), the lines it logged, and how many times it closed the
`Connected` channel. -/
structure PassEffects where
  started : List client
  closed : List client
  logged : List LogLine
  connectedCloses : Nat
  deriving DecidableEq, Repr

/-- No effect. -/
def PassEffects.none : PassEffects :=
  { started := [], closed := [], logged := [], connectedCloses := 0 }

/-- Effects in sequence. -/
def PassEffects.append (a b : PassEffects) : PassEffects :=
  { started := a.started ++ b.started, closed := a.closed ++ b.closed,
    logged := a.logged ++ b.logged,
    connectedCloses := a.connectedCloses + b.connectedCloses }

/-- The statement `delete(g.clients, key)`. -/
def clientsDelete (m : List (GoString × client)) (key : GoString) : List (GoString × client) :=
  m.filter (fun e => decide (e.1 ≠ key))

/-- The statement `g.clients[key] = c`. -/
def clientsSet (m : List (GoString × client)) (key : GoString) (c : client) :
    List (GoString × client) :=
  (key, c) :: clientsDelete m key

/-- The statement `close(ch)`; closing a closed channel panics (`none`). -/
def Chan.close {α : Type} (ch : Chan α) : Option (Chan α) :=
  if ch.closed then none else some { ch with closed := true }

/-- `New` creates an instance of a gossip node. `s` is the result of
`newServer(rpcServer, *gossipInterval)`, a function of the missing `server.go`.
The fields the composite literal does not name keep their zero values: `Name`
is empty, `hasConnected` is false, `exited` is the nil channel. -/
def New (s : server) : Gossip :=
  { toserver := s,
    Name := [],
    Connected := { buf := [], cap := 1, closed := false },
    hasConnected := false,
    bootstraps := newAddrSet MaxPeers,
    outgoing := newAddrSet MaxPeers,
    clients := [],
    disconnected := { buf := [], cap := MaxPeers, closed := false },
    exited := none,
    stalled := 0 }

/-- `filterExtant` removes any addresses from the supplied addrSet which are
already connected to this node, either via outgoing or incoming client
connections; the result is the new set that `filter` returns. -/
def Gossip.filterExtant (g : Gossip) (addrs : addrSet) : addrSet :=
  (addrs.filter (fun a => !g.outgoing.hasAddr a)).filter (fun a => !g.incoming.hasAddr a)

/-- `startClient` launches a new client connected to remote address: the client
is added to the outgoing address set and to the clients map, and launched in a
goroutine; the second component is the client launched. -/
def Gossip.startClient (g : Gossip) (addr : Addr) : Gossip × client :=
  let c := newClient addr
  ({ g with outgoing := g.outgoing.addAddr c.addr,
            clients := clientsSet g.clients c.addr.String c }, c)

/-- `closeClient` closes an existing client specified by client's remote
address. The result is `none` when the call panics: `g.clients` holds no
client for the address, so that `c.close()` dereferences nil, or the client's
`closer` is closed already. The second component is the client closed. -/
def Gossip.closeClient (g : Gossip) (addr : Addr) : Option (Gossip × client) :=
  match g.clients.lookup addr.String with
  | none => none
  | some c =>
    if c.closer then none
    else some ({ g with clients := clientsDelete g.clients addr.String },
               { c with closer := true })

/-- How a pass of one of the coordinator's loops ends: the loop goes round
again (`next`), the loop is left and the goroutine ends (`exit`), the goroutine
blocks for ever on a send (`blocked`), the chosen `select` case is not ready in
this state (`notReady`), or the goroutine panics (`fault`). -/
inductive PassResult where
  | next (g : Gossip) (eff : PassEffects)
  | exit (g : Gossip) (eff : PassEffects)
  | blocked (g : Gossip) (eff : PassEffects)
  | notReady
  | fault
  deriving DecidableEq, Repr

/-- One pass of the `for` loop of `Gossip.bootstrap` (lines 307-329), from
`g.mu.Lock()` to the return of `g.stalled.Wait()`; `now` is the clock seen by
`getInfo`, `choice` the random number drawn by `selectRandom`. -/
def Gossip.bootstrapPass (d : Deps) (g : Gossip) (now : Int) (choice : Nat) : PassResult :=
  if g.closed then .exit g PassEffects.none
  else
    let avail := g.filterExtant g.bootstraps
    if avail.len > 0 then
      let haveClients := decide (g.outgoing.len > 0)
      let haveSentinel := (g.is.getInfo d.KeySentinel now).isSome
      if !haveClients || !haveSentinel then
        match avail.selectRandom choice with
        | none => .fault
        | some addr =>
          let r := g.startClient addr
          .next r.1 { PassEffects.none with started := [r.2], logged := [.bootstrapping addr] }
      else .next g PassEffects.none
    else .next g PassEffects.none

/-- The case `c := <-g.disconnected` of the `select` of `Gossip.manage` (lines
347-358), for the client `c` received. -/
def Gossip.manageDisconnected (g : Gossip) (c : client) : Gossip × PassEffects :=
  let logged := (manageDisconnectedLog c).map LogLine.clientDisconnected
  let g1 := { g with outgoing := g.outgoing.removeAddr c.addr,
                     clients := clientsDelete g.clients c.addr.String }
  match c.forwardAddr with
  | some fwd =>
    let r := g1.startClient fwd
    (r.1, { PassEffects.none with started := [r.2], logged := logged })
  | none => (g1, { PassEffects.none with logged := logged })

/-- The case `<-checkTimeout` of the `select` of `Gossip.manage` (lines
360-380); `none` when the case panics. -/
def Gossip.manageTick (d : Deps) (g : Gossip) (now : Int) (choice : Nat) :
    Option (Gossip × PassEffects) :=
  match g.maxToleratedHops d.ceilLogRatio d.KeyNodeCount now with
  | none => none
  | some hops =>
    let distant := g.filterExtant (d.distant g.is hops now)
    if distant.len > 0 then
      if g.outgoing.len < MaxPeers then
        match distant.selectRandom choice with
        | none => none
        | some addr =>
          let r := g.startClient addr
          some (r.1, { PassEffects.none with started := [r.2] })
      else
        match d.leastUseful g.is g.outgoing with
        | some addr =>
          match g.closeClient addr with
          | none => none
          | some r =>
            some (r.1, { PassEffects.none with
                          closed := [r.2], logged := [.closingLeastUseful addr] })
        | none => some (g, PassEffects.none)
    else some (g, PassEffects.none)

/-- The statements of `Gossip.manage` after the `select` that signal the
bootstrapper or fire `Connected` (lines 382-393); `none` when `close` panics. -/
def Gossip.managePost (d : Deps) (g : Gossip) (now : Int) : Option (Gossip × PassEffects) :=
  if g.outgoing.len == 0 && decide ((g.filterExtant g.bootstraps).len > 0) then
    some ({ g with stalled := g.stalled + 1 },
          { PassEffects.none with logged := [.noOutgoingHosts] })
  else if (g.is.getInfo d.KeySentinel now).isNone then
    some ({ g with stalled := g.stalled + 1 },
          { PassEffects.none with logged := [.missingSentinel] })
  else if !g.hasConnected then
    match g.Connected.close with
    | none => none
    | some ch =>
      some ({ g with hasConnected := true, Connected := ch },
            { PassEffects.none with connectedCloses := 1 })
  else some (g, PassEffects.none)

/-- The exit condition of `Gossip.manage` and what follows it (lines 395-403):
when `closed` is set and no outgoing client is left, the loop is left and
`g.exited <- nil` is executed, which blocks for ever on a nil channel. -/
def Gossip.manageExit (g : Gossip) (eff : PassEffects) : PassResult :=
  if g.closed && g.outgoing.len == 0 then
    match g.exited with
    | none => .blocked g eff
    | some ch => .exit { g with exited := some (ch.send none) } eff
  else .next g eff

/-- Which case of the `select` of `Gossip.manage` fires. -/
inductive ManageEvent where
  | disconnected
  | tick (choice : Nat)
  deriving DecidableEq, Repr

/-- One pass of the `for` loop of `Gossip.manage` (lines 345-400): the case of
the `select`, the signalling, the exit check. `nowCase` and `nowPost` are the
clock seen by the `getInfo` calls of the first two. -/
def Gossip.managePass (d : Deps) (g : Gossip) (ev : ManageEvent) (nowCase nowPost : Int) :
    PassResult :=
  let afterCase : Option (Option (Gossip × PassEffects)) :=
    match ev with
    | .disconnected =>
      match g.disconnected.buf with
      | [] => none
      | c :: rest =>
        some (some
          (Gossip.manageDisconnected
            { g with disconnected := { g.disconnected with buf := rest } } c))
    | .tick choice => some (g.manageTick d nowCase choice)
  match afterCase with
  | none => .notReady
  | some none => .fault
  | some (some r1) =>
    match r1.1.managePost d nowPost with
    | none => .fault
    | some r2 => r2.1.manageExit (r1.2.append r2.2)

/-- The coordinator state and the effects a pass ends with, if it ends with
any. -/
def PassResult.outcome : PassResult → Option (Gossip × PassEffects)
  | .next g eff => some (g, eff)
  | .exit g eff => some (g, eff)
  | .blocked g eff => some (g, eff)
  | .notReady => none
  | .fault => none

/-- The loop of `Gossip.Stop` over `g.outgoing.asSlice()`: `closeClient` for
each address; `none` when one of the calls panics. -/
def Gossip.closeAll (g : Gossip) : List Addr → Option (Gossip × List client)
  | [] => some (g, [])
  | addr :: rest =>
    match g.closeClient addr with
    | none => none
    | some r =>
      match Gossip.closeAll r.1 rest with
      | none => none
      | some r2 => some (r2.1, r.2 :: r2.2)

/-- `Stop` shuts down the gossip server. `stopServing`, of the missing
`server.go`, does what the comment of its call says: it "set[s] server's
closed boolean". The result is the coordinator, the clients closed and the
channel returned (`none` for the nil channel); `none` when `closeClient`
panics. -/
def Gossip.Stop (g : Gossip) :
    Option (Gossip × List client × Option (Chan (Option GossipError))) :=
  let g1 := { g with closed := true }
  let g2 := { g1 with stalled := g1.stalled + 1 }
  match g2.closeAll g2.outgoing.asSlice with
  | none => none
  | some r => some (r.1, r.2, r.1.exited)

/-- `SetBootstrap` initializes the set of gossip node addresses used to
bootstrap the gossip network. -/
def Gossip.SetBootstrap (g : Gossip) (bootstraps : List Addr) : Gossip :=
  { g with bootstraps := bootstraps.foldl (fun s addr => s.addAddr addr) g.bootstraps }

/-- What can happen to a coordinator, one mutex-protected stretch at a time:
a call of `SetBootstrap`; a change of the infostore (a local publish, a merge
by the server or by a client) or of the incoming set (the server registers or
drops a peer); a client goroutine pushing itself onto `g.disconnected`; a call
of `Stop`; a pass of the bootstrap loop; a pass of the manage loop. -/
inductive Event where
  | setBootstrap (addrs : List Addr)
  | store (is : infoStore)
  | incoming (s : addrSet)
  | clientDone (c : client)
  | stop
  | bootstrap (now : Int) (choice : Nat)
  | manage (ev : ManageEvent) (nowCase nowPost : Int)
  deriving Repr

/-- The coordinator after one event, with the effects of the event; `none`
when the event cannot happen in this state (a receive on the empty
`disconnected` channel) or ends in a panic. -/
def Gossip.step (d : Deps) (g : Gossip) : Event → Option (Gossip × PassEffects)
  | .setBootstrap addrs => some (g.SetBootstrap addrs, PassEffects.none)
  | .store is => some ({ g with is := is }, PassEffects.none)
  | .incoming s => some ({ g with incoming := s }, PassEffects.none)
  | .clientDone c => some ({ g with disconnected := g.disconnected.send c }, PassEffects.none)
  | .stop =>
    match g.Stop with
    | none => none
    | some r => some (r.1, { PassEffects.none with closed := r.2.1 })
  | .bootstrap now choice => (g.bootstrapPass d now choice).outcome
  | .manage ev nowCase nowPost => (g.managePass d ev nowCase nowPost).outcome

/-- The coordinator after a sequence of events, with the effects of them all;
`none` when one of the events cannot happen or panics. -/
def Gossip.run (d : Deps) : Gossip → List Event → Option (Gossip × PassEffects)
  | g, [] => some (g, PassEffects.none)
  | g, e :: es =>
    match g.step d e with
    | none => none
    | some r1 =>
      match Gossip.run d r1.1 es with
      | none => none
      | some r2 => some (r2.1, r1.2.append r2.2)

/-! ### The mutex

What each function of `gossip.go` does with the coordinator mutex `g.mu` and
with the fields it protects, statement by statement. -/

/-- The fields of the coordinator that the mutex `g.mu` protects. -/
inductive Shared where
  | infostore
  | incoming
  | closed
  | interval
  | bootstraps
  | outgoing
  | clients
  | hasConnected
  deriving DecidableEq, Repr

/-- A statement as the mutex sees it: `g.mu.Lock()`, `g.mu.Unlock()` (also
when deferred, at the return), a read or write of a protected field, or
`g.stalled.Wait()`, which unlocks, suspends and locks again. -/
inductive MuOp where
  | lock
  | unlock
  | touch (f : Shared)
  | wait
  deriving DecidableEq, Repr

/-- The state of the mutex (held by this goroutine or not) after a goroutine
has run the statements, starting from `held`; `none` when a field is touched
while the mutex is not held, when `Lock` is called while it is held (the
goroutine deadlocks: the mutex is not reentrant), or when `Unlock` or `Wait` is
called while it is not held. -/
def muAfter : Bool → List MuOp → Option Bool
  | held, [] => some held
  | held, .lock :: rest => if held then none else muAfter true rest
  | held, .unlock :: rest => if held then muAfter false rest else none
  | held, .touch _ :: rest => if held then muAfter true rest else none
  | held, .wait :: rest => if held then muAfter true rest else none

/-- A function keeps the mutex discipline when, called with the mutex free,
it touches the fields only while holding it and returns with it free. -/
def disciplined (ops : List MuOp) : Bool :=
  muAfter false ops == some false

/-- The public operations that start with `g.mu.Lock()` and
`defer g.mu.Unlock()` (`SetBootstrap`, `SetInterval`, `AddInfo`, `GetInfo`,
`GetGroupInfos`, `RegisterGroup`, `MaxHops`, `Incoming`, `Outgoing`,
`hasIncoming`, `parseBootstrapAddresses`), touching the fields `body` in
between. -/
def lockedOps (body : List Shared) : List MuOp :=
  .lock :: (body.map .touch ++ [.unlock])

/-- The statements of `startClient`: `g.outgoing.addAddr`, `g.clients[...] = c`. -/
def startClientOps : List MuOp :=
  [.touch .outgoing, .touch .clients]

/-- The statements of `closeClient`: `g.clients[...]`, `delete(g.clients, ...)`. -/
def closeClientOps : List MuOp :=
  [.touch .clients, .touch .clients]

/-- The statements of `Stop` for `n` outgoing addresses: `g.stopServing()` (of
the missing `server.go`; it returns with the mutex as it found it),
`g.stalled.Signal()`, the traversal `g.outgoing.asSlice()`, and a call of
`closeClient` for each address. No statement of `Stop` locks `g.mu`. -/
def StopOps (n : Nat) : List MuOp :=
  .touch .outgoing :: (List.replicate n closeClientOps).flatten

/-- The statements of one pass of the loop of `bootstrap`: `g.mu.Lock()`, the
test of `g.closed`, then either `break` (the function returns) or the body,
touching `body`, followed by `g.stalled.Wait()` and `g.mu.Unlock()`. -/
def bootstrapOps (closed : Bool) (body : List Shared) : List MuOp :=
  .lock :: .touch .closed ::
    (if closed then [] else body.map .touch ++ [.wait, .unlock])

/-- The statements of one pass of the loop of `manage`: `g.mu.Lock()` in the
`select` case, the case and the signalling (touching `body`), the exit test of
`g.closed` and `g.outgoing`, then either `break` (followed by the send on
`g.exited`) or `g.mu.Unlock()`. -/
def manageOps (body : List Shared) (exits : Bool) : List MuOp :=
  .lock :: (body.map .touch ++
    (.touch .closed :: .touch .outgoing :: (if exits then [] else [.unlock])))

/-! ### Group infos and the trace of a session -/

/-- The error of `GetGroupInfos`: `"group %q doesn't exist"`, with the group
name. -/
inductive GroupError where
  | doesntExist (group : GoString)
  deriving DecidableEq, Repr

/-- `GetGroupInfos` returns a slice of info values from specified group, or an
error if group is not registered. `getGroupInfos` is the query of the missing
`infostore.go`, a parameter: `none` is its `nil` result. -/
def Gossip.GetGroupInfos (getGroupInfos : infoStore → GoString → Option (List info))
    (g : Gossip) (group : GoString) : Except GroupError (List Value) :=
  match getGroupInfos g.is group with
  | none => .error (.doesntExist group)
  | some infos => .ok (infos.map (fun i => i.Val))

/-- The delta of the reply that ends a round, `nil` when the round brings no
reply (an error, a timeout, or the close of the client). -/
def Round.replyDelta (r : Round) : Option infoStore :=
  match r.outcome with
  | .done none reply => reply.Delta
  | _ => none

/-- The requests a run of `client.gossip` sent, in order. -/
def LoopResult.sent : LoopResult → List GossipRequest
  | .running _ _ _ eff => eff.sent
  | .returned _ _ _ eff => eff.sent
  | .fault => []

/-- An iteration of the exchange loop that sends a request, as it starts: the
coordinator state and the local variables at the head of the iteration,
and the round of the environment it meets. -/
structure Exchange where
  g : Gossip
  vars : loopVars
  round : Round

/-- The delta the iteration computes for the peer `addr` (lines 110-111):
`g.is.delta(c.addr, localMaxSeq)`. -/
def Exchange.delta (x : Exchange) (addr : Addr) : Option infoStore :=
  x.g.is.delta addr x.vars.localMaxSeq x.round.deltaTime

/-- The iterations of `client.gossipLoop` that send a request, in order, each
with the state it starts from. -/
def client.exchanges (combine : infoStore → infoStore → infoStore × Int)
    (gossipInterval : Int) : client → Gossip → loopVars → List Round → List Exchange
  | _, _, _, [] => []
  | c, g, vars, r :: rs =>
    match c.gossipStep combine gossipInterval g vars r with
    | .next g1 c1 vars1 _ =>
      { g := g, vars := vars, round := r } ::
        client.exchanges combine gossipInterval c1 g1 vars1 rs
    | .exit _ _ _ eff =>
      if eff.sent.isEmpty then [] else [{ g := g, vars := vars, round := r }]
    | .fault => []

/-- The wording of the specification: "the MaxSeq of the most recent" delta of a
history (oldest first) "that carried a delta", and `init` "if none did". -/
def mostRecentMaxSeq (init : Int) (history : List (Option infoStore)) : Int :=
  match (history.filterMap id).getLast? with
  | some d => d.MaxSeq
  | none => init

/-! ## `storage/config.go` -/

/-- `DiskType` is the type of a disk that a Store is storing data on: `SSD`
(0), `HDD` (1) or `MEM` (2). -/
inductive DiskType where
  | SSD
  | HDD
  | MEM
  deriving DecidableEq, Repr

/-- `Replica` describes a replica location by node ID, store ID and range ID;
datacenter and disk type are provided to optimize reads. -/
structure Replica where
  NodeID : Int
  StoreID : Int
  RangeID : Int
  Datacenter : GoString
  DiskType : DiskType
  deriving DecidableEq, Repr

/-- `StoreCapacity` contains capacity information for a storage device. -/
structure StoreCapacity where
  Capacity : Int
  Available : Int
  DiskType : DiskType
  deriving DecidableEq, Repr

/-- `NodeAttributes` holds details on node physical/network topology. -/
structure NodeAttributes where
  NodeID : Int
  Address : Addr
  Datacenter : GoString
  PDU : GoString
  Rack : GoString
  deriving DecidableEq, Repr

/-- `StoreAttributes` holds store information including physical/network
topology via `NodeAttributes` and disk type and capacity data. -/
structure StoreAttributes where
  StoreID : Int
  Attributes : NodeAttributes
  Capacity : StoreCapacity
  deriving DecidableEq, Repr

/-- A `float64`, by its value: a finite number `mant * 2 ^ exp`, an infinity
or a NaN. The sign of a zero is not kept (no operation below reads it), nor is
the exponent range (no quotient of two `int64`s leaves it). -/
inductive Float64 where
  | finite (mant : Int) (exp : Int)
  | inf (negative : Bool)
  | nan
  deriving DecidableEq, Repr

/-- The number of times `n` can be halved before it is below 2, counting at
most `fuel` times: the position of the leading bit of `n` when `fuel` is at
least that. -/
def leadingBit : Nat → Nat → Nat
  | 0, _ => 0
  | fuel + 1, n => if n < 2 then 0 else leadingBit fuel (n / 2) + 1

/-- The `float64` nearest to the rational `n / d`, for `n` and `d` positive, as
a mantissa of 53 bits and an exponent: the quotient is scaled by the power of
two that leaves 53 bits before the binary point, and rounded to the nearest
integer, to the even one in a tie. -/
def roundRatio (n d : Nat) : Nat × Int :=
  let s0 : Int := 52 + (leadingBit d d : Int) - (leadingBit n n : Int)
  let q0 : Nat := if 0 ≤ s0 then n * 2 ^ s0.toNat / d else n / (d * 2 ^ (-s0).toNat)
  let s : Int := if q0 < 2 ^ 52 then s0 + 1 else s0
  let num : Nat := if 0 ≤ s then n * 2 ^ s.toNat else n
  let den : Nat := if 0 ≤ s then d else d * 2 ^ (-s).toNat
  let q := num / den
  let r := num % den
  let m := if den < 2 * r ∨ (2 * r = den ∧ q % 2 = 1) then q + 1 else q
  (m, -s)

/-- The conversion `float64(x)` of an `int64`. -/
def Float64.ofInt64 (x : Int) : Float64 :=
  if x = 0 then .finite 0 0
  else
    let r := roundRatio x.natAbs 1
    .finite (if x < 0 then -(r.1 : Int) else r.1) r.2

/-- The quotient `a / b` of two `float64`s; the divisor, when zero, is the
positive zero. -/
def Float64.div : Float64 → Float64 → Float64
  | .nan, _ => .nan
  | _, .nan => .nan
  | .inf _, .inf _ => .nan
  | .inf s, .finite m _ => .inf (s != decide (m < 0))
  | .finite _ _, .inf _ => .finite 0 0
  | .finite ma ea, .finite mb eb =>
    if mb = 0 then
      if ma = 0 then .nan else .inf (decide (ma < 0))
    else if ma = 0 then .finite 0 0
    else
      let r := roundRatio (ma.natAbs * 2 ^ (ea - eb).toNat) (mb.natAbs * 2 ^ (eb - ea).toNat)
      .finite (if decide (ma < 0) != decide (mb < 0) then -(r.1 : Int) else r.1) r.2

/-- The comparison `a < b` of two `float64`s. -/
def Float64.lt : Float64 → Float64 → Bool
  | .nan, _ => false
  | _, .nan => false
  | .inf s, .inf t => s && !t
  | .inf s, .finite _ _ => s
  | .finite _ _, .inf t => !t
  | .finite ma ea, .finite mb eb =>
    decide (ma * 2 ^ (ea - min ea eb).toNat < mb * 2 ^ (eb - min ea eb).toNat)

/-- `PercentAvail` computes the percentage of disk space that is available. -/
def StoreCapacity.PercentAvail (sc : StoreCapacity) : Float64 :=
  (Float64.ofInt64 sc.Available).div (Float64.ofInt64 sc.Capacity)

/-- A value of the interface `gossip.Ordered`: a `StoreAttributes`, or a value
of some other type implementing the interface. -/
inductive Ordered where
  | storeAttributes (a : StoreAttributes)
  | other (tag : Nat)
  deriving DecidableEq, Repr

/-- `Less` compares two StoreAttributess based on percentage of disk available.
The result is `none` when the type assertion `b.(StoreAttributes)` panics. -/
def StoreAttributes.Less (a : StoreAttributes) (b : Ordered) : Option Bool :=
  match b with
  | .storeAttributes b => some (a.Capacity.PercentAvail.lt b.Capacity.PercentAvail)
  | .other _ => none

/-- The call `r.Intn(n)` on `util.CachedRand`, a `*rand.Rand` declared outside
the sources: "a non-negative pseudo-random number in the half-open interval
[0,n)"; it panics (`none`) if `n <= 0`. `draw` is the outcome of the random
source. -/
def Intn (draw : Nat) (n : Nat) : Option Nat :=
  if n = 0 then none else some (draw % n)

/-- A `*Replica` as `ChooseRandomReplica` returns one: nil, or the address of
the element of the slice with the given index. -/
inductive ReplicaPtr where
  | nil
  | elem (index : Nat)
  deriving DecidableEq, Repr

/-- `ChooseRandomReplica` returns a replica selected at random or nil if none
exist. The result is `none` when the call panics, in `Intn` or on an index out
of range. -/
def ChooseRandomReplica (replicas : List Replica) (draw : Nat) : Option ReplicaPtr :=
  if replicas.length = 0 then some .nil
  else
    match Intn draw replicas.length with
    | none => none
    | some i => if i < replicas.length then some (.elem i) else none

/-- The element a `*Replica` points to. -/
def ReplicaPtr.deref (replicas : List Replica) : ReplicaPtr → Option Replica
  | .nil => none
  | .elem i => replicas[i]?

/-! ## `server/server.go` -/

/-- `strings.HasPrefix(s, p)`: whether `s` begins with `p`. -/
def hasPrefix : GoString → GoString → Bool
  | _, [] => true
  | [], _ :: _ => false
  | a :: s, b :: p => a == b && hasPrefix s p

/-- `strings.Contains(s, substr)`: whether `substr` is within `s`. -/
def Contains : GoString → GoString → Bool
  | [], substr => substr.isEmpty
  | a :: s, substr => hasPrefix (a :: s) substr || Contains s substr

/-- Whether the byte is in the class `\d`: an ASCII digit. -/
def isDigit (b : Byte) : Bool :=
  decide (48 ≤ b.val ∧ b.val ≤ 57)

/-- The second alternative of `dataDirRE`, `(ssd|hdd)=(.*)$`, at the leftmost
place of `s` where it matches: `ssd=` or `hdd=` followed by the rest of the
text, which must hold no newline (`.` matches none, `$` only the end of the
text). The result is the match and the four groups; `none` when there is no
match. -/
def matchDisk : GoString → Option (List GoString)
  | [] => none
  | b :: rest =>
    if (hasPrefix (b :: rest) [115, 115, 100, 61] || hasPrefix (b :: rest) [104, 100, 100, 61])
        && !(((b :: rest).drop 4).contains 10) then
      some [b :: rest, [], [], (b :: rest).take 3, (b :: rest).drop 4]
    else matchDisk rest

/-- `dataDirRE.FindStringSubmatch(spec)` for the regular expression
`^(mem)=([\d]*)|(ssd|hdd)=(.*)$` of `dataDirRE`: "a slice of strings holding
the text of the leftmost match of the regular expression in s and the matches,
if any, of its subexpressions", `none` for the nil slice of no match. The
expression is an alternation of `^(mem)=([\d]*)` and `(ssd|hdd)=(.*)$` and has
four groups; a group that takes no part in the match gives the empty string.
The first alternative matches only at the start of the text, where the second
cannot match then. -/
def dataDirRE.FindStringSubmatch (spec : GoString) : Option (List GoString) :=
  if hasPrefix spec [109, 101, 109, 61] then
    some [[109, 101, 109, 61] ++ (spec.drop 4).takeWhile isDigit, [109, 101, 109],
          (spec.drop 4).takeWhile isDigit, [], []]
  else matchDisk spec

/-- The digits of a decimal number, most significant first, as a number;
`none` when a byte is not a digit. `acc` is the value of the digits read. -/
def parseDigits (acc : Nat) : List Byte → Option Nat
  | [] => some acc
  | b :: rest => if isDigit b then parseDigits (acc * 10 + (b.val - 48)) rest else none

/-- `strconv.ParseInt(s, 10, 64)`: an optional sign and decimal digits;
`none` for an error (no digits, a byte that is not a digit, or a value outside
the range of `int64`). -/
def ParseInt (s : GoString) : Option Int :=
  let neg : Bool := s.head? = some 45
  let digits : List Byte := if s.head? = some 43 ∨ s.head? = some 45 then s.drop 1 else s
  if digits.isEmpty then none
  else
    match parseDigits 0 digits with
    | none => none
    | some n =>
      let v : Int := if neg then -(n : Int) else n
      if -2 ^ 63 ≤ v ∧ v < 2 ^ 63 then some v else none

/-- A `storage.Engine` as `initEngine` builds one: the in-memory engine of
`storage.NewInMem(size)` (a function declared outside the sources) or a
`RocksDB` with its disk type and data directory. -/
inductive Engine where
  | InMem (size : Int)
  | RocksDB (typ : DiskType) (dir : GoString)
  deriving DecidableEq, Repr

/-- `NewRocksDB` allocates and returns a new RocksDB object; `none` for the
error of the capacity query. `statfs` tells for which directories
`syscall.Statfs` succeeds. -/
def NewRocksDB (statfs : GoString → Bool) (typ : DiskType) (dir : GoString) : Option Engine :=
  if statfs dir then some (.RocksDB typ dir) else none

/-- The errors of `initEngine`, one constructor per `util.Errorf` call. -/
inductive EngineError where
  /-- The error `"invalid engine specification %q"`. -/
  | invalidSpecification (spec : GoString)
  /-- The error `"unable to init in-memory storage %q"`. -/
  | unableInMemory (spec : GoString)
  /-- The error `"unhandled disk type %q"`. -/
  | unhandledDiskType (typ : GoString)
  /-- The error `"unable to init rocksdb with data dir %q"`. -/
  | unableRocksDB (dir : GoString)
  deriving DecidableEq, Repr

/-- `initEngine` parses the engine specification according to the `dataDirRE`
regexp and instantiates an engine of correct type. -/
def initEngine (statfs : GoString → Bool) (spec : GoString) : Except EngineError Engine :=
  match dataDirRE.FindStringSubmatch spec with
  | some [_, m1, m2] =>
    if m1 = [109, 101, 109] then
      match ParseInt m2 with
      | none => .error (.unableInMemory spec)
      | some size => .ok (.InMem size)
    else if m2 = [104, 100, 100] then
      match NewRocksDB statfs .HDD m2 with
      | none => .error (.unableRocksDB m2)
      | some engine => .ok engine
    else if m2 = [115, 115, 100] then
      match NewRocksDB statfs .SSD m2 with
      | none => .error (.unableRocksDB m2)
      | some engine => .ok engine
    else .error (.unhandledDiskType m1)
  | _ => .error (.invalidSpecification spec)

/-- The header name `"Accept-Encoding"`. -/
def acceptEncoding : GoString :=
  [65, 99, 99, 101, 112, 116, 45, 69, 110, 99, 111, 100, 105, 110, 103]

/-- The header name `"Content-Encoding"`. -/
def contentEncoding : GoString :=
  [67, 111, 110, 116, 101, 110, 116, 45, 69, 110, 99, 111, 100, 105, 110, 103]

/-- The header name `"Content-Type"`. -/
def contentType : GoString := [67, 111, 110, 116, 101, 110, 116, 45, 84, 121, 112, 101]

/-- The string `"gzip"`. -/
def gzipName : GoString := [103, 122, 105, 112]

/-- The string `"text/plain"`. -/
def textPlain : GoString := [116, 101, 120, 116, 47, 112, 108, 97, 105, 110]

/-- The pattern `"/_admin/healthz"`. -/
def healthzPath : GoString :=
  [47, 95, 97, 100, 109, 105, 110, 47, 104, 101, 97, 108, 116, 104, 122]

/-- An `http.Header`: the values of each key, keys in canonical form. -/
abbrev Header := List (GoString × List GoString)

/-- `Header.Get` gets the first value associated with the given key, `""` if
there is none. -/
def Header.Get (h : Header) (key : GoString) : GoString :=
  match h.lookup key with
  | some (v :: _) => v
  | _ => []

/-- `Header.Set` sets the header entries associated with key to the single
element value, replacing any existing values. -/
def Header.Set (h : Header) (key : GoString) (value : GoString) : Header :=
  (key, [value]) :: h.filter (fun e => decide (e.1 ≠ key))

/-- The part of an `http.Request` the server reads: the host, the path of the
URL and the header. -/
structure Request where
  Host : GoString
  Path : GoString
  Header : Header
  deriving DecidableEq, Repr

/-- An `http.ResponseWriter`, by what has been done to it: the header map of
the response and the bytes written to its body. -/
structure ResponseWriter where
  header : Header
  body : List Byte
  deriving DecidableEq, Repr

/-- `Write` on an `http.ResponseWriter`. -/
def ResponseWriter.Write (w : ResponseWriter) (b : List Byte) : ResponseWriter :=
  { w with body := w.body ++ b }

/-- The `gzipResponseWriter` struct: the `gzip.Writer` made by
`gzip.NewWriter(w)`, known by the data written to it so far, and the
`http.ResponseWriter` `w` under it. -/
structure gzipResponseWriter where
  WriteCloser : List Byte
  ResponseWriter : ResponseWriter
  deriving DecidableEq, Repr

/-- `newGzipResponseWriter` wraps `w` and a new `gzip.Writer` on it. -/
def newGzipResponseWriter (w : ResponseWriter) : gzipResponseWriter :=
  { WriteCloser := [], ResponseWriter := w }

/-- `Write` of the `gzipResponseWriter`: `w.WriteCloser.Write(b)`, the data
goes to the `gzip.Writer`. -/
def gzipResponseWriter.Write (w : gzipResponseWriter) (b : List Byte) : gzipResponseWriter :=
  { w with WriteCloser := w.WriteCloser ++ b }

/-- `Close` of the `gzipResponseWriter`, promoted from the `gzip.Writer`: it
"closes the Writer by flushing any unwritten data to the underlying io.Writer
and writing the GZIP footer". `gzipEncode` is the encoding of package
`compress/gzip`: the stream that a `gzip.Writer` has written once closed, for
the data written to it. -/
def gzipResponseWriter.Close (gzipEncode : List Byte → List Byte) (w : gzipResponseWriter) :
    GossipGo.ResponseWriter :=
  w.ResponseWriter.Write (gzipEncode w.WriteCloser)

/-- What a handler does to the `http.ResponseWriter` it is given: it sets an
entry of the header, or writes to the body. -/
inductive Action where
  | setHeader (key value : GoString)
  | write (b : List Byte)
  deriving DecidableEq, Repr

/-- The action done on an `http.ResponseWriter`. -/
def ResponseWriter.act (w : ResponseWriter) : Action → ResponseWriter
  | .setHeader key value => { w with header := w.header.Set key value }
  | .write b => w.Write b

/-- The action done on a `gzipResponseWriter`: `Header` is promoted from the
`http.ResponseWriter` under it, `Write` is its own. -/
def gzipResponseWriter.act (w : gzipResponseWriter) : Action → gzipResponseWriter
  | .setHeader key value =>
    { w with ResponseWriter := { w.ResponseWriter with
        header := w.ResponseWriter.header.Set key value } }
  | .write b => w.Write b

/-- `handleHealthz`: `w.Header().Set("Content-Type", "text/plain")`, then
`fmt.Fprintln(w, "ok")`, which writes `"ok\n"`. -/
def handleHealthz (_ : Request) : List Action :=
  [.setHeader contentType textPlain, .write [111, 107, 10]]

/-- The handlers registered by `initHTTP`. -/
inductive Handler where
  | handleHealthz
  | kvREST
  | structuredREST
  deriving DecidableEq, Repr

/-- An `http.ServeMux`: the registered patterns with their handlers. -/
structure ServeMux where
  m : List (GoString × Handler)
  deriving DecidableEq, Repr

/-- `HandleFunc` registers the handler function for the given pattern; it
panics (`none`) on the empty pattern and when a handler already exists for the
pattern. -/
def ServeMux.HandleFunc (mux : ServeMux) (pattern : GoString) (h : Handler) : Option ServeMux :=
  if pattern.isEmpty || (mux.m.lookup pattern).isSome then none
  else some { m := mux.m ++ [(pattern, h)] }

/-- The lookup `match` of `ServeMux`: the handler registered for exactly the
path, else the handler of the longest registered pattern that ends in a slash
and is a prefix of the path. -/
def ServeMux.match (mux : ServeMux) (path : GoString) : Option Handler :=
  match mux.m.lookup path with
  | some h => some h
  | none =>
    (mux.m.foldl
      (fun (best : Option (GoString × Handler)) e =>
        if e.1.getLast? = some 47 && hasPrefix path e.1 &&
            decide ((best.map (fun b => b.1.length)).getD 0 < e.1.length) then some e
        else best)
      none).map (fun b => b.2)

/-- The handler `ServeMux` picks for a request whose path is in canonical
form: patterns that name a host (they do not begin with a slash) take
precedence over the others. -/
def ServeMux.handler (mux : ServeMux) (host path : GoString) : Option Handler :=
  let hosts : Bool := mux.m.any (fun e => decide (e.1.head? ≠ some 47))
  match (if hosts then mux.match (host ++ path) else none) with
  | some h => some h
  | none => mux.match path

/-- The `server` struct of package `server`, named apart from the gossip
server above; of its fields, the `mux`. -/
structure httpServer where
  mux : ServeMux
  deriving DecidableEq, Repr

/-- `initHTTP` registers the three handlers on the mux: `"/_admin/healthz"`,
`kv.KVKeyPrefix` and `structured.StructuredKeyPrefix` (two constants declared
outside the sources). The result is `none` when `HandleFunc` panics. -/
def httpServer.initHTTP (KVKeyPrefix StructuredKeyPrefix : GoString) (s : httpServer) :
    Option httpServer :=
  match s.mux.HandleFunc healthzPath .handleHealthz with
  | none => none
  | some m1 =>
    match m1.HandleFunc KVKeyPrefix .kvREST with
    | none => none
    | some m2 =>
      match m2.HandleFunc StructuredKeyPrefix .structuredREST with
      | none => none
      | some m3 => some { s with mux := m3 }

/-- What the handler that `s.mux.ServeHTTP(w, r)` dispatches to does to `w`,
for a request whose path is in canonical form; `NotFound` when no pattern
matches. `kvREST` and `structuredREST` are the two handlers declared outside
the sources. -/
def ServeMux.ServeHTTP (kvREST structuredREST : Request → List Action) (mux : ServeMux)
    (r : Request) : List Action :=
  match mux.handler r.Host r.Path with
  | some .handleHealthz => handleHealthz r
  | some .kvREST => kvREST r
  | some .structuredREST => structuredREST r
  | none =>
    [.setHeader contentType
        [116, 101, 120, 116, 47, 112, 108, 97, 105, 110, 59, 32, 99, 104, 97, 114, 115, 101,
         116, 61, 117, 116, 102, 45, 56],
     .write [52, 48, 52, 32, 112, 97, 103, 101, 32, 110, 111, 116, 32, 102, 111, 117, 110,
       100, 10]]

/-- `ServeHTTP` is necessary to implement the `http.Handler` interface. It will
gzip a response if the appropriate request headers are set. -/
def httpServer.ServeHTTP (gzipEncode : List Byte → List Byte)
    (kvREST structuredREST : Request → List Action) (s : httpServer) (w : ResponseWriter)
    (r : Request) : ResponseWriter :=
  if !Contains (r.Header.Get acceptEncoding) gzipName then
    (s.mux.ServeHTTP kvREST structuredREST r).foldl ResponseWriter.act w
  else
    let w1 : ResponseWriter := { w with header := w.header.Set contentEncoding gzipName }
    let gzw := newGzipResponseWriter w1
    ((s.mux.ServeHTTP kvREST structuredREST r).foldl gzipResponseWriter.act gzw).Close
      gzipEncode

/-- The `server` that `newServer` returns, as far as it is modelled: its mux
is `http.NewServeMux()`, with no pattern registered. -/
def newServer : httpServer :=
  { mux := { m := [] } }

/-- How a client reads the body of a response, as `TestGzip` does: through
`gzip.NewReader` when the response says `Content-Encoding: gzip`, as it is
otherwise. `gunzip` is the decoding of package `compress/gzip`, `none` for its
error. -/
def decodeBody (gunzip : List Byte → Option (List Byte)) (w : ResponseWriter) :
    Option (List Byte) :=
  if w.header.Get contentEncoding = gzipName then gunzip w.body else some w.body

/-! ## Package `math` -/

/-- The `float64` nearest to the exact value `m * 2 ^ e`. -/
def Float64.round (m : Int) (e : Int) : Float64 :=
  if m = 0 then .finite 0 0
  else
    let r := roundRatio (m.natAbs * 2 ^ e.toNat) (2 ^ (-e).toNat)
    .finite (if m < 0 then -(r.1 : Int) else r.1) r.2

/-- The `float64` of a decimal constant `n / d` of the source. -/
def Float64.ofRatio (n d : Nat) : Float64 :=
  if n = 0 then .finite 0 0 else .finite (roundRatio n d).1 (roundRatio n d).2

/-- The negation `-a`. -/
def Float64.neg : Float64 → Float64
  | .finite m e => .finite (-m) e
  | .inf s => .inf (!s)
  | .nan => .nan

/-- The sum `a + b` of two `float64`s. -/
def Float64.add : Float64 → Float64 → Float64
  | .nan, _ => .nan
  | _, .nan => .nan
  | .inf s, .inf t => if s = t then .inf s else .nan
  | .inf s, .finite _ _ => .inf s
  | .finite _ _, .inf t => .inf t
  | .finite ma ea, .finite mb eb =>
    Float64.round (ma * 2 ^ (ea - min ea eb).toNat + mb * 2 ^ (eb - min ea eb).toNat)
      (min ea eb)

/-- The difference `a - b` of two `float64`s. -/
def Float64.sub (a b : Float64) : Float64 :=
  a.add b.neg

/-- The product `a * b` of two `float64`s. -/
def Float64.mul : Float64 → Float64 → Float64
  | .nan, _ => .nan
  | _, .nan => .nan
  | .inf s, .inf t => .inf (s != t)
  | .inf s, .finite m _ => if m = 0 then .nan else .inf (s != decide (m < 0))
  | .finite m _, .inf t => if m = 0 then .nan else .inf (decide (m < 0) != t)
  | .finite ma ea, .finite mb eb => Float64.round (ma * mb) (ea + eb)

/-- `math.Frexp` "breaks f into a normalized fraction and an integral power of
two": `f == frac × 2**exp`, the absolute value of `frac` in `[1/2, 1)`; zero,
the infinities and NaN are returned as they are, with exponent 0. -/
def Float64.Frexp : Float64 → Float64 × Int
  | .finite m e =>
    if m = 0 then (.finite 0 0, 0)
    else (.finite m (-((leadingBit m.natAbs m.natAbs : Int) + 1)),
          e + (leadingBit m.natAbs m.natAbs : Int) + 1)
  | x => (x, 0)

/-- `math.Ceil` "returns the least integer value greater than or equal to
x"; the infinities and NaN are returned as they are. -/
def Float64.Ceil : Float64 → Float64
  | .finite m e => if 0 ≤ e then .finite m e else .finite (-((-m) / 2 ^ (-e).toNat)) 0
  | x => x

/-- The conversion `uint32(x)` of a `float64`: the fraction is discarded. For a
value that `uint32` cannot represent the result is implementation-dependent;
it is given as the amd64 compiler computes it, by a conversion to `int64`
(which yields the least `int64` when out of range) cut to 32 bits. -/
def Float64.toUint32 : Float64 → Nat
  | .finite m e =>
    let t : Int := if 0 ≤ e then m * 2 ^ e.toNat else Int.sign m * (m.natAbs / 2 ^ (-e).toNat)
    if -2 ^ 63 ≤ t ∧ t < 2 ^ 63 then (t % 2 ^ 32).toNat else 0
  | _ => 0

/-- The constant `Ln2Hi = 6.93147180369123816490e-01` of `math.log`. -/
def Ln2Hi : Float64 := .ofRatio 693147180369123816490 (10 ^ 21)

/-- The constant `Ln2Lo = 1.90821492927058770002e-10` of `math.log`. -/
def Ln2Lo : Float64 := .ofRatio 190821492927058770002 (10 ^ 30)

/-- The constant `L1 = 6.666666666666735130e-01` of `math.log`. -/
def L1 : Float64 := .ofRatio 6666666666666735130 (10 ^ 19)

/-- The constant `L2 = 3.999999999940941908e-01` of `math.log`. -/
def L2 : Float64 := .ofRatio 3999999999940941908 (10 ^ 19)

/-- The constant `L3 = 2.857142874366239149e-01` of `math.log`. -/
def L3 : Float64 := .ofRatio 2857142874366239149 (10 ^ 19)

/-- The constant `L4 = 2.222219843214978396e-01` of `math.log`. -/
def L4 : Float64 := .ofRatio 2222219843214978396 (10 ^ 19)

/-- The constant `L5 = 1.818357216161805012e-01` of `math.log`. -/
def L5 : Float64 := .ofRatio 1818357216161805012 (10 ^ 19)

/-- The constant `L6 = 1.531383769920937332e-01` of `math.log`. -/
def L6 : Float64 := .ofRatio 1531383769920937332 (10 ^ 19)

/-- The constant `L7 = 1.479819860511658591e-01` of `math.log`. -/
def L7 : Float64 := .ofRatio 1479819860511658591 (10 ^ 19)

/-- The constant `Sqrt2/2` of `math.log`, half of
`Sqrt2 = 1.41421356237309504880168872420969807856967187537694807317667974`. -/
def halfSqrt2 : Float64 :=
  .ofRatio 141421356237309504880168872420969807856967187537694807317667974 (2 * 10 ^ 62)

/-- `math.Log` "returns the natural logarithm of x", as the portable
implementation of package `math` computes it (`log.go`, after FreeBSD's
`e_log.c`), every operation rounded to `float64`: the argument is reduced to
`2 ^ k * (1 + f)` with `sqrt(2) / 2 < 1 + f < sqrt(2)`, and `log(1 + f)` is
computed from `s = f / (2 + f)` and a polynomial in `s * s`. -/
def Float64.Log (x : Float64) : Float64 :=
  match x with
  | .nan => .nan
  | .inf false => .inf false
  | .inf true => .nan
  | .finite m e =>
    if m < 0 then .nan
    else if m = 0 then .inf true
    else
      let fr := (Float64.finite m e).Frexp
      let small : Bool := fr.1.lt halfSqrt2
      let f1 : Float64 := if small then fr.1.mul (.ofInt64 2) else fr.1
      let ki : Int := if small then fr.2 - 1 else fr.2
      let f := f1.sub (.ofInt64 1)
      let k := Float64.ofInt64 ki
      let s := f.div ((Float64.ofInt64 2).add f)
      let s2 := s.mul s
      let s4 := s2.mul s2
      let t1 := s2.mul (L1.add (s4.mul (L3.add (s4.mul (L5.add (s4.mul L7))))))
      let t2 := s4.mul (L2.add (s4.mul (L4.add (s4.mul L6))))
      let R := t1.add t2
      let hfsq := ((Float64.ofRatio 1 2).mul f).mul f
      (k.mul Ln2Hi).sub ((hfsq.sub ((s.mul (hfsq.add R)).add (k.mul Ln2Lo))).sub f)

/-- The expression
`uint32(math.Ceil(math.Log(float64(n)) / math.Log(float64(p))))` of
`maxToleratedHops`, in `float64`. -/
def ceilLogFloat (n p : Int) : Nat :=
  (((Float64.ofInt64 n).Log.div (Float64.ofInt64 p).Log).Ceil).toUint32

/-! ## Sample values

Concrete addresses, stores and parameters at which the statements below are
evaluated. -/

/-- The address `tcp` / `"A"`. -/
def addrA : Addr := { Network := [116, 99, 112], String := [65] }

/-- The address `tcp` / `"B"`. -/
def addrB : Addr := { Network := [116, 99, 112], String := [66] }

/-- The address `tcp` / `"C"`. -/
def addrC : Addr := { Network := [116, 99, 112], String := [67] }

/-- An instance of the `combine` parameter, following the merge rule of the
spec for a store in which no group is registered: each incoming info gets one
more hop and the sender as its peer, and replaces the stored copy when the key
is absent or the stored copy has a strictly older timestamp; the result counts
the infos accepted. -/
def combineNoGroups (is : infoStore) (delta : infoStore) : infoStore × Int :=
  delta.Infos.foldl
    (fun (acc : infoStore × Int) (kv : GoString × info) =>
      let i : info :=
        { kv.2 with Hops := kv.2.Hops + 1, peerAddr := delta.NodeAddr,
                    seq := acc.1.MaxSeq + 1 }
      let accept : Bool :=
        match acc.1.Infos.lookup kv.1 with
        | some old => decide (old.Timestamp < i.Timestamp)
        | none => true
      if accept then
        ({ acc.1 with
            Infos := (kv.1, i) :: acc.1.Infos.filter (fun e => decide (e.1 ≠ kv.1)),
            MaxSeq := acc.1.MaxSeq + 1 },
          acc.2 + 1)
      else acc)
    (is, 0)

/-- An instance of the `ceilLogRatio` parameter: the least `k` with
`p ^ k ≥ n`, the exact value of the ceiling of `log n / log p`. -/
def ceilLogExact (n p : Int) : Nat :=
  (List.range 64).foldr (fun k r => if n ≤ p ^ k then k else r) 64

/-- A store with no infos, owned by the node at `owner`. -/
def emptyStore (owner : Addr) : infoStore :=
  { Infos := [], NodeAddr := owner, MaxSeq := 0 }

/-- A coordinator at `owner` serving the incoming peers `incoming`, with an
empty store and no outgoing client. -/
def nodeAt (owner : Addr) (incoming : List Addr) : Gossip :=
  { is := emptyStore owner,
    incoming := { addrs := incoming, maxSize := MaxPeers },
    interval := 2000000000,
    closed := false,
    Name := [],
    Connected := { buf := [], cap := 1, closed := false },
    hasConnected := false,
    bootstraps := { addrs := [], maxSize := MaxPeers },
    outgoing := { addrs := [], maxSize := MaxPeers },
    clients := [],
    disconnected := { buf := [], cap := MaxPeers, closed := false },
    exited := none,
    stalled := 0 }

/-- A client to `addr` after `start` has dialled (no local address known) and
read the clock `startTime`, with the given `err`. -/
def startedClient (addr : Addr) (startTime : Int) (err : Option GossipError) : client :=
  { addr := addr, rpcClient := some { LAddr := none }, forwardAddr := none,
    lastFresh := startTime, err := err, closer := false }

/-- A round in which no other goroutine interferes and the call is done with
`reply`, the clock reading `now` afterwards. -/
def replyRound (reply : GossipResponse) (now : Int) : Round :=
  { deltaTime := now, interference := fun g => g, outcome := .done none reply, now := now }

/-- An instance of the `distant` parameter, following the spec: "the set of
`origin_addr`s of non-expired infos whose `hops > threshold`". -/
def distantOf (is : infoStore) (maxHops : Nat) (now : Int) : addrSet :=
  (is.Infos.filter (fun kv => !kv.2.expired now && decide (kv.2.Hops > maxHops))).foldl
    (fun s kv => s.addAddr kv.2.NodeAddr) (newAddrSet MaxPeers)

/-- The number of stored infos that were received from the peer `a`. -/
def attributedTo (is : infoStore) (a : Addr) : Nat :=
  (is.Infos.filter (fun kv => decide (kv.2.peerAddr.String = a.String))).length

/-- An instance of the `leastUseful` parameter, following the spec: among the
candidates, the address "with the fewest retained fresh infos; ties broken by
address lexicographic order. `nil` if `candidate_set` is empty". -/
def leastUsefulOf (is : infoStore) (s : addrSet) : Option Addr :=
  s.addrs.foldl
    (fun best a =>
      match best with
      | none => some a
      | some b =>
        if attributedTo is a < attributedTo is b ||
            (attributedTo is a == attributedTo is b && strLt a.String b.String) then some a
        else some b)
    none

/-- An instance of the parameters of the coordinator: exact logarithms, the
keys `"n"` (node count) and `"s"` (sentinel), and the two queries above. -/
def sampleDeps : Deps :=
  { ceilLogRatio := ceilLogExact, KeyNodeCount := [110], KeySentinel := [115],
    distant := distantOf, leastUseful := leastUsefulOf }

/-- The address `tcp` / `"P<n>"` of the `n`-th peer, `n` below 10. -/
def peer (n : Nat) : Addr :=
  { Network := [116, 99, 112], String := [80, Fin.ofNat (48 + n)] }

/-- The address `tcp` / `"D"`. -/
def addrD : Addr := { Network := [116, 99, 112], String := [68] }

/-- A coordinator at `owner` with no client, whose store holds one info, alive
until time 100, that originated at `far` and arrived over 9 hops. -/
def distantNode (owner far : Addr) : Gossip :=
  { nodeAt owner [] with
      is := { Infos := [([107], { Key := [107], Val := .int64 7, Timestamp := 0,
                                   TTLStamp := 100, Hops := 9, NodeAddr := far,
                                   peerAddr := addrC, seq := 1 })],
              NodeAddr := owner, MaxSeq := 1 } }

/-- Node `A` after ten calls of `startClient`, for the peers `P0` to `P9`; its
store holds an info that originated at `D` and arrived over 9 hops. -/
def fullNode : Gossip :=
  (List.range 10).foldl (fun g n => (g.startClient (peer n)).1) (distantNode addrA addrD)

/-- A gossip server at `A` with an empty store, as `newServer` returns it. -/
def server0 : server :=
  { is := emptyStore addrA, incoming := newAddrSet MaxPeers, interval := 2000000000,
    closed := false }

/-- A gossip server at `A` that has published the sentinel itself: the store
holds the info `"s"`, originated at `A` with 0 hops, alive until time 100. -/
def serverWithSentinel : server :=
  { server0 with
      is := { Infos := [([115], { Key := [115], Val := .int64 0, Timestamp := 0,
                                   TTLStamp := 100, Hops := 0, NodeAddr := addrA,
                                   peerAddr := addrA, seq := 1 })],
              NodeAddr := addrA, MaxSeq := 1 } }

/-- A schedule that brings a fresh node to eleven outgoing clients. The
bootstrap list is `P0` to `P9` and the sentinel is never seen, so each tick of
`manage` signals the bootstrapper and each pass of the bootstrapper starts a
client: ten passes fill outgoing. The client of `P0` is then forwarded to `D`
by its peer; `manage` replaces `P0` by `D` in outgoing. The next pass of the
bootstrapper finds `P0` available again and starts a client for it. -/
def overflowEvents : List Event :=
  [.setBootstrap ((List.range 10).map peer)] ++
  (List.range 10).flatMap (fun n => [.bootstrap n 0, .manage (.tick 0) n n]) ++
  [.clientDone { startedClient (peer 0) 10 none with forwardAddr := some addrD },
   .manage .disconnected 11 11,
   .bootstrap 12 0]

/-- An info with key `"k"`, value 7, originated at `origin`. -/
def infoFrom (origin : Addr) (timestamp ttl : Int) : info :=
  { Key := [107], Val := .int64 7, Timestamp := timestamp, TTLStamp := ttl, Hops := 0,
    NodeAddr := origin, peerAddr := origin, seq := 1 }

/-- A delta from `origin` carrying `infoFrom origin timestamp ttl`, with
watermark `maxSeq`. -/
def deltaFrom (origin : Addr) (timestamp ttl maxSeq : Int) : infoStore :=
  { Infos := [([107], infoFrom origin timestamp ttl)], NodeAddr := origin, MaxSeq := maxSeq }

/-- An instance of the `getGroupInfos` parameter: the infos whose key has the
group name as its prefix, when there is one. -/
def getGroupInfosOf (is : infoStore) (group : GoString) : Option (List info) :=
  let infos := (is.Infos.filter (fun kv => decide (infoPrefix kv.1 = group))).map (fun kv => kv.2)
  if infos.isEmpty then none else some infos

/-- Node `A` whose store holds the node count `n` under the key `"n"`, alive
until time 100. -/
def nodeWithCount (n : Int) : Gossip :=
  { nodeAt addrA [] with
      is := { Infos := [([110], { Key := [110], Val := .int64 n, Timestamp := 0,
                                   TTLStamp := 100, Hops := 0, NodeAddr := addrA,
                                   peerAddr := addrA, seq := 1 })],
              NodeAddr := addrA, MaxSeq := 1 } }

/-- Four rounds met by the client of `A` to `B`: the first reply carries a
delta with watermark 4, the second carries none, the third carries one with
watermark 9, the fourth carries none. -/
def fourRounds : List Round :=
  [replyRound { Alternate := none, Delta := some (deltaFrom addrB 1 100 4) } 3,
   replyRound { Alternate := none, Delta := none } 4,
   replyRound { Alternate := none, Delta := some (deltaFrom addrB 2 100 9) } 5,
   replyRound { Alternate := none, Delta := none } 6]

/-- A schedule that brings a fresh node to ten outgoing clients and then has
`manage` close one of them. The bootstrap list is `P0` to `P9` and the sentinel
is never seen: ten passes of the bootstrapper, each followed by a tick of
`manage`, fill outgoing. An info that originated at `D` then arrives over 9
hops, and the next tick closes the least useful client, that of `P0`. -/
def closeEvents : List Event :=
  [.setBootstrap ((List.range 10).map peer)] ++
  (List.range 10).flatMap (fun n => [.bootstrap n 0, .manage (.tick 0) n n]) ++
  [.store (distantNode addrA addrD).is,
   .manage (.tick 0) 20 20]

/-- An instance of the `gzipEncode` parameter: the data behind the two magic
bytes of a gzip stream. -/
def sampleGzip (data : List Byte) : List Byte :=
  31 :: 139 :: data

/-- An instance of the `gunzip` parameter, the decoding of `sampleGzip`. -/
def sampleGunzip : List Byte → Option (List Byte)
  | 31 :: 139 :: data => some data
  | _ => none

/-- A `GET /_admin/healthz` with the given values of `Accept-Encoding`. -/
def healthzRequest (accept : List GoString) : Request :=
  { Host := [104], Path := healthzPath, Header := [(acceptEncoding, accept)] }

/-- A store with the given capacity and available space, in bytes. -/
def storeWith (capacity available : Int) : StoreAttributes :=
  { StoreID := 1,
    Attributes := { NodeID := 1, Address := addrA, Datacenter := [], PDU := [], Rack := [] },
    Capacity := { Capacity := capacity, Available := available, DiskType := .SSD } }

/-- A replica of range 1 on the given node. -/
def replicaOn (node : Int) : Replica :=
  { NodeID := node, StoreID := 1, RangeID := 1, Datacenter := [], DiskType := .SSD }

/-- The server after `initHTTP`, with the key prefixes `"/k/"` and `"/s/"`. -/
def servedServer : httpServer :=
  { mux := { m := [(healthzPath, .handleHealthz), ([47, 107, 47], .kvREST),
                   ([47, 115, 47], .structuredREST)] } }

/-- A `GET /_admin/healthz` with `Accept-Encoding: gzip, deflate`. -/
def gzipRequest : Request :=
  healthzRequest [[103, 122, 105, 112, 44, 32, 100, 101, 102, 108, 97, 116, 101]]

/-- Node `A` whose store holds the node count `10 ^ 15 + 1` under the key
`"n"`. -/
def largeNode : Gossip := nodeWithCount (10 ^ 15 + 1)

/-! ## Properties of `info.go` -/

/-- C1: `isFresh(a, s)` is true exactly when `i.seq > s` and neither the origin
(`NodeAddr`) nor the proximate peer (`peerAddr`) has the string form of `a`;
hence every info that `isFresh` selects out of any collection has `seq > s`,
origin different from `a` and peer different from `a`. -/
theorem isFresh_iff (i : info) (a : Addr) (s : Int) :
    (i.isFresh a s = true ↔
      i.seq > s ∧ i.NodeAddr.String ≠ a.String ∧ i.peerAddr.String ≠ a.String) ∧
    (∀ (infos : List info) (j : info), j ∈ infos.filter (fun x => x.isFresh a s) →
      j.seq > s ∧ j.NodeAddr.String ≠ a.String ∧ j.peerAddr.String ≠ a.String) := by
  have key : ∀ x : info, x.isFresh a s = true ↔
      x.seq > s ∧ x.NodeAddr.String ≠ a.String ∧ x.peerAddr.String ≠ a.String := by
    intro x
    unfold info.isFresh
    by_cases h1 : x.seq ≤ s
    · simp [h1]
    · by_cases h2 : x.NodeAddr.String = a.String
      · simp [h1, h2]
      · by_cases h3 : x.peerAddr.String = a.String
        · simp [h1, h2, h3]
        · simp [h1, h2, h3]
          omega
  refine ⟨key i, ?_⟩
  intro infos j hj
  exact (key j).mp (List.mem_filter.mp hj).2

/-- C2: `expired(now)` is false exactly when `TTLStamp > now`; an info whose
`TTLStamp` equals `now`, or lies before it, is expired. -/
theorem expired_iff (i : info) (now : Int) :
    (i.expired now = false ↔ i.TTLStamp > now) ∧
    (i.TTLStamp = now → i.expired now = true) ∧
    (i.TTLStamp < now → i.expired now = true) := by
  unfold info.expired
  refine ⟨?_, ?_, ?_⟩
  · simp
  · intro h; simp [h]
  · intro h; simp; omega

/-- What the scan of `strings.LastIndex` returns: `-1` when no index below `n`
holds the separator, and otherwise the largest such index. -/
theorem lastIndexFrom_spec (s : GoString) (sep : Byte) : ∀ n : Nat,
    (lastIndexFrom s sep n = -1 ∧ ∀ j, j < n → s[j]? ≠ some sep) ∨
    (∃ k : Nat, k < n ∧ lastIndexFrom s sep n = (k : Int) ∧ s[k]? = some sep ∧
      ∀ j, k < j → j < n → s[j]? ≠ some sep) := by
  intro n
  induction n with
  | zero => left; exact ⟨rfl, fun j hj => absurd hj (Nat.not_lt_zero j)⟩
  | succ i ih =>
    by_cases h : s[i]? = some sep
    · right
      refine ⟨i, Nat.lt_succ_self i, by simp [lastIndexFrom, h], h, ?_⟩
      intro j hj hj2; omega
    · rcases ih with ⟨h1, h2⟩ | ⟨k, hk, h1, h2, h3⟩
      · left
        refine ⟨by simp [lastIndexFrom, h, h1], ?_⟩
        intro j hj
        rcases Nat.lt_succ_iff_lt_or_eq.mp hj with hlt | heq
        · exact h2 j hlt
        · subst heq; exact h
      · right
        refine ⟨k, Nat.lt_succ_of_lt hk, by simp [lastIndexFrom, h, h1], h2, ?_⟩
        intro j hj hj2
        rcases Nat.lt_succ_iff_lt_or_eq.mp hj2 with hlt | heq
        · exact h3 j hj hlt
        · subst heq; exact h

/-- C3: for a key that contains a period, `infoPrefix key` is the part of the
key strictly before its last period: the key is `infoPrefix key`, a period,
and a rest without a period; for a key without a period, `infoPrefix key` is
the empty string. -/
theorem infoPrefix_spec (key : GoString) :
    (period ∈ key → ∃ rest, key = infoPrefix key ++ period :: rest ∧ period ∉ rest) ∧
    (period ∉ key → infoPrefix key = []) := by
  rcases lastIndexFrom_spec key period key.length with ⟨h1, h2⟩ | ⟨k, hk, h1, h2, h3⟩
  · have hnot : period ∉ key := by
      intro hmem
      obtain ⟨j, hj, hget⟩ := List.getElem_of_mem hmem
      exact h2 j hj (by simp [List.getElem?_eq_getElem hj, hget])
    refine ⟨fun h => absurd h hnot, fun _ => ?_⟩
    simp [infoPrefix, lastIndex, h1]
  · have hpre : infoPrefix key = key.take k := by
      simp [infoPrefix, lastIndex, h1]
    have hk' : key[k] = period := by
      rw [List.getElem?_eq_getElem hk] at h2
      exact Option.some.inj h2
    refine ⟨fun _ => ⟨key.drop (k + 1), ?_, ?_⟩, fun hnot => ?_⟩
    · rw [hpre, ← hk', ← List.drop_eq_getElem_cons hk, List.take_append_drop]
    · intro hmem
      obtain ⟨j, hj, hget⟩ := List.getElem_of_mem hmem
      rw [List.getElem_drop] at hget
      rw [List.length_drop] at hj
      exact h3 (k + 1 + j) (by omega) (by omega)
        (by simp [List.getElem?_eq_getElem (show k + 1 + j < key.length by omega), hget])
    · exact absurd (hk' ▸ List.getElem_mem hk) hnot

/-! ## Properties of `gossip.go` and `client.go` -/

/-- `getInfo` finds nothing exactly when the key is absent from the store or
the info stored under it has expired. -/
theorem getInfo_eq_none_iff (is : infoStore) (key : GoString) (now : Int) :
    is.getInfo key now = none ↔
      is.Infos.lookup key = none ∨
      ∃ i, is.Infos.lookup key = some i ∧ i.expired now = true := by
  unfold infoStore.getInfo
  cases h : is.Infos.lookup key with
  | none => simp
  | some i =>
    by_cases he : i.expired now = true
    · simp [he]
    · simp [he]

/-- Whatever the `float64` expression `ceilLogRatio` evaluates to,
`maxToleratedHops` returns its value at `nodeCount` and `MaxPeers = 10`, doubled
plus one, where `nodeCount` is the `int64` stored under
`KeyNodeCount` when `getInfo` finds it and 1000 otherwise (`getInfo` finds
nothing exactly when the info is absent or expired); so, where the expression
is 3 at 1000, it returns 7 whenever the info is absent or expired. -/
theorem maxToleratedHops_formula (ceilLogRatio : Int → Int → Nat) (KeyNodeCount : GoString)
    (g : Gossip) (now : Int) :
    (∀ (i : info) (n : Int), g.is.getInfo KeyNodeCount now = some i → i.Val = .int64 n →
      g.maxToleratedHops ceilLogRatio KeyNodeCount now =
          some ((ceilLogRatio n 10 % 2 ^ 32 * 2 + 1) % 2 ^ 32) ∧
      (ceilLogRatio n 10 < 2 ^ 31 →
        g.maxToleratedHops ceilLogRatio KeyNodeCount now = some (ceilLogRatio n 10 * 2 + 1))) ∧
    (g.is.getInfo KeyNodeCount now = none →
      g.maxToleratedHops ceilLogRatio KeyNodeCount now =
          some ((ceilLogRatio 1000 10 % 2 ^ 32 * 2 + 1) % 2 ^ 32) ∧
      (ceilLogRatio 1000 10 < 2 ^ 31 →
        g.maxToleratedHops ceilLogRatio KeyNodeCount now =
          some (ceilLogRatio 1000 10 * 2 + 1))) ∧
    (ceilLogRatio 1000 10 = 3 →
      (g.is.Infos.lookup KeyNodeCount = none ∨
        ∃ i, g.is.Infos.lookup KeyNodeCount = some i ∧ i.expired now = true) →
      g.maxToleratedHops ceilLogRatio KeyNodeCount now = some 7) := by
  have wrap : ∀ x : Nat, x < 2 ^ 31 → (x % 2 ^ 32 * 2 + 1) % 2 ^ 32 = x * 2 + 1 := by
    intro x hx
    have h32 : (2 : Nat) ^ 32 = 4294967296 := by norm_num
    have h31 : (2 : Nat) ^ 31 = 2147483648 := by norm_num
    rw [h31] at hx
    rw [h32]
    omega
  refine ⟨?_, ?_, ?_⟩
  · intro i n hget hval
    have h1 : g.maxToleratedHops ceilLogRatio KeyNodeCount now =
        some ((ceilLogRatio n 10 % 2 ^ 32 * 2 + 1) % 2 ^ 32) := by
      simp [Gossip.maxToleratedHops, hget, hval, MaxPeers]
    exact ⟨h1, fun hlt => by rw [h1, wrap _ hlt]⟩
  · intro hget
    have h1 : g.maxToleratedHops ceilLogRatio KeyNodeCount now =
        some ((ceilLogRatio 1000 10 % 2 ^ 32 * 2 + 1) % 2 ^ 32) := by
      simp [Gossip.maxToleratedHops, hget, MaxPeers, defaultNodeCount]
    exact ⟨h1, fun hlt => by rw [h1, wrap _ hlt]⟩
  · intro hlog habsent
    have hget : g.is.getInfo KeyNodeCount now = none :=
      (getInfo_eq_none_iff g.is KeyNodeCount now).mpr habsent
    simp [Gossip.maxToleratedHops, hget, MaxPeers, defaultNodeCount, hlog]

/-- The default at a concrete input: a store whose node count expired at time 5, read
at time 9 with the exact ceiling of the logarithm, gives 7 hops. -/
theorem maxToleratedHops_formula_witness :
    ({ nodeAt addrA [] with
        is := { Infos := [([110], infoFrom addrA 0 5)], NodeAddr := addrA, MaxSeq := 1 } } :
      Gossip).maxToleratedHops ceilLogExact [110] 9 = some 7 :=
  (maxToleratedHops_formula ceilLogExact [110]
    { nodeAt addrA [] with
        is := { Infos := [([110], infoFrom addrA 0 5)], NodeAddr := addrA, MaxSeq := 1 } }
    9).2.2 (by decide) (Or.inr ⟨infoFrom addrA 0 5, by decide, by decide⟩)

/-- Go's `<` on strings is asymmetric. -/
theorem strLt_asymm : ∀ s t : GoString, strLt s t = true → strLt t s = false
  | [], [], h => by simp [strLt] at h
  | [], _ :: _, _ => by simp [strLt]
  | _ :: _, [], h => by simp [strLt] at h
  | a :: s, b :: t, h => by
    simp only [strLt] at h ⊢
    by_cases hab : a < b
    · have hba : ¬ b < a := lt_asymm hab
      simp [hab, hba]
    · by_cases hba : b < a
      · simp [hab, hba] at h
      · simp only [hab, hba, if_false] at h ⊢
        exact strLt_asymm s t h

/-- Two different strings are ordered one way or the other by Go's `<`. -/
theorem strLt_total : ∀ s t : GoString, s ≠ t → strLt s t = true ∨ strLt t s = true
  | [], [], h => absurd rfl h
  | [], _ :: _, _ => Or.inl (by simp [strLt])
  | _ :: _, [], _ => Or.inr (by simp [strLt])
  | a :: s, b :: t, h => by
    simp only [strLt]
    by_cases hab : a < b
    · left; simp [hab]
    · by_cases hba : b < a
      · right; simp [hba]
      · have heq : a = b := le_antisymm (not_lt.mp hba) (not_lt.mp hab)
        have hst : s ≠ t := fun hst => h (by rw [hst, heq])
        simp only [hab, hba, if_false]
        exact strLt_total s t hst

/-- C6: for two nodes whose address strings differ, each with an incoming
session from the other and an outgoing client to the other, the redundancy-exit
condition holds for exactly one of the two clients: never for both, never for
neither. -/
theorem redundancy_exactly_one (gA gB : Gossip) (cA cB : client)
    (hA : cA.addr.String = gB.is.NodeAddr.String)
    (hB : cB.addr.String = gA.is.NodeAddr.String)
    (hne : gA.is.NodeAddr.String ≠ gB.is.NodeAddr.String)
    (hinA : gA.hasIncoming cA.addr = true) (hinB : gB.hasIncoming cB.addr = true) :
    (cA.redundant gA = true ∧ cB.redundant gB = false) ∨
    (cA.redundant gA = false ∧ cB.redundant gB = true) := by
  unfold client.redundant
  rw [hinA, hinB, hA, hB]
  rcases strLt_total _ _ hne with h | h
  · left; simp [h, strLt_asymm _ _ h]
  · right; simp [h, strLt_asymm _ _ h]

/-- C6 at a concrete input: node `A` serves `B` and dials `B`, node `B` serves
`A` and dials `A`; the client of `A` is the redundant one. -/
theorem redundancy_exactly_one_witness :
    ((newClient addrB).redundant (nodeAt addrA [addrB]) = true ∧
      (newClient addrA).redundant (nodeAt addrB [addrA]) = false) ∨
    ((newClient addrB).redundant (nodeAt addrA [addrB]) = false ∧
      (newClient addrA).redundant (nodeAt addrB [addrA]) = true) :=
  redundancy_exactly_one (nodeAt addrA [addrB]) (nodeAt addrB [addrA])
    (newClient addrB) (newClient addrA) (by decide) (by decide) (by decide) (by decide)
    (by decide)

/-- The redundancy check reads only the peer address of the client. -/
theorem redundant_congr (c1 c2 : client) (g : Gossip) (h : c1.addr = c2.addr) :
    c1.redundant g = c2.redundant g := by
  unfold client.redundant
  rw [h]

/-- C5, as the code has it: whenever the redundancy check fires, `client.gossip`
returns the error "stopping outgoing client ...; already have incoming",
without sending a request and without touching the coordinator or the client;
`client.start` then sets `c.err` to that error (wrapped as "gossip client: ...")
and pushes the client on the done channel, and the manage loop logs it. -/
theorem redundant_exit_is_error (combine : infoStore → infoStore → infoStore × Int)
    (gossipInterval : Int) (c : client) (g : Gossip) (vars : loopVars) (rounds : List Round)
    (h : c.redundant g = true) :
    c.gossipLoop combine gossipInterval g vars rounds =
      .returned g c (some (.stoppingOutgoing c.addr)) { sent := [], combined := [] } ∧
    (∀ (done : Chan client) (rc : rpcClient) (startTime : Int),
      client.start combine gossipInterval c g done rc .ready startTime rounds =
        .returned g
          { c with rpcClient := some rc, lastFresh := startTime,
                   err := some (.gossipClient (.stoppingOutgoing c.addr)) }
          (done.send
            { c with rpcClient := some rc, lastFresh := startTime,
                     err := some (.gossipClient (.stoppingOutgoing c.addr)) }) ∧
      manageDisconnectedLog
          { c with rpcClient := some rc, lastFresh := startTime,
                   err := some (.gossipClient (.stoppingOutgoing c.addr)) } =
        [.gossipClient (.stoppingOutgoing c.addr)]) := by
  have loop : ∀ (c0 : client) (vars0 : loopVars), c0.redundant g = true →
      c0.gossipLoop combine gossipInterval g vars0 rounds =
        .returned g c0 (some (.stoppingOutgoing c0.addr)) { sent := [], combined := [] } := by
    intro c0 vars0 h0
    cases rounds with
    | nil => simp [client.gossipLoop, h0]
    | cons r rs => simp [client.gossipLoop, client.gossipStep, h0]
  refine ⟨loop c vars h, ?_⟩
  intro done rc startTime
  have h1 : ({ c with rpcClient := some rc, lastFresh := startTime } : client).redundant g
      = true := by
    exact (redundant_congr _ c g rfl).trans h
  refine ⟨?_, by simp [manageDisconnectedLog]⟩
  simp only [client.start, client.gossip]
  rw [loop _ _ h1]

/-- C5 at a concrete input: node `A` serves `B` and its client to `B` starts. -/
theorem redundant_exit_is_error_witness :
    (newClient addrB).gossipLoop combineNoGroups 2000000000 (nodeAt addrA [addrB])
        { localMaxSeq := 0, remoteMaxSeq := -1 } [] =
      .returned (nodeAt addrA [addrB]) (newClient addrB)
        (some (.stoppingOutgoing (newClient addrB).addr)) { sent := [], combined := [] } :=
  (redundant_exit_is_error combineNoGroups 2000000000 (newClient addrB)
    (nodeAt addrA [addrB]) { localMaxSeq := 0, remoteMaxSeq := -1 } [] (by decide)).1

/-- C5 as stated fails: node `A` has an incoming session from `B` and
`"A" < "B"`, so the redundancy check of its client to `B` fires; `client.gossip`
returns an error, not `nil`, `client.start` sets `c.err`, and the manage loop
has an error to log. -/
theorem redundant_exit_not_clean :
    (newClient addrB).redundant (nodeAt addrA [addrB]) = true ∧
    client.gossip combineNoGroups 2000000000 (newClient addrB) (nodeAt addrA [addrB]) [] =
      .returned (nodeAt addrA [addrB]) (newClient addrB) (some (.stoppingOutgoing addrB))
        { sent := [], combined := [] } ∧
    client.start combineNoGroups 2000000000 (newClient addrB) (nodeAt addrA [addrB])
        { buf := [], cap := 10, closed := false } { LAddr := none } .ready 5 [] =
      .returned (nodeAt addrA [addrB])
        (startedClient addrB 5 (some (.gossipClient (.stoppingOutgoing addrB))))
        { buf := [startedClient addrB 5 (some (.gossipClient (.stoppingOutgoing addrB)))],
          cap := 10, closed := false } ∧
    manageDisconnectedLog
        (startedClient addrB 5 (some (.gossipClient (.stoppingOutgoing addrB)))) ≠ [] := by
  refine ⟨by decide, by decide, by decide, by decide⟩

/-- C7: when the reply carries an alternate address, the iteration records it in
`forwardAddr` and returns `nil` at once: nothing is passed to `combine`, the
coordinator state is as the other goroutines left it, and no other field of the
client (`lastFresh` included) changes. -/
theorem alternate_reply_forwards (combine : infoStore → infoStore → infoStore × Int)
    (gossipInterval : Int) (c : client) (g : Gossip) (vars : loopVars) (r : Round)
    (rc : rpcClient) (reply : GossipResponse) (alt : Addr)
    (hred : c.redundant g = false) (hrc : c.rpcClient = some rc)
    (hout : r.outcome = .done none reply) (halt : reply.Alternate = some alt) :
    ∃ eff : Effects,
      c.gossipStep combine gossipInterval g vars r =
        .exit (r.interference g) { c with forwardAddr := some alt } none eff ∧
      eff.combined = [] ∧
      ({ c with forwardAddr := some alt } : client).lastFresh = c.lastFresh := by
  refine ⟨{ sent := [{ Addr := g.is.NodeAddr, LAddr := rc.LAddr, MaxSeq := vars.remoteMaxSeq,
                        Delta := g.is.delta c.addr vars.localMaxSeq r.deltaTime }],
             combined := [] }, ?_, rfl, rfl⟩
  simp [client.gossipStep, hred, hrc, hout, halt]

/-- C7 at a concrete input: `B` answers the client of `A` with the alternate
`C` and a delta; the client leaves with `forwardAddr = C`, the store of `A`
is still empty and `lastFresh` is still 0. -/
theorem alternate_reply_forwards_witness :
    ∃ eff : Effects,
      (startedClient addrB 0 none).gossipStep combineNoGroups 2000000000 (nodeAt addrA [])
          { localMaxSeq := 0, remoteMaxSeq := -1 }
          (replyRound { Alternate := some addrC, Delta := some (deltaFrom addrB 1 100 4) } 3) =
        .exit (nodeAt addrA []) { startedClient addrB 0 none with forwardAddr := some addrC }
          none eff ∧
      eff.combined = [] ∧
      ({ startedClient addrB 0 none with forwardAddr := some addrC } : client).lastFresh =
        (startedClient addrB 0 none).lastFresh :=
  alternate_reply_forwards combineNoGroups 2000000000 (startedClient addrB 0 none)
    (nodeAt addrA []) { localMaxSeq := 0, remoteMaxSeq := -1 }
    (replyRound { Alternate := some addrC, Delta := some (deltaFrom addrB 1 100 4) } 3)
    { LAddr := none } { Alternate := some addrC, Delta := some (deltaFrom addrB 1 100 4) } addrC
    (by decide) rfl rfl rfl

/-- An iteration that receives a reply without alternate address hands the
reply to `combineReply` and then makes the boredom check. -/
theorem gossipStep_reply (combine : infoStore → infoStore → infoStore × Int)
    (gossipInterval : Int) (c : client) (g : Gossip) (vars : loopVars) (r : Round)
    (rc : rpcClient) (reply : GossipResponse)
    (hred : c.redundant g = false) (hrc : c.rpcClient = some rc)
    (hout : r.outcome = .done none reply) (halt : reply.Alternate = none) :
    c.gossipStep combine gossipInterval g vars r =
      if (c.combineReply combine (r.interference g) (c.afterDelta g vars r) reply r.now).2.1.tooBoring
          r.now then
        .exit (c.combineReply combine (r.interference g) (c.afterDelta g vars r) reply r.now).1
          (c.combineReply combine (r.interference g) (c.afterDelta g vars r) reply r.now).2.1
          (some .peerTooBoring)
          { sent := [c.request g vars r rc],
            combined :=
              (c.combineReply combine (r.interference g) (c.afterDelta g vars r) reply
                r.now).2.2.2 }
      else
        .next (c.combineReply combine (r.interference g) (c.afterDelta g vars r) reply r.now).1
          (c.combineReply combine (r.interference g) (c.afterDelta g vars r) reply r.now).2.1
          (c.combineReply combine (r.interference g) (c.afterDelta g vars r) reply r.now).2.2.1
          { sent := [c.request g vars r rc],
            combined :=
              (c.combineReply combine (r.interference g) (c.afterDelta g vars r) reply
                r.now).2.2.2 } := by
  simp only [client.gossipStep, hred, hrc, hout, halt, client.afterDelta, client.request]
  rfl

/-- The client that `combineReply` returns does not depend on the local
variables. -/
theorem combineReply_client (combine : infoStore → infoStore → infoStore × Int)
    (c : client) (g : Gossip) (vars1 vars2 : loopVars) (reply : GossipResponse) (now : Int) :
    (c.combineReply combine g vars1 reply now).2.1 =
      (c.combineReply combine g vars2 reply now).2.1 := by
  unfold client.combineReply
  cases reply.Delta <;> rfl

/-- C8: for a reply without alternate address, what the iteration hands to the
boredom check is this: if the reply carries a delta `d`, `d` is combined into
the infostore exactly once, `lastFresh` becomes the time sampled after the
reply exactly when `combine` returned a fresh count above 0 (else it is
unchanged), and `remoteMaxSeq` becomes `d.MaxSeq` whatever the fresh count; if
the reply carries no delta, the infostore, the client and `remoteMaxSeq` are
unchanged and nothing is combined. -/
theorem reply_delta_combined (combine : infoStore → infoStore → infoStore × Int)
    (gossipInterval : Int) (c : client) (g : Gossip) (vars : loopVars) (r : Round)
    (rc : rpcClient) (reply : GossipResponse)
    (hred : c.redundant g = false) (hrc : c.rpcClient = some rc)
    (hout : r.outcome = .done none reply) (halt : reply.Alternate = none) :
    ∃ (g2 : Gossip) (c2 : client) (vars2 : loopVars) (combined : List infoStore),
      c.combineReply combine (r.interference g) (c.afterDelta g vars r) reply r.now =
        (g2, c2, vars2, combined) ∧
      c.gossipStep combine gossipInterval g vars r =
        (if c2.tooBoring r.now then
          .exit g2 c2 (some .peerTooBoring)
            { sent := [c.request g vars r rc], combined := combined }
        else .next g2 c2 vars2 { sent := [c.request g vars r rc], combined := combined }) ∧
      (∀ d, reply.Delta = some d →
        combined = [d] ∧
        g2 = { r.interference g with is := (combine (r.interference g).is d).1 } ∧
        (0 < (combine (r.interference g).is d).2 → c2 = { c with lastFresh := r.now }) ∧
        (¬ 0 < (combine (r.interference g).is d).2 → c2 = c) ∧
        vars2.remoteMaxSeq = d.MaxSeq ∧
        vars2.localMaxSeq = (c.afterDelta g vars r).localMaxSeq) ∧
      (reply.Delta = none →
        combined = [] ∧ g2 = r.interference g ∧ c2 = c ∧
        vars2.remoteMaxSeq = vars.remoteMaxSeq ∧
        vars2.localMaxSeq = (c.afterDelta g vars r).localMaxSeq) := by
  have hrem : (c.afterDelta g vars r).remoteMaxSeq = vars.remoteMaxSeq := by
    unfold client.afterDelta
    cases g.is.delta c.addr vars.localMaxSeq r.deltaTime <;> rfl
  refine ⟨_, _, _, _, rfl, gossipStep_reply combine gossipInterval c g vars r rc reply hred hrc
    hout halt, ?_, ?_⟩
  · intro d hd
    simp only [client.combineReply, hd]
    refine ⟨by trivial, by trivial, ?_, ?_, by trivial, by trivial⟩
    · intro hpos; simp [hpos]
    · intro hneg; simp [hneg]
  · intro hd
    simp only [client.combineReply, hd]
    exact ⟨by trivial, by trivial, by trivial, hrem, by trivial⟩

/-- A reply with a delta of one info from `B`, handled by the client of `A` at
time 3: the info is new, so it is combined, `lastFresh` becomes 3 and
`remoteMaxSeq` becomes the delta's watermark 4. -/
theorem reply_delta_combined_witness :
    (startedClient addrB 0 none).gossipStep combineNoGroups 2000000000 (nodeAt addrA [])
        { localMaxSeq := 0, remoteMaxSeq := -1 }
        (replyRound { Alternate := none, Delta := some (deltaFrom addrB 1 100 4) } 3) =
      .next
        { nodeAt addrA [] with
            is := (combineNoGroups (emptyStore addrA) (deltaFrom addrB 1 100 4)).1 }
        (startedClient addrB 3 none)
        { localMaxSeq := 0, remoteMaxSeq := 4 }
        { sent := [{ Addr := addrA, LAddr := none, MaxSeq := -1, Delta := none }],
          combined := [deltaFrom addrB 1 100 4] } := by
  obtain ⟨g2, c2, vars2, combined, -, hstep, hsome, -⟩ :=
    reply_delta_combined combineNoGroups 2000000000 (startedClient addrB 0 none)
      (nodeAt addrA []) { localMaxSeq := 0, remoteMaxSeq := -1 }
      (replyRound { Alternate := none, Delta := some (deltaFrom addrB 1 100 4) } 3)
      { LAddr := none } { Alternate := none, Delta := some (deltaFrom addrB 1 100 4) }
      (by decide) rfl rfl rfl
  obtain ⟨h1, h2, h3, -, h5, h6⟩ := hsome (deltaFrom addrB 1 100 4) rfl
  have hc2 : c2 = startedClient addrB 3 none := h3 (by decide)
  have hv : vars2 = { localMaxSeq := 0, remoteMaxSeq := 4 } := by
    cases vars2
    simp only at h5 h6
    rw [h5, h6]
    decide
  rw [hstep, h1, h2, hc2, hv]
  decide

/-- The `int64` wrap-around leaves a value in range as it is. -/
theorem wrapInt64_eq (x : Int) (h1 : -9223372036854775808 ≤ x)
    (h2 : x < 9223372036854775808) : wrapInt64 x = x := by
  unfold wrapInt64
  have e63 : (2 : Int) ^ 63 = 9223372036854775808 := by norm_num
  have e64 : (2 : Int) ^ 64 = 18446744073709551616 := by norm_num
  rw [e63, e64]
  omega

/-- C9: after a reply without alternate address has been handled, the iteration
ends with the error "peer is too boring" exactly when the time sampled after
the reply, minus `lastFresh` as the reply left it, is strictly greater than
`maxWaitForNewGossip`, 10 seconds in nanoseconds; otherwise the loop goes
round again, in particular at a difference of exactly 10 seconds and whenever
the reply just yielded fresh info. Clock readings are non-negative `int64`
values. -/
theorem boring_exit_iff (combine : infoStore → infoStore → infoStore × Int)
    (gossipInterval : Int) (c : client) (g : Gossip) (vars : loopVars) (r : Round)
    (rc : rpcClient) (reply : GossipResponse)
    (hred : c.redundant g = false) (hrc : c.rpcClient = some rc)
    (hout : r.outcome = .done none reply) (halt : reply.Alternate = none)
    (hnow : 0 ≤ r.now ∧ r.now < 9223372036854775808)
    (hlast : 0 ≤ c.lastFresh ∧ c.lastFresh < 9223372036854775808) :
    ((∃ g2 c2 eff, c.gossipStep combine gossipInterval g vars r =
          .exit g2 c2 (some .peerTooBoring) eff) ↔
      r.now - (c.combineReply combine (r.interference g) vars reply r.now).2.1.lastFresh
        > 10000000000) ∧
    ((∃ g2 c2 vars2 eff, c.gossipStep combine gossipInterval g vars r =
          .next g2 c2 vars2 eff) ↔
      r.now - (c.combineReply combine (r.interference g) vars reply r.now).2.1.lastFresh
        ≤ 10000000000) ∧
    (∀ d, reply.Delta = some d → 0 < (combine (r.interference g).is d).2 →
      ∃ g2 c2 vars2 eff, c.gossipStep combine gossipInterval g vars r =
        .next g2 c2 vars2 eff) ∧
    maxWaitForNewGossip = 10000000000 := by
  have hstep := gossipStep_reply combine gossipInterval c g vars r rc reply hred hrc hout halt
  rw [combineReply_client combine c (r.interference g) (c.afterDelta g vars r) vars reply
    r.now] at hstep
  have hlf : (c.combineReply combine (r.interference g) vars reply r.now).2.1.lastFresh = r.now ∨
      (c.combineReply combine (r.interference g) vars reply r.now).2.1.lastFresh
        = c.lastFresh := by
    unfold client.combineReply
    cases reply.Delta with
    | none => right; rfl
    | some d =>
      by_cases hpos : (combine (r.interference g).is d).2 > 0
      · left; simp [hpos]
      · right; simp [hpos]
  have hfresh : ∀ d, reply.Delta = some d → 0 < (combine (r.interference g).is d).2 →
      (c.combineReply combine (r.interference g) vars reply r.now).2.1.lastFresh = r.now := by
    intro d hd hpos
    simp [client.combineReply, hd, hpos]
  generalize (c.combineReply combine (r.interference g) vars reply r.now).2.1 = c2
    at hstep hlf hfresh ⊢
  have hsub : subInt64 r.now c2.lastFresh = r.now - c2.lastFresh := by
    unfold subInt64
    apply wrapInt64_eq
    · rcases hlf with h | h <;> rw [h] <;> omega
    · rcases hlf with h | h <;> rw [h] <;> omega
  have hmax : maxWaitForNewGossip = 10000000000 := by decide
  have hb : c2.tooBoring r.now = true ↔ r.now - c2.lastFresh > 10000000000 := by
    unfold client.tooBoring
    rw [hsub, hmax]
    simp
  by_cases hbor : c2.tooBoring r.now = true
  · have hgt := hb.mp hbor
    rw [if_pos hbor] at hstep
    refine ⟨⟨fun _ => hgt, fun _ => ⟨_, _, _, hstep⟩⟩, ⟨?_, fun hle => by omega⟩, ?_, hmax⟩
    · rintro ⟨g2, c3, vars2, eff, h⟩
      rw [hstep] at h
      cases h
    · intro d hd hpos
      have := hfresh d hd hpos
      omega
  · have hle : ¬ r.now - c2.lastFresh > 10000000000 := fun h => hbor (hb.mpr h)
    rw [if_neg hbor] at hstep
    refine ⟨⟨?_, fun hgt => absurd hgt hle⟩, ⟨fun _ => by omega, fun _ => ⟨_, _, _, _, hstep⟩⟩,
      fun _ _ _ => ⟨_, _, _, _, hstep⟩, hmax⟩
    rintro ⟨g2, c3, eff, h⟩
    rw [hstep] at h
    cases h

/-- C9 at concrete inputs: a client that last saw fresh info at time 0 gets an
empty reply; at 10000000001 ns it gives up, at 10000000000 ns it goes on. -/
theorem boring_exit_iff_witness :
    (∃ g2 c2 eff, (startedClient addrB 0 none).gossipStep combineNoGroups 2000000000
        (nodeAt addrA []) { localMaxSeq := 0, remoteMaxSeq := -1 }
        (replyRound { Alternate := none, Delta := none } 10000000001) =
          .exit g2 c2 (some .peerTooBoring) eff) ∧
    (∃ g2 c2 vars2 eff, (startedClient addrB 0 none).gossipStep combineNoGroups 2000000000
        (nodeAt addrA []) { localMaxSeq := 0, remoteMaxSeq := -1 }
        (replyRound { Alternate := none, Delta := none } 10000000000) =
          .next g2 c2 vars2 eff) :=
  ⟨(boring_exit_iff combineNoGroups 2000000000 (startedClient addrB 0 none) (nodeAt addrA [])
      { localMaxSeq := 0, remoteMaxSeq := -1 }
      (replyRound { Alternate := none, Delta := none } 10000000001) { LAddr := none }
      { Alternate := none, Delta := none } (by decide) rfl rfl rfl (by decide)
      (by decide)).1.mpr (by decide),
    (boring_exit_iff combineNoGroups 2000000000 (startedClient addrB 0 none) (nodeAt addrA [])
      { localMaxSeq := 0, remoteMaxSeq := -1 }
      (replyRound { Alternate := none, Delta := none } 10000000000) { LAddr := none }
      { Alternate := none, Delta := none } (by decide) rfl rfl rfl (by decide)
      (by decide)).2.1.mpr (by decide)⟩

/-- An iteration of the exchange loop writes only two fields of the client,
`lastFresh` and `forwardAddr`: whatever `f` reads off a client without looking
at these two is the same before and after. -/
theorem gossipStep_keeps {α : Type} (f : client → α)
    (hf : ∀ (c0 : client) (t : Int) (a : Option Addr),
      f { c0 with lastFresh := t } = f c0 ∧ f { c0 with forwardAddr := a } = f c0)
    (combine : infoStore → infoStore → infoStore × Int)
    (gossipInterval : Int) (c : client) (g : Gossip) (vars : loopVars) (r : Round) :
    (∀ g2 c2 vars2 eff, c.gossipStep combine gossipInterval g vars r = .next g2 c2 vars2 eff →
      f c2 = f c) ∧
    (∀ g2 c2 e eff, c.gossipStep combine gossipInterval g vars r = .exit g2 c2 e eff →
      f c2 = f c) := by
  have hcomb : ∀ (g0 : Gossip) (v0 : loopVars) (rep : GossipResponse),
      f (c.combineReply combine g0 v0 rep r.now).2.1 = f c := by
    intro g0 v0 rep
    unfold client.combineReply
    cases rep.Delta with
    | none => rfl
    | some d =>
      by_cases hpos : (combine g0.is d).2 > 0
      · simp only [hpos, if_true]
        exact (hf c r.now none).1
      · simp only [hpos, if_false]
  by_cases hred : c.redundant g = true
  · constructor
    · intro g2 c2 vars2 eff h
      simp [client.gossipStep, hred] at h
    · intro g2 c2 e eff h
      simp [client.gossipStep, hred] at h
      rw [← h.2.1]
  · cases hrc : c.rpcClient with
    | none =>
      constructor
      · intro g2 c2 vars2 eff h
        simp [client.gossipStep, hred, hrc] at h
      · intro g2 c2 e eff h
        simp [client.gossipStep, hred, hrc] at h
    | some rc =>
      cases hout : r.outcome with
      | timeout =>
        constructor
        · intro g2 c2 vars2 eff h
          simp [client.gossipStep, hred, hrc, hout] at h
        · intro g2 c2 e eff h
          simp [client.gossipStep, hred, hrc, hout] at h
          rw [← h.2.1]
      | closer =>
        constructor
        · intro g2 c2 vars2 eff h
          simp [client.gossipStep, hred, hrc, hout] at h
        · intro g2 c2 e eff h
          simp [client.gossipStep, hred, hrc, hout] at h
          rw [← h.2.1]
      | done error reply =>
        cases error with
        | some msg =>
          constructor
          · intro g2 c2 vars2 eff h
            simp [client.gossipStep, hred, hrc, hout] at h
          · intro g2 c2 e eff h
            simp [client.gossipStep, hred, hrc, hout] at h
            rw [← h.2.1]
        | none =>
          cases halt : reply.Alternate with
          | some alt =>
            constructor
            · intro g2 c2 vars2 eff h
              simp [client.gossipStep, hred, hrc, hout, halt] at h
            · intro g2 c2 e eff h
              simp [client.gossipStep, hred, hrc, hout, halt] at h
              rw [← h.2.1]
              have key := (hf c 0 (some alt)).2
              rw [hrc] at key
              exact key
          | none =>
            have hstep := gossipStep_reply combine gossipInterval c g vars r rc reply
              (by simpa using hred) hrc hout halt
            constructor
            · intro g2 c2 vars2 eff h
              rw [hstep] at h
              split at h
              · cases h
              · injection h with h1 h2 h3 h4
                rw [← h2]; exact hcomb _ _ _
            · intro g2 c2 e eff h
              rw [hstep] at h
              split at h
              · injection h with h1 h2 h3 h4
                rw [← h2]; exact hcomb _ _ _
              · cases h

/-- The exchange loop returns the client with whatever it held outside
`lastFresh` and `forwardAddr`; in particular with the `err` it was given. -/
theorem gossipLoop_keeps {α : Type} (f : client → α)
    (hf : ∀ (c0 : client) (t : Int) (a : Option Addr),
      f { c0 with lastFresh := t } = f c0 ∧ f { c0 with forwardAddr := a } = f c0)
    (combine : infoStore → infoStore → infoStore × Int) (gossipInterval : Int) :
    ∀ (rounds : List Round) (c : client) (g : Gossip) (vars : loopVars) (g2 : Gossip)
      (c2 : client) (e : Option GossipError) (eff : Effects),
      c.gossipLoop combine gossipInterval g vars rounds = .returned g2 c2 e eff →
      f c2 = f c := by
  intro rounds
  induction rounds with
  | nil =>
    intro c g vars g2 c2 e eff h
    simp only [client.gossipLoop] at h
    split at h
    · injection h with h1 h2 h3 h4
      rw [← h2]
    · split at h <;> cases h
  | cons r rs ih =>
    intro c g vars g2 c2 e eff h
    simp only [client.gossipLoop] at h
    cases hs : c.gossipStep combine gossipInterval g vars r with
    | fault => rw [hs] at h; cases h
    | exit g1 c1 e1 eff1 =>
      rw [hs] at h
      simp only at h
      injection h with h1 h2 h3 h4
      rw [← h2]
      exact (gossipStep_keeps f hf combine gossipInterval c g vars r).2 g1 c1 e1 eff1 hs
    | next g1 c1 vars1 eff1 =>
      rw [hs] at h
      simp only at h
      have h1 := (gossipStep_keeps f hf combine gossipInterval c g vars r).1 g1 c1 vars1 eff1 hs
      cases hl : c1.gossipLoop combine gossipInterval g1 vars1 rs with
      | fault => rw [hl] at h; cases h
      | running g3 c3 vars3 eff3 => rw [hl] at h; cases h
      | returned g3 c3 e3 eff3 =>
        rw [hl] at h
        simp only [LoopResult.after] at h
        injection h with h2 h3 h4 h5
        rw [← h3, ih c1 g1 vars1 g3 c3 e3 eff3 hl, h1]

/-- A client whose `rpcClient` is set never faults in the exchange loop. -/
theorem gossipLoop_no_fault (combine : infoStore → infoStore → infoStore × Int)
    (gossipInterval : Int) :
    ∀ (rounds : List Round) (c : client) (g : Gossip) (vars : loopVars),
      c.rpcClient.isSome = true →
      c.gossipLoop combine gossipInterval g vars rounds ≠ .fault := by
  intro rounds
  induction rounds with
  | nil =>
    intro c g vars hrc h
    simp only [client.gossipLoop] at h
    split at h
    · cases h
    · split at h
      · rename_i hnone
        cases hc : c.rpcClient with
        | none => rw [hc] at hrc; cases hrc
        | some rc => rw [hc] at hnone; cases hnone
      · cases h
  | cons r rs ih =>
    intro c g vars hrc h
    simp only [client.gossipLoop] at h
    obtain ⟨rc, hc⟩ := Option.isSome_iff_exists.mp hrc
    cases hs : c.gossipStep combine gossipInterval g vars r with
    | fault =>
      by_cases hred : c.redundant g = true
      · simp [client.gossipStep, hred] at hs
      · cases hout : r.outcome with
        | timeout => simp [client.gossipStep, hred, hc, hout] at hs
        | closer => simp [client.gossipStep, hred, hc, hout] at hs
        | done error reply =>
          cases error with
          | some msg => simp [client.gossipStep, hred, hc, hout] at hs
          | none =>
            cases halt : reply.Alternate with
            | some alt => simp [client.gossipStep, hred, hc, hout, halt] at hs
            | none =>
              rw [gossipStep_reply combine gossipInterval c g vars r rc reply
                (by simpa using hred) hc hout halt] at hs
              split at hs <;> cases hs
    | exit g1 c1 e1 eff1 => rw [hs] at h; cases h
    | next g1 c1 vars1 eff1 =>
      rw [hs] at h
      simp only at h
      have h1 : c1.rpcClient = c.rpcClient :=
        (gossipStep_keeps (fun x => x.rpcClient) (fun _ _ _ => ⟨rfl, rfl⟩) combine
          gossipInterval c g vars r).1 g1 c1 vars1 eff1 hs
      have h2 := ih c1 g1 vars1 (by rw [h1]; exact hrc)
      cases hl : c1.gossipLoop combine gossipInterval g1 vars1 rs with
      | fault => exact h2 hl
      | running g3 c3 vars3 eff3 => rw [hl] at h; cases h
      | returned g3 c3 e3 eff3 => rw [hl] at h; cases h

/-- C10: every execution of `client.start` that returns has pushed the client
onto the done channel exactly once, as its last action (the channel holds what
it held, then the client in its final state); `c.err` is then non-nil exactly
when the dial timed out or the gossip loop returned an error, and nil when the
loop returned `nil`, as it does on the close signal and on forwarding. Such
executions exist on every exit path: `start` returns on the dial timeout and
whenever the gossip loop returns, and it never faults. -/
theorem start_pushes_once (combine : infoStore → infoStore → infoStore × Int)
    (gossipInterval : Int) (c : client) (g : Gossip) (done : Chan client)
    (rc : rpcClient) (dial : DialOutcome) (startTime : Int) (rounds : List Round)
    (g2 : Gossip) (c2 : client) (done2 : Chan client)
    (herr : c.err = none)
    (hret : client.start combine gossipInterval c g done rc dial startTime rounds =
      .returned g2 c2 done2) :
    done2 = done.send c2 ∧ done2.buf = done.buf ++ [c2] ∧
    (c2.err ≠ none ↔
      dial = .timeout ∨
      ∃ g1 c1 e eff, dial = .ready ∧
        client.gossip combine gossipInterval
          { c with rpcClient := some rc, lastFresh := startTime } g rounds =
          .returned g1 c1 (some e) eff) ∧
    (dial = .timeout → c2.err = some (.dialTimeout c.addr)) ∧
    (∀ g1 c1 e eff, dial = .ready →
      client.gossip combine gossipInterval
          { c with rpcClient := some rc, lastFresh := startTime } g rounds =
        .returned g1 c1 (some e) eff →
      c2.err = some (.gossipClient e)) ∧
    (∀ g1 c1 eff, dial = .ready →
      client.gossip combine gossipInterval
          { c with rpcClient := some rc, lastFresh := startTime } g rounds =
        .returned g1 c1 none eff →
      c2.err = none) ∧
    (∀ (c0 : client) (g0 : Gossip) (vars0 : loopVars) (r0 : Round) (rc0 : rpcClient),
      c0.redundant g0 = false → c0.rpcClient = some rc0 → r0.outcome = .closer →
      c0.gossipStep combine gossipInterval g0 vars0 r0 =
        .exit (r0.interference g0) c0 none
          { sent := [c0.request g0 vars0 r0 rc0], combined := [] }) ∧
    (∀ rounds0, ∃ g3 c3,
      client.start combine gossipInterval c g done rc .timeout startTime rounds0 =
        .returned g3 c3 (done.send c3)) ∧
    (∀ rounds0 g1 c1 e eff,
      client.gossip combine gossipInterval
          { c with rpcClient := some rc, lastFresh := startTime } g rounds0 =
        .returned g1 c1 e eff →
      ∃ c3, client.start combine gossipInterval c g done rc .ready startTime rounds0 =
        .returned g1 c3 (done.send c3)) ∧
    (∀ dial0 rounds0,
      client.start combine gossipInterval c g done rc dial0 startTime rounds0 ≠ .fault) := by
  have hclose : ∀ (c0 : client) (g0 : Gossip) (vars0 : loopVars) (r0 : Round)
      (rc0 : rpcClient),
      c0.redundant g0 = false → c0.rpcClient = some rc0 → r0.outcome = .closer →
      c0.gossipStep combine gossipInterval g0 vars0 r0 =
        .exit (r0.interference g0) c0 none
          { sent := [c0.request g0 vars0 r0 rc0], combined := [] } := by
    intro c0 g0 vars0 r0 rc0 h1 h2 h3
    simp [client.gossipStep, h1, h2, h3, client.request]
  have htimeout : ∀ rounds0, ∃ g3 c3,
      client.start combine gossipInterval c g done rc .timeout startTime rounds0 =
        .returned g3 c3 (done.send c3) := fun _ => ⟨_, _, rfl⟩
  have hready : ∀ rounds0 g1 c1 e eff,
      client.gossip combine gossipInterval
          { c with rpcClient := some rc, lastFresh := startTime } g rounds0 =
        .returned g1 c1 e eff →
      ∃ c3, client.start combine gossipInterval c g done rc .ready startTime rounds0 =
        .returned g1 c3 (done.send c3) := by
    intro rounds0 g1 c1 e eff h
    simp only [client.start]
    rw [h]
    exact ⟨_, rfl⟩
  have hfault : ∀ dial0 rounds0,
      client.start combine gossipInterval c g done rc dial0 startTime rounds0 ≠ .fault := by
    intro dial0 rounds0 h
    cases dial0 with
    | timeout => simp only [client.start] at h; cases h
    | ready =>
      simp only [client.start] at h
      cases hl : client.gossip combine gossipInterval
          { c with rpcClient := some rc, lastFresh := startTime } g rounds0 with
      | running g3 c3 vars3 eff3 => rw [hl] at h; cases h
      | returned g3 c3 e3 eff3 => rw [hl] at h; cases h
      | fault =>
        exact gossipLoop_no_fault combine gossipInterval rounds0
          { c with rpcClient := some rc, lastFresh := startTime } g
          { localMaxSeq := 0, remoteMaxSeq := -1 } rfl hl
  cases dial with
  | timeout =>
    simp only [client.start] at hret
    injection hret with h1 h2 h3
    subst h2
    refine ⟨h3.symm, by rw [← h3]; rfl, ?_, fun _ => rfl, ?_, ?_, hclose, htimeout, hready,
      hfault⟩
    · exact ⟨fun _ => Or.inl rfl, fun _ => by simp⟩
    · intro g1 c1 e eff hd; cases hd
    · intro g1 c1 eff hd; cases hd
  | ready =>
    simp only [client.start] at hret
    cases hl : client.gossip combine gossipInterval
        { c with rpcClient := some rc, lastFresh := startTime } g rounds with
    | running g3 c3 vars3 eff3 => rw [hl] at hret; cases hret
    | fault => rw [hl] at hret; cases hret
    | returned g3 c3 e3 eff3 =>
      rw [hl] at hret
      have hk : c3.err = c.err :=
        gossipLoop_keeps (fun x => x.err) (fun _ _ _ => ⟨rfl, rfl⟩) combine
          gossipInterval rounds { c with rpcClient := some rc, lastFresh := startTime } g
          { localMaxSeq := 0, remoteMaxSeq := -1 } g3 c3 e3 eff3 hl
      have hc3 : c3.err = none := hk.trans herr
      cases e3 with
      | none =>
        simp only at hret
        injection hret with h1 h2 h3
        subst h2
        refine ⟨h3.symm, by rw [← h3]; rfl, ?_, ?_, ?_, ?_, hclose, htimeout, hready, hfault⟩
        · refine ⟨fun hne => absurd hc3 hne, ?_⟩
          rintro (hd | ⟨g1, c1, e, eff, -, h⟩)
          · cases hd
          · cases h
        · intro hd; cases hd
        · intro g1 c1 e eff _ h; cases h
        · intro g1 c1 eff _ _; exact hc3
      | some e0 =>
        simp only at hret
        injection hret with h1 h2 h3
        subst h2
        refine ⟨h3.symm, by rw [← h3]; rfl, ?_, ?_, ?_, ?_, hclose, htimeout, hready, hfault⟩
        · exact ⟨fun _ => Or.inr ⟨g3, c3, e0, eff3, rfl, rfl⟩, fun _ => by simp⟩
        · intro hd; cases hd
        · intro g1 c1 e eff _ h
          injection h with _ _ h3 _
          injection h3 with h3
          rw [← h3]
        · intro g1 c1 eff _ h; cases h

/-- C10 at a concrete input: the client of `A` to `B` dials, sends its first
request and is closed while waiting for the reply; it is pushed once, with no
error. -/
theorem start_pushes_once_witness :
    ({ buf := [startedClient addrB 5 none], cap := 10, closed := false } : Chan client) =
        Chan.send { buf := [], cap := 10, closed := false } (startedClient addrB 5 none) ∧
    (startedClient addrB 5 none).err = none :=
  have h := start_pushes_once combineNoGroups 2000000000 (newClient addrB) (nodeAt addrA [])
    { buf := [], cap := 10, closed := false } { LAddr := none } .ready 5
    [{ deltaTime := 5, interference := fun g => g, outcome := .closer, now := 6 }]
    (nodeAt addrA []) (startedClient addrB 5 none)
    { buf := [startedClient addrB 5 none], cap := 10, closed := false }
    (by decide) (by decide)
  ⟨h.1, h.2.2.2.2.2.1 (nodeAt addrA []) (startedClient addrB 5 none)
    { sent := [{ Addr := addrA, LAddr := none, MaxSeq := -1, Delta := none }], combined := [] }
    rfl (by decide)⟩

/-! ## Properties of the address set and the clients map -/

/-- Membership test of a list of addresses, by string form. -/
theorem hasAddr_iff (s : addrSet) (a : Addr) :
    s.hasAddr a = true ↔ ∃ b, b ∈ s.addrs ∧ b.String = a.String := by
  simp [addrSet.hasAddr, List.any_eq_true]

/-- A removed address is no member. -/
theorem hasAddr_removeAddr_self (s : addrSet) (a : Addr) :
    (s.removeAddr a).hasAddr a = false := by
  rw [Bool.eq_false_iff]
  intro h
  obtain ⟨b, hb, hs⟩ := (hasAddr_iff _ _).mp h
  simp [addrSet.removeAddr, List.mem_filter] at hb
  exact hb.2 hs

/-- Removing an address leaves the membership of the other addresses as it
was. -/
theorem hasAddr_removeAddr_of_ne (s : addrSet) (a x : Addr) (h : x.String ≠ a.String) :
    (s.removeAddr a).hasAddr x = s.hasAddr x := by
  rw [Bool.eq_iff_iff, hasAddr_iff, hasAddr_iff]
  constructor
  · rintro ⟨b, hb, hs⟩
    simp [addrSet.removeAddr, List.mem_filter] at hb
    exact ⟨b, hb.1, hs⟩
  · rintro ⟨b, hb, hs⟩
    refine ⟨b, ?_, hs⟩
    simp [addrSet.removeAddr, List.mem_filter]
    exact ⟨hb, fun hba => h (hs ▸ hba)⟩

/-- An added address is a member. -/
theorem hasAddr_addAddr_self (s : addrSet) (a : Addr) : (s.addAddr a).hasAddr a = true := by
  unfold addrSet.addAddr
  by_cases h : s.hasAddr a = true
  · simp [h]
  · simp only [h, if_false]
    exact (hasAddr_iff _ _).mpr ⟨a, by simp, rfl⟩

/-- Adding an address leaves the membership of the other addresses as it
was. -/
theorem hasAddr_addAddr_of_ne (s : addrSet) (a x : Addr) (h : x.String ≠ a.String) :
    (s.addAddr a).hasAddr x = s.hasAddr x := by
  unfold addrSet.addAddr
  by_cases hm : s.hasAddr a = true
  · simp [hm]
  · simp only [hm, if_false]
    rw [Bool.eq_iff_iff, hasAddr_iff, hasAddr_iff]
    constructor
    · rintro ⟨b, hb, hs⟩
      simp at hb
      rcases hb with hb | hb
      · exact ⟨b, hb, hs⟩
      · exact absurd (hb ▸ hs).symm h
    · rintro ⟨b, hb, hs⟩
      exact ⟨b, by simp [hb], hs⟩

/-- The size of a set after an addition: one more when the address is new. -/
theorem len_addAddr (s : addrSet) (a : Addr) :
    (s.addAddr a).len = if s.hasAddr a then s.len else s.len + 1 := by
  unfold addrSet.addAddr addrSet.len
  by_cases h : s.hasAddr a = true
  · simp [h]
  · simp [h]

/-- A random selection out of a set that is not empty yields a member. -/
theorem selectRandom_mem (s : addrSet) (choice : Nat) (h : s.len > 0) :
    ∃ a, s.selectRandom choice = some a ∧ a ∈ s.addrs := by
  unfold addrSet.len at h
  have hlt : choice % s.addrs.length < s.addrs.length := Nat.mod_lt _ h
  refine ⟨s.addrs[choice % s.addrs.length], ?_, List.getElem_mem hlt⟩
  simp [addrSet.selectRandom, List.getElem?_eq_getElem hlt]

/-- A deleted key has no entry. -/
theorem lookup_clientsDelete_self (m : List (GoString × client)) (key : GoString) :
    (clientsDelete m key).lookup key = none := by
  induction m with
  | nil => rfl
  | cons e m ih =>
    obtain ⟨k0, v⟩ := e
    unfold clientsDelete at ih ⊢
    by_cases h : k0 = key
    · rw [List.filter_cons_of_neg (by simp [h])]
      exact ih
    · rw [List.filter_cons_of_pos (by simp [h])]
      have hk : (key == k0) = false := by
        simp only [beq_eq_false_iff_ne, ne_eq]
        exact fun hke => h hke.symm
      simp only [List.lookup_cons, hk]
      exact ih

/-- Deleting a key leaves the entries of the other keys as they were. -/
theorem lookup_clientsDelete_of_ne (m : List (GoString × client)) (key k : GoString)
    (h : k ≠ key) : (clientsDelete m key).lookup k = m.lookup k := by
  induction m with
  | nil => rfl
  | cons e m ih =>
    obtain ⟨k0, v⟩ := e
    unfold clientsDelete at ih ⊢
    by_cases he : k0 = key
    · rw [List.filter_cons_of_neg (by simp [he])]
      have hk : (k == k0) = false := by
        simp only [beq_eq_false_iff_ne, ne_eq]
        exact fun hke => h (hke.trans he)
      simp only [List.lookup_cons, hk]
      exact ih
    · rw [List.filter_cons_of_pos (by simp [he])]
      simp only [List.lookup_cons]
      rw [ih]

/-- A key that was set maps to the client it was set to. -/
theorem lookup_clientsSet_self (m : List (GoString × client)) (key : GoString) (c : client) :
    (clientsSet m key c).lookup key = some c := by
  simp [clientsSet, List.lookup_cons]

/-- Setting a key leaves the entries of the other keys as they were. -/
theorem lookup_clientsSet_of_ne (m : List (GoString × client)) (key k : GoString) (c : client)
    (h : k ≠ key) : (clientsSet m key c).lookup k = m.lookup k := by
  have hk : (k == key) = false := by
    simp only [beq_eq_false_iff_ne, ne_eq]
    exact h
  simp only [clientsSet, List.lookup_cons, hk]
  exact lookup_clientsDelete_of_ne m key k h

/-! ## Properties of the coordinator -/

/-- C11: for every address set `S`, `filterExtant(S)` holds exactly the
addresses of `S` that are in neither the outgoing set nor the incoming set,
in the order of `S`; it is a new set of the same bound, computed without
writing `S`, outgoing or incoming. -/
theorem filterExtant_spec (g : Gossip) (S : addrSet) :
    (∀ a : Addr, a ∈ (g.filterExtant S).addrs ↔
      a ∈ S.addrs ∧ g.outgoing.hasAddr a = false ∧ g.incoming.hasAddr a = false) ∧
    (g.filterExtant S).addrs.Sublist S.addrs ∧
    (g.filterExtant S).maxSize = S.maxSize := by
  refine ⟨?_, ?_, rfl⟩
  · intro a
    simp only [Gossip.filterExtant, addrSet.filter, List.mem_filter, Bool.not_eq_true']
    tauto
  · simp only [Gossip.filterExtant, addrSet.filter]
    exact (List.filter_sublist _).trans (List.filter_sublist _)

/-- C12: in a pass of the bootstrap loop on a coordinator that is not closed, a
client is started exactly when the set of bootstrap addresses in neither
outgoing nor incoming is non-empty and (outgoing is empty or the sentinel info
is missing); then exactly one client is started, for a member of that set, and
otherwise the pass starts nothing and leaves the coordinator as it is. -/
theorem bootstrapPass_starts_iff (d : Deps) (g : Gossip) (now : Int) (choice : Nat)
    (hopen : g.closed = false) :
    ((g.filterExtant g.bootstraps).len > 0 ∧
        (g.outgoing.len = 0 ∨ g.is.getInfo d.KeySentinel now = none) →
      ∃ addr, addr ∈ (g.filterExtant g.bootstraps).addrs ∧
        g.bootstrapPass d now choice =
          .next (g.startClient addr).1
            { PassEffects.none with
                started := [newClient addr], logged := [.bootstrapping addr] }) ∧
    (¬ ((g.filterExtant g.bootstraps).len > 0 ∧
        (g.outgoing.len = 0 ∨ g.is.getInfo d.KeySentinel now = none)) →
      g.bootstrapPass d now choice = .next g PassEffects.none) := by
  constructor
  · rintro ⟨havail, hneed⟩
    obtain ⟨addr, hsel, hmem⟩ := selectRandom_mem _ choice havail
    refine ⟨addr, hmem, ?_⟩
    have hcond : (!decide (g.outgoing.len > 0) ||
        !(g.is.getInfo d.KeySentinel now).isSome) = true := by
      rcases hneed with h | h
      · simp [h]
      · simp [h]
    simp only [Gossip.bootstrapPass, hopen, havail, hcond, hsel, if_true]
    rfl
  · intro hnot
    by_cases havail : (g.filterExtant g.bootstraps).len > 0
    · have hcond : (!decide (g.outgoing.len > 0) ||
          !(g.is.getInfo d.KeySentinel now).isSome) = false := by
        have h1 : ¬ g.outgoing.len = 0 := fun h => hnot ⟨havail, Or.inl h⟩
        have h2 : ¬ g.is.getInfo d.KeySentinel now = none := fun h => hnot ⟨havail, Or.inr h⟩
        cases hs : g.is.getInfo d.KeySentinel now with
        | none => exact absurd hs h2
        | some i =>
          have : g.outgoing.len > 0 := Nat.pos_of_ne_zero h1
          simp [this]
      simp only [Gossip.bootstrapPass, hopen, havail, hcond, if_true]
      rfl
    · simp only [Gossip.bootstrapPass, hopen, havail, if_false]
      rfl

/-- C12 at a concrete input: node `A` with the bootstrap list `[B]`, no
outgoing client and no sentinel starts a client to `B`. -/
theorem bootstrapPass_starts_iff_witness :
    ∃ addr, addr ∈
        (({ nodeAt addrA [] with bootstraps := { addrs := [addrB], maxSize := 10 } } :
          Gossip).filterExtant { addrs := [addrB], maxSize := 10 }).addrs ∧
      ({ nodeAt addrA [] with bootstraps := { addrs := [addrB], maxSize := 10 } } :
          Gossip).bootstrapPass sampleDeps 1 0 =
        .next
          (({ nodeAt addrA [] with bootstraps := { addrs := [addrB], maxSize := 10 } } :
            Gossip).startClient addr).1
          { PassEffects.none with
              started := [newClient addr], logged := [.bootstrapping addr] } :=
  (bootstrapPass_starts_iff sampleDeps
    { nodeAt addrA [] with bootstraps := { addrs := [addrB], maxSize := 10 } } 1 0
    (by decide)).1 ⟨by decide, Or.inl (by decide)⟩

/-- C13: when the manage loop processes a disconnected client `c`, `c.addr` is
removed from outgoing and the entry of `c.addr` is removed from the clients
map, the other addresses and entries staying as they were; if `c.forwardAddr`
is nil that is all that changes and nothing is started, and if it is set then
afterwards `c.forwardAddr` is in outgoing, the clients map takes it to a newly
created client for that address, and that client is the one launched. -/
theorem manageDisconnected_spec (g : Gossip) (c : client) :
    (({ g with outgoing := g.outgoing.removeAddr c.addr,
               clients := clientsDelete g.clients c.addr.String } : Gossip).outgoing.hasAddr
        c.addr = false ∧
      (clientsDelete g.clients c.addr.String).lookup c.addr.String = none ∧
      (∀ x : Addr, x.String ≠ c.addr.String →
        (g.outgoing.removeAddr c.addr).hasAddr x = g.outgoing.hasAddr x ∧
        (clientsDelete g.clients c.addr.String).lookup x.String =
          g.clients.lookup x.String)) ∧
    (c.forwardAddr = none →
      (g.manageDisconnected c).1 =
        { g with outgoing := g.outgoing.removeAddr c.addr,
                 clients := clientsDelete g.clients c.addr.String } ∧
      (g.manageDisconnected c).2.started = [] ∧
      (g.manageDisconnected c).2.closed = []) ∧
    (∀ fwd, c.forwardAddr = some fwd →
      (g.manageDisconnected c).1 =
        { g with outgoing := (g.outgoing.removeAddr c.addr).addAddr fwd,
                 clients :=
                   clientsSet (clientsDelete g.clients c.addr.String) fwd.String
                     (newClient fwd) } ∧
      (g.manageDisconnected c).1.outgoing.hasAddr fwd = true ∧
      (g.manageDisconnected c).1.clients.lookup fwd.String = some (newClient fwd) ∧
      (g.manageDisconnected c).2.started = [newClient fwd] ∧
      (g.manageDisconnected c).2.closed = [] ∧
      (fwd.String ≠ c.addr.String →
        (g.manageDisconnected c).1.outgoing.hasAddr c.addr = false ∧
        (g.manageDisconnected c).1.clients.lookup c.addr.String = none)) := by
  refine ⟨⟨hasAddr_removeAddr_self _ _, lookup_clientsDelete_self _ _, ?_⟩, ?_, ?_⟩
  · intro x hx
    exact ⟨hasAddr_removeAddr_of_ne _ _ _ hx, lookup_clientsDelete_of_ne _ _ _ hx⟩
  · intro hnone
    simp [Gossip.manageDisconnected, hnone, PassEffects.none]
  · intro fwd hfwd
    have hg : (g.manageDisconnected c).1 =
        { g with outgoing := (g.outgoing.removeAddr c.addr).addAddr fwd,
                 clients :=
                   clientsSet (clientsDelete g.clients c.addr.String) fwd.String
                     (newClient fwd) } := by
      simp [Gossip.manageDisconnected, hfwd, Gossip.startClient, newClient]
    refine ⟨hg, ?_, ?_, ?_, ?_, ?_⟩
    · rw [hg]; exact hasAddr_addAddr_self _ _
    · rw [hg]; exact lookup_clientsSet_self _ _ _
    · simp [Gossip.manageDisconnected, hfwd, Gossip.startClient, PassEffects.none]
    · simp [Gossip.manageDisconnected, hfwd, PassEffects.none]
    · intro hne
      rw [hg]
      constructor
      · show ((g.outgoing.removeAddr c.addr).addAddr fwd).hasAddr c.addr = false
        rw [hasAddr_addAddr_of_ne _ _ _ (fun h => hne h.symm)]
        exact hasAddr_removeAddr_self _ _
      · show (clientsSet (clientsDelete g.clients c.addr.String) fwd.String
            (newClient fwd)).lookup c.addr.String = none
        rw [lookup_clientsSet_of_ne _ _ _ _ (fun h => hne h.symm)]
        exact lookup_clientsDelete_self _ _

/-- The signalling statements of `manage` start and close no client, and write
nothing but `stalled`, `hasConnected` and `Connected`. -/
theorem managePost_frame (d : Deps) (g : Gossip) (now : Int) (r : Gossip × PassEffects)
    (h : g.managePost d now = some r) :
    r.2.started = [] ∧ r.2.closed = [] ∧ r.1.outgoing = g.outgoing ∧
    r.1.clients = g.clients ∧ r.1.toserver = g.toserver ∧ r.1.bootstraps = g.bootstraps ∧
    r.1.exited = g.exited ∧ r.1.disconnected = g.disconnected := by
  unfold Gossip.managePost at h
  split at h
  · cases h; exact ⟨rfl, rfl, rfl, rfl, rfl, rfl, rfl, rfl⟩
  · split at h
    · cases h; exact ⟨rfl, rfl, rfl, rfl, rfl, rfl, rfl, rfl⟩
    · split at h
      · split at h
        · cases h
        · cases h; exact ⟨rfl, rfl, rfl, rfl, rfl, rfl, rfl, rfl⟩
      · cases h; exact ⟨rfl, rfl, rfl, rfl, rfl, rfl, rfl, rfl⟩

/-- The exit check of `manage` passes the effects on and writes nothing but
`exited`. -/
theorem manageExit_frame (g : Gossip) (eff : PassEffects) (r : Gossip × PassEffects)
    (h : (g.manageExit eff).outcome = some r) :
    r.2 = eff ∧ r.1.outgoing = g.outgoing ∧ r.1.clients = g.clients ∧
    r.1.toserver = g.toserver ∧ r.1.bootstraps = g.bootstraps ∧
    r.1.hasConnected = g.hasConnected ∧ r.1.Connected = g.Connected ∧
    r.1.disconnected = g.disconnected := by
  unfold Gossip.manageExit at h
  split at h
  · split at h
    · simp only [PassResult.outcome, Option.some.injEq] at h
      subst h; exact ⟨rfl, rfl, rfl, rfl, rfl, rfl, rfl, rfl⟩
    · simp only [PassResult.outcome, Option.some.injEq] at h
      subst h; exact ⟨rfl, rfl, rfl, rfl, rfl, rfl, rfl, rfl⟩
  · simp only [PassResult.outcome, Option.some.injEq] at h
    subst h; exact ⟨rfl, rfl, rfl, rfl, rfl, rfl, rfl, rfl⟩

/-- A pass of `manage` on the tick starts and closes what the tick case starts
and closes, nothing more. -/
theorem managePass_tick (d : Deps) (g : Gossip) (choice : Nat) (nowCase nowPost : Int)
    (g2 : Gossip) (eff : PassEffects)
    (h : (g.managePass d (.tick choice) nowCase nowPost).outcome = some (g2, eff)) :
    ∃ r, g.manageTick d nowCase choice = some r ∧ eff.started = r.2.started ∧
      eff.closed = r.2.closed ∧ g2.outgoing = r.1.outgoing ∧ g2.clients = r.1.clients := by
  simp only [Gossip.managePass] at h
  cases ht : g.manageTick d nowCase choice with
  | none => rw [ht] at h; simp [PassResult.outcome] at h
  | some r1 =>
    rw [ht] at h
    simp only at h
    cases hp : r1.1.managePost d nowPost with
    | none => rw [hp] at h; simp [PassResult.outcome] at h
    | some r2 =>
      rw [hp] at h
      simp only at h
      obtain ⟨e1, e2, e3, e4, -⟩ := manageExit_frame _ _ _ h
      obtain ⟨p1, p2, p3, p4, -⟩ := managePost_frame d _ _ _ hp
      refine ⟨r1, rfl, ?_, ?_, ?_, ?_⟩
      · simp only at e1; rw [e1]; simp [PassEffects.append, p1]
      · simp only at e1; rw [e1]; simp [PassEffects.append, p2]
      · simp only at e2; rw [e2, p3]
      · simp only at e3; rw [e3, p4]

/-- C14: on a manage tick at which outgoing holds fewer than `MaxPeers`
addresses and the set `distant(maxToleratedHops())`, filtered against outgoing
and incoming, is non-empty, exactly one new client is started, for a member of
that filtered set (so for an address in neither outgoing nor incoming), and no
client is closed; when the filtered set is empty the tick starts and closes
nothing; and the rest of the pass starts and closes nothing either. -/
theorem manageTick_starts_one (d : Deps) (g : Gossip) (now : Int) (choice : Nat) (hops : Nat)
    (hhops : g.maxToleratedHops d.ceilLogRatio d.KeyNodeCount now = some hops) :
    (g.outgoing.len < MaxPeers → (g.filterExtant (d.distant g.is hops now)).len > 0 →
      ∃ addr, addr ∈ (g.filterExtant (d.distant g.is hops now)).addrs ∧
        g.outgoing.hasAddr addr = false ∧ g.incoming.hasAddr addr = false ∧
        g.manageTick d now choice =
          some ((g.startClient addr).1,
            { PassEffects.none with started := [newClient addr] })) ∧
    ((g.filterExtant (d.distant g.is hops now)).len = 0 →
      g.manageTick d now choice = some (g, PassEffects.none)) ∧
    (∀ nowPost g2 eff,
      (g.managePass d (.tick choice) now nowPost).outcome = some (g2, eff) →
      ∃ r, g.manageTick d now choice = some r ∧ eff.started = r.2.started ∧
        eff.closed = r.2.closed) := by
  refine ⟨?_, ?_, ?_⟩
  · intro hlt hdist
    obtain ⟨addr, hsel, hmem⟩ := selectRandom_mem _ choice hdist
    have hin := ((filterExtant_spec g (d.distant g.is hops now)).1 addr).mp hmem
    refine ⟨addr, hmem, hin.2.1, hin.2.2, ?_⟩
    simp only [Gossip.manageTick, hhops, hdist, hlt, hsel, if_true]
    rfl
  · intro hzero
    have hn : ¬ (g.filterExtant (d.distant g.is hops now)).len > 0 := by omega
    simp only [Gossip.manageTick, hhops, hn, if_false]
  · intro nowPost g2 eff h
    obtain ⟨r, hr, h1, h2, -⟩ := managePass_tick d g choice now nowPost g2 eff h
    exact ⟨r, hr, h1, h2⟩

/-- C14 at a concrete input: node `A`, with no client, holds an info that came
from `B` over 9 hops (7 are tolerated); the tick starts a client to `B`. -/
theorem manageTick_starts_one_witness :
    ∃ addr, addr ∈ ((distantNode addrA addrB).filterExtant
          (sampleDeps.distant (distantNode addrA addrB).is 7 1)).addrs ∧
      (distantNode addrA addrB).outgoing.hasAddr addr = false ∧
      (distantNode addrA addrB).incoming.hasAddr addr = false ∧
      (distantNode addrA addrB).manageTick sampleDeps 1 0 =
        some (((distantNode addrA addrB).startClient addr).1,
          { PassEffects.none with started := [newClient addr] }) :=
  (manageTick_starts_one sampleDeps (distantNode addrA addrB) 1 0 7 (by decide)).1
    (by decide) (by decide)

/-- A manage tick at which outgoing is full and the filtered distant set is
non-empty starts nothing and leaves outgoing alone; it closes nothing when
`leastUseful` yields nil, closes the client of the least useful address and
deletes its entry when the clients map holds one, and panics when the clients
map holds none. -/
theorem manageTick_at_capacity (d : Deps) (g : Gossip) (now : Int) (choice : Nat) (hops : Nat)
    (hhops : g.maxToleratedHops d.ceilLogRatio d.KeyNodeCount now = some hops)
    (hfull : ¬ g.outgoing.len < MaxPeers)
    (hdist : (g.filterExtant (d.distant g.is hops now)).len > 0) :
    (d.leastUseful g.is g.outgoing = none →
      g.manageTick d now choice = some (g, PassEffects.none)) ∧
    (∀ addr c, d.leastUseful g.is g.outgoing = some addr →
      g.clients.lookup addr.String = some c → c.closer = false →
      g.manageTick d now choice =
        some ({ g with clients := clientsDelete g.clients addr.String },
          { PassEffects.none with
              closed := [{ c with closer := true }],
              logged := [.closingLeastUseful addr] })) ∧
    (∀ addr, d.leastUseful g.is g.outgoing = some addr →
      g.clients.lookup addr.String = none → g.manageTick d now choice = none) := by
  refine ⟨?_, ?_, ?_⟩
  · intro hl
    simp only [Gossip.manageTick, hhops, hdist, hfull, hl, if_true, if_false]
  · intro addr c hl hc hcl
    simp only [Gossip.manageTick, hhops, hdist, hfull, hl, Gossip.closeClient, hc, hcl,
      if_true, if_false]
    rfl
  · intro addr hl hc
    simp only [Gossip.manageTick, hhops, hdist, hfull, hl, Gossip.closeClient, hc,
      if_true, if_false]

/-- C15, the code at a failing input: node `A` has the ten outgoing clients
`P0` to `P9` and a distant info. A first tick closes the client of the least
useful address `P0` and deletes its entry from the clients map, leaving `P0`
in outgoing. A second tick, before the disconnection of that client has been
processed, picks `P0` again, finds no client and panics: no client is
closed. -/
theorem manageTick_second_tick_faults :
    fullNode.outgoing.len = 10 ∧
    fullNode.manageTick sampleDeps 1 0 =
      some ({ fullNode with clients := clientsDelete fullNode.clients (peer 0).String },
        { PassEffects.none with
            closed := [{ newClient (peer 0) with closer := true }],
            logged := [.closingLeastUseful (peer 0)] }) ∧
    ({ fullNode with clients := clientsDelete fullNode.clients (peer 0).String } :
      Gossip).outgoing.hasAddr (peer 0) = true ∧
    ({ fullNode with clients := clientsDelete fullNode.clients (peer 0).String } :
      Gossip).manageTick sampleDeps 2 0 = none ∧
    ({ fullNode with clients := clientsDelete fullNode.clients (peer 0).String } :
      Gossip).managePass sampleDeps (.tick 0) 2 2 = .fault := by
  refine ⟨by decide, by decide, by decide, by decide, by decide⟩

/-- What a call of `closeClient` that returns has done. -/
theorem closeClient_eq (g : Gossip) (addr : Addr) (r : Gossip × client)
    (h : g.closeClient addr = some r) :
    r.1 = { g with clients := clientsDelete g.clients addr.String } ∧
    ∃ c, g.clients.lookup addr.String = some c ∧ c.closer = false ∧
      r.2 = { c with closer := true } := by
  unfold Gossip.closeClient at h
  cases hc : g.clients.lookup addr.String with
  | none => rw [hc] at h; cases h
  | some c =>
    rw [hc] at h
    simp only at h
    cases hcl : c.closer with
    | true => simp [hcl] at h
    | false =>
      simp only [hcl, Bool.false_eq_true, if_false, Option.some.injEq] at h
      subst h
      exact ⟨rfl, c, rfl, hcl, rfl⟩

/-- The tick case of `manage` closes `Connected` never and writes nothing but
outgoing and the clients map. -/
theorem manageTick_frame (d : Deps) (g : Gossip) (now : Int) (choice : Nat)
    (r : Gossip × PassEffects) (h : g.manageTick d now choice = some r) :
    r.2.connectedCloses = 0 ∧ r.1.hasConnected = g.hasConnected ∧
    r.1.Connected = g.Connected ∧ r.1.exited = g.exited ∧ r.1.toserver = g.toserver ∧
    r.1.bootstraps = g.bootstraps ∧ r.1.disconnected = g.disconnected := by
  cases hh : g.maxToleratedHops d.ceilLogRatio d.KeyNodeCount now with
  | none => simp [Gossip.manageTick, hh] at h
  | some hops =>
    by_cases hdist : (g.filterExtant (d.distant g.is hops now)).len > 0
    · by_cases hlt : g.outgoing.len < MaxPeers
      · cases hsel : (g.filterExtant (d.distant g.is hops now)).selectRandom choice with
        | none => simp [Gossip.manageTick, hh, hdist, hlt, hsel] at h
        | some addr =>
          simp only [Gossip.manageTick, hh, hdist, hlt, hsel, if_true,
            Option.some.injEq] at h
          subst h
          exact ⟨rfl, rfl, rfl, rfl, rfl, rfl, rfl⟩
      · cases hl : d.leastUseful g.is g.outgoing with
        | none =>
          simp only [Gossip.manageTick, hh, hdist, hlt, hl, if_true, if_false,
            Option.some.injEq] at h
          subst h
          exact ⟨rfl, rfl, rfl, rfl, rfl, rfl, rfl⟩
        | some addr =>
          cases hc : g.closeClient addr with
          | none => simp [Gossip.manageTick, hh, hdist, hlt, hl, hc] at h
          | some r1 =>
            simp only [Gossip.manageTick, hh, hdist, hlt, hl, hc, if_true, if_false,
              Option.some.injEq] at h
            subst h
            obtain ⟨h1, -⟩ := closeClient_eq g addr r1 hc
            refine ⟨rfl, ?_, ?_, ?_, ?_, ?_, ?_⟩ <;> simp [h1]
    · simp only [Gossip.manageTick, hh, hdist, if_false, Option.some.injEq] at h
      subst h
      exact ⟨rfl, rfl, rfl, rfl, rfl, rfl, rfl⟩

/-- The disconnected case of `manage` closes `Connected` never and writes
nothing but outgoing and the clients map. -/
theorem manageDisconnected_frame (g : Gossip) (c : client) :
    (g.manageDisconnected c).2.connectedCloses = 0 ∧
    (g.manageDisconnected c).1.hasConnected = g.hasConnected ∧
    (g.manageDisconnected c).1.Connected = g.Connected ∧
    (g.manageDisconnected c).1.exited = g.exited ∧
    (g.manageDisconnected c).1.toserver = g.toserver ∧
    (g.manageDisconnected c).1.bootstraps = g.bootstraps ∧
    (g.manageDisconnected c).1.disconnected = g.disconnected := by
  unfold Gossip.manageDisconnected
  cases c.forwardAddr <;> exact ⟨rfl, rfl, rfl, rfl, rfl, rfl, rfl⟩

/-- A pass of the bootstrap loop closes `Connected` never and writes nothing
but outgoing and the clients map. -/
theorem bootstrapPass_frame (d : Deps) (g : Gossip) (now : Int) (choice : Nat)
    (r : Gossip × PassEffects) (h : (g.bootstrapPass d now choice).outcome = some r) :
    r.2.connectedCloses = 0 ∧ r.2.closed = [] ∧ r.1.hasConnected = g.hasConnected ∧
    r.1.Connected = g.Connected ∧ r.1.exited = g.exited ∧ r.1.toserver = g.toserver ∧
    r.1.bootstraps = g.bootstraps ∧ r.1.disconnected = g.disconnected := by
  by_cases hcl : g.closed = true
  · simp only [Gossip.bootstrapPass, hcl, if_true, PassResult.outcome,
      Option.some.injEq] at h
    subst h
    exact ⟨rfl, rfl, rfl, rfl, rfl, rfl, rfl, rfl⟩
  · have hopen : g.closed = false := by simpa using hcl
    by_cases hstart : (g.filterExtant g.bootstraps).len > 0 ∧
        (g.outgoing.len = 0 ∨ g.is.getInfo d.KeySentinel now = none)
    · obtain ⟨addr, -, hp⟩ := (bootstrapPass_starts_iff d g now choice hopen).1 hstart
      rw [hp] at h
      simp only [PassResult.outcome, Option.some.injEq] at h
      subst h
      exact ⟨rfl, rfl, rfl, rfl, rfl, rfl, rfl, rfl⟩
    · have hp := (bootstrapPass_starts_iff d g now choice hopen).2 hstart
      rw [hp] at h
      simp only [PassResult.outcome, Option.some.injEq] at h
      subst h
      exact ⟨rfl, rfl, rfl, rfl, rfl, rfl, rfl, rfl⟩

/-- The signalling statements of `manage` either leave `hasConnected` and
`Connected` alone, or close `Connected` once and set `hasConnected`; the latter
only if `hasConnected` was false, the sentinel is present, and outgoing is
non-empty or no bootstrap address is available. -/
theorem managePost_connected (d : Deps) (g : Gossip) (now : Int) (r : Gossip × PassEffects)
    (h : g.managePost d now = some r) :
    (r.2.connectedCloses = 0 ∧ r.1.hasConnected = g.hasConnected ∧
      r.1.Connected = g.Connected) ∨
    (r.2.connectedCloses = 1 ∧ g.hasConnected = false ∧ r.1.hasConnected = true ∧
      g.Connected.closed = false ∧ r.1.Connected.closed = true ∧
      g.is.getInfo d.KeySentinel now ≠ none ∧
      (g.outgoing.len ≠ 0 ∨ (g.filterExtant g.bootstraps).len = 0)) := by
  cases c1 : (g.outgoing.len == 0 && decide ((g.filterExtant g.bootstraps).len > 0)) with
  | true =>
    simp only [Gossip.managePost, c1, if_true, Option.some.injEq] at h
    subst h
    exact Or.inl ⟨rfl, rfl, rfl⟩
  | false =>
    cases c2 : (g.is.getInfo d.KeySentinel now).isNone with
    | true =>
      simp only [Gossip.managePost, c1, c2, if_true, if_false, Bool.false_eq_true,
        Option.some.injEq] at h
      subst h
      exact Or.inl ⟨rfl, rfl, rfl⟩
    | false =>
      cases c3 : g.hasConnected with
      | true =>
        simp only [Gossip.managePost, c1, c2, c3, if_false, Bool.not_true,
          Bool.false_eq_true, Option.some.injEq] at h
        subst h
        exact Or.inl ⟨rfl, c3, rfl⟩
      | false =>
        cases c4 : g.Connected.closed with
        | true =>
          simp [Gossip.managePost, c1, c2, c3, Chan.close, c4] at h
        | false =>
          simp only [Gossip.managePost, c1, c2, c3, Chan.close, c4, if_false, Bool.not_false,
            if_true, Bool.false_eq_true, Option.some.injEq] at h
          subst h
          refine Or.inr ⟨rfl, rfl, rfl, rfl, rfl, ?_, ?_⟩
          · intro hn
            rw [hn] at c2
            cases c2
          · by_cases ho : g.outgoing.len = 0
            · right
              by_contra hb
              have : (g.filterExtant g.bootstraps).len > 0 := Nat.pos_of_ne_zero hb
              simp [ho, this] at c1
            · exact Or.inl ho

/-- The shape of a pass of `manage` that ends: the `select` case gives a state
`g1` without touching `hasConnected`, `Connected`, `exited`, the server part or
the bootstrap list; the signalling statements run on `g1`; the exit check
writes nothing but `exited`, and only if it was allocated. -/
theorem managePass_shape (d : Deps) (g : Gossip) (ev : ManageEvent) (nowCase nowPost : Int)
    (g2 : Gossip) (eff : PassEffects)
    (h : (g.managePass d ev nowCase nowPost).outcome = some (g2, eff)) :
    ∃ (g1 : Gossip) (eff1 : PassEffects) (r2 : Gossip × PassEffects),
      g1.managePost d nowPost = some r2 ∧ eff = eff1.append r2.2 ∧
      eff1.connectedCloses = 0 ∧ g1.hasConnected = g.hasConnected ∧
      g1.Connected = g.Connected ∧ g1.exited = g.exited ∧ g1.toserver = g.toserver ∧
      g1.bootstraps = g.bootstraps ∧
      g2.hasConnected = r2.1.hasConnected ∧ g2.Connected = r2.1.Connected ∧
      g2.outgoing = g1.outgoing ∧ g2.toserver = g1.toserver ∧
      g2.bootstraps = g1.bootstraps ∧ (g.exited = none → g2.exited = none) := by
  have finish : ∀ (g1 : Gossip) (eff1 : PassEffects),
      eff1.connectedCloses = 0 → g1.hasConnected = g.hasConnected →
      g1.Connected = g.Connected → g1.exited = g.exited → g1.toserver = g.toserver →
      g1.bootstraps = g.bootstraps →
      (match g1.managePost d nowPost with
        | none => PassResult.fault
        | some r2 => r2.1.manageExit (eff1.append r2.2)).outcome = some (g2, eff) →
      ∃ (g1 : Gossip) (eff1 : PassEffects) (r2 : Gossip × PassEffects),
        g1.managePost d nowPost = some r2 ∧ eff = eff1.append r2.2 ∧
        eff1.connectedCloses = 0 ∧ g1.hasConnected = g.hasConnected ∧
        g1.Connected = g.Connected ∧ g1.exited = g.exited ∧ g1.toserver = g.toserver ∧
        g1.bootstraps = g.bootstraps ∧
        g2.hasConnected = r2.1.hasConnected ∧ g2.Connected = r2.1.Connected ∧
        g2.outgoing = g1.outgoing ∧ g2.toserver = g1.toserver ∧
        g2.bootstraps = g1.bootstraps ∧ (g.exited = none → g2.exited = none) := by
    intro g1 eff1 a1 a2 a3 a4 a5 a6 hm
    cases hp : g1.managePost d nowPost with
    | none => rw [hp] at hm; simp [PassResult.outcome] at hm
    | some r2 =>
      rw [hp] at hm
      simp only at hm
      obtain ⟨e1, e2, e3, e4, e5, e6, e7, e8⟩ := manageExit_frame _ _ _ hm
      obtain ⟨p1, p2, p3, p4, p5, p6, p7, p8⟩ := managePost_frame d _ _ _ hp
      refine ⟨g1, eff1, r2, hp, e1, a1, a2, a3, a4, a5, a6, e6, e7, ?_, ?_, ?_, ?_⟩
      · exact e2.trans p3
      · exact e4.trans p5
      · exact e5.trans p6
      · intro hx
        have hr2 : r2.1.exited = none := by rw [p7, a4, hx]
        unfold Gossip.manageExit at hm
        split at hm
        · rw [hr2] at hm
          simp only [PassResult.outcome, Option.some.injEq, Prod.mk.injEq] at hm
          rw [← hm.1]; exact hr2
        · simp only [PassResult.outcome, Option.some.injEq, Prod.mk.injEq] at hm
          rw [← hm.1]; exact hr2
  simp only [Gossip.managePass] at h
  cases ev with
  | disconnected =>
    simp only at h
    cases hb : g.disconnected.buf with
    | nil => rw [hb] at h; simp [PassResult.outcome] at h
    | cons c rest =>
      rw [hb] at h
      simp only at h
      obtain ⟨f1, f2, f3, f4, f5, f6, -⟩ := manageDisconnected_frame
        { g with disconnected := { g.disconnected with buf := rest } } c
      exact finish _ _ f1 f2 f3 f4 f5 f6 h
  | tick choice =>
    simp only at h
    cases ht : g.manageTick d nowCase choice with
    | none => rw [ht] at h; simp [PassResult.outcome] at h
    | some r1 =>
      rw [ht] at h
      simp only at h
      obtain ⟨f1, f2, f3, f4, f5, f6, -⟩ := manageTick_frame d g nowCase choice r1 ht
      exact finish _ _ f1 f2 f3 f4 f5 f6 h

/-- The loop of `Stop` writes nothing but the clients map. -/
theorem closeAll_frame : ∀ (l : List Addr) (g : Gossip) (r : Gossip × List client),
    g.closeAll l = some r →
    r.1.hasConnected = g.hasConnected ∧ r.1.Connected = g.Connected ∧
    r.1.exited = g.exited ∧ r.1.outgoing = g.outgoing ∧ r.1.toserver = g.toserver ∧
    r.1.bootstraps = g.bootstraps := by
  intro l
  induction l with
  | nil =>
    intro g r h
    simp only [Gossip.closeAll, Option.some.injEq] at h
    subst h
    exact ⟨rfl, rfl, rfl, rfl, rfl, rfl⟩
  | cons addr rest ih =>
    intro g r h
    simp only [Gossip.closeAll] at h
    cases hc : g.closeClient addr with
    | none => rw [hc] at h; cases h
    | some r1 =>
      rw [hc] at h
      simp only at h
      cases hr : r1.1.closeAll rest with
      | none => rw [hr] at h; cases h
      | some r2 =>
        rw [hr] at h
        simp only [Option.some.injEq] at h
        subst h
        obtain ⟨h1, -⟩ := closeClient_eq g addr r1 hc
        obtain ⟨i1, i2, i3, i4, i5, i6⟩ := ih r1.1 r2 hr
        simp only [h1] at i1 i2 i3 i4 i5 i6
        exact ⟨i1, i2, i3, i4, i5, i6⟩

/-- An event either leaves `hasConnected` and `Connected` alone, or closes
`Connected` once and sets `hasConnected`, which was false; and no event
allocates the `exited` channel. -/
theorem step_connected (d : Deps) (g : Gossip) (e : Event) (r : Gossip × PassEffects)
    (h : g.step d e = some r) :
    ((r.2.connectedCloses = 0 ∧ r.1.hasConnected = g.hasConnected ∧
        r.1.Connected = g.Connected) ∨
      (r.2.connectedCloses = 1 ∧ g.hasConnected = false ∧ r.1.hasConnected = true ∧
        g.Connected.closed = false ∧ r.1.Connected.closed = true)) ∧
    (g.exited = none → r.1.exited = none) := by
  cases e with
  | setBootstrap addrs =>
    simp only [Gossip.step, Option.some.injEq] at h
    subst h
    exact ⟨Or.inl ⟨rfl, rfl, rfl⟩, fun hx => hx⟩
  | store is =>
    simp only [Gossip.step, Option.some.injEq] at h
    subst h
    exact ⟨Or.inl ⟨rfl, rfl, rfl⟩, fun hx => hx⟩
  | incoming s0 =>
    simp only [Gossip.step, Option.some.injEq] at h
    subst h
    exact ⟨Or.inl ⟨rfl, rfl, rfl⟩, fun hx => hx⟩
  | clientDone c =>
    simp only [Gossip.step, Option.some.injEq] at h
    subst h
    exact ⟨Or.inl ⟨rfl, rfl, rfl⟩, fun hx => hx⟩
  | stop =>
    simp only [Gossip.step] at h
    cases hs : g.Stop with
    | none => rw [hs] at h; cases h
    | some r0 =>
      rw [hs] at h
      simp only [Option.some.injEq] at h
      subst h
      simp only [Gossip.Stop] at hs
      cases hc : Gossip.closeAll
          { g with closed := true, stalled := g.stalled + 1 } g.outgoing.asSlice with
      | none => rw [hc] at hs; cases hs
      | some r1 =>
        rw [hc] at hs
        simp only [Option.some.injEq] at hs
        subst hs
        obtain ⟨i1, i2, i3, -⟩ := closeAll_frame _ _ _ hc
        exact ⟨Or.inl ⟨rfl, i1, i2⟩, fun hx => i3.trans hx⟩
  | bootstrap now choice =>
    simp only [Gossip.step] at h
    obtain ⟨b1, -, b3, b4, b5, -⟩ := bootstrapPass_frame d g now choice r h
    exact ⟨Or.inl ⟨b1, b3, b4⟩, fun hx => b5.trans hx⟩
  | manage ev nowCase nowPost =>
    simp only [Gossip.step] at h
    obtain ⟨g1, eff1, r2, hp, he, a1, a2, a3, a4, -, -, m1, m2, -, -, -, m6⟩ :=
      managePass_shape d g ev nowCase nowPost r.1 r.2 h
    refine ⟨?_, m6⟩
    have hcount : r.2.connectedCloses = r2.2.connectedCloses := by
      rw [he]; simp [PassEffects.append, a1]
    rcases managePost_connected d g1 nowPost r2 hp with ⟨q1, q2, q3⟩ | ⟨q1, q2, q3, q4, q5, -⟩
    · left
      exact ⟨hcount.trans q1, m1.trans (q2.trans a2), m2.trans (q3.trans a3)⟩
    · right
      refine ⟨hcount.trans q1, a2 ▸ q2, m1.trans q3, a3 ▸ q4, ?_⟩
      rw [m2]; exact q5

/-- Along any sequence of events, from a state in which `Connected` is closed
exactly if `hasConnected` is set: that stays so, `hasConnected` never reverts,
the number of times `Connected` is closed is 1 if `hasConnected` went from
false to true and 0 otherwise, and `exited` stays nil if it was. -/
theorem run_connected (d : Deps) : ∀ (events : List Event) (g : Gossip)
    (r : Gossip × PassEffects), g.run d events = some r →
    g.Connected.closed = g.hasConnected →
    r.1.Connected.closed = r.1.hasConnected ∧
    (g.hasConnected = true → r.1.hasConnected = true) ∧
    r.2.connectedCloses + (if g.hasConnected then 1 else 0) =
      (if r.1.hasConnected then 1 else 0) ∧
    (g.exited = none → r.1.exited = none) := by
  intro events
  induction events with
  | nil =>
    intro g r h hinv
    simp only [Gossip.run, Option.some.injEq] at h
    subst h
    exact ⟨hinv, fun hx => hx, by simp [PassEffects.none], fun hx => hx⟩
  | cons e es ih =>
    intro g r h hinv
    simp only [Gossip.run] at h
    cases hs : g.step d e with
    | none => rw [hs] at h; cases h
    | some r1 =>
      rw [hs] at h
      simp only at h
      cases hr : Gossip.run d r1.1 es with
      | none => rw [hr] at h; cases h
      | some r2 =>
        rw [hr] at h
        simp only [Option.some.injEq] at h
        subst h
        obtain ⟨hstep, hex⟩ := step_connected d g e r1 hs
        have hinv1 : r1.1.Connected.closed = r1.1.hasConnected := by
          rcases hstep with ⟨-, s2, s3⟩ | ⟨-, -, s3, -, s5⟩
          · rw [s2, s3]; exact hinv
          · rw [s3, s5]
        obtain ⟨j1, j2, j3, j4⟩ := ih r1.1 r2 hr hinv1
        refine ⟨j1, ?_, ?_, fun hx => j4 (hex hx)⟩
        · intro hx
          rcases hstep with ⟨-, s2, -⟩ | ⟨-, s2, -⟩
          · exact j2 (s2.trans hx)
          · rw [s2] at hx; cases hx
        · simp only [PassEffects.append]
          rcases hstep with ⟨s1, s2, -⟩ | ⟨s1, s2, s3, -⟩
          · rw [s1, ← s2]; omega
          · rw [s1, s2]
            rw [s3] at j3
            simp only [if_true, Bool.false_eq_true, if_false] at j3 ⊢
            omega

/-- C16 as stated fails: a single node with an empty bootstrap list, no
outgoing client and no incoming peer, which has published the sentinel itself,
fires `Connected` at its first manage tick. -/
theorem lone_node_fires_connected :
    (New serverWithSentinel).outgoing.len = 0 ∧
    (New serverWithSentinel).bootstraps.len = 0 ∧
    (New serverWithSentinel).incoming.len = 0 ∧
    (New serverWithSentinel).managePass sampleDeps (.tick 0) 1 1 =
      .next
        { New serverWithSentinel with
            hasConnected := true, Connected := { buf := [], cap := 1, closed := true } }
        { PassEffects.none with connectedCloses := 1 } := by
  refine ⟨by decide, by decide, by decide, by decide⟩

/-- C16, as the code has it: the manage loop fires `Connected` only in a pass
at whose end the sentinel info is present and either outgoing is non-empty or
no bootstrap address outside outgoing and incoming is available; it fires it
once, and `hasConnected` was false before the pass. So a single node with an
empty bootstrap list and no peers fires `Connected` in no pass in which the
sentinel is missing from its store, and does fire it in the first pass in which
the sentinel is present. -/
theorem connected_fires_only_with_sentinel (d : Deps) (g : Gossip) (ev : ManageEvent)
    (nowCase nowPost : Int) (g2 : Gossip) (eff : PassEffects)
    (h : (g.managePass d ev nowCase nowPost).outcome = some (g2, eff))
    (hfire : eff.connectedCloses ≠ 0) :
    g2.is.getInfo d.KeySentinel nowPost ≠ none ∧
    (g2.outgoing.len ≠ 0 ∨ (g2.filterExtant g2.bootstraps).len = 0) ∧
    g.hasConnected = false ∧ g2.hasConnected = true ∧ eff.connectedCloses = 1 ∧
    (∀ (g0 : Gossip) (now : Int), g0.outgoing.len = 0 → g0.bootstraps.len = 0 →
      g0.hasConnected = false → g0.Connected.closed = false →
      g0.is.getInfo d.KeySentinel now ≠ none →
      ∃ r, g0.managePost d now = some r ∧ r.2.connectedCloses = 1 ∧
        r.1.hasConnected = true) := by
  obtain ⟨g1, eff1, r2, hp, he, a1, a2, a3, a4, a5, a6, m1, m2, m3, m4, m5, -⟩ :=
    managePass_shape d g ev nowCase nowPost g2 eff h
  have hcount : eff.connectedCloses = r2.2.connectedCloses := by
    rw [he]; simp [PassEffects.append, a1]
  have hlone : ∀ (g0 : Gossip) (now : Int), g0.outgoing.len = 0 → g0.bootstraps.len = 0 →
      g0.hasConnected = false → g0.Connected.closed = false →
      g0.is.getInfo d.KeySentinel now ≠ none →
      ∃ r, g0.managePost d now = some r ∧ r.2.connectedCloses = 1 ∧
        r.1.hasConnected = true := by
    intro g0 now h1 h2 h3 h4 h5
    have hav : (g0.filterExtant g0.bootstraps).len = 0 := by
      have hb : g0.bootstraps.addrs = [] := List.length_eq_zero.mp h2
      simp [Gossip.filterExtant, addrSet.filter, addrSet.len, hb]
    have hs : (g0.is.getInfo d.KeySentinel now).isNone = false := by
      cases hg : g0.is.getInfo d.KeySentinel now with
      | none => exact absurd hg h5
      | some i => rfl
    refine ⟨({ g0 with hasConnected := true,
                       Connected := { g0.Connected with closed := true } },
              { PassEffects.none with connectedCloses := 1 }), ?_, rfl, rfl⟩
    simp [Gossip.managePost, h1, hav, hs, h3, Chan.close, h4]
  rcases managePost_connected d g1 nowPost r2 hp with ⟨q1, -, -⟩ | ⟨q1, q2, q3, -, -, q6, q7⟩
  · exact absurd (hcount.trans q1) hfire
  · have hfe : g2.filterExtant g2.bootstraps = g1.filterExtant g1.bootstraps := by
      simp only [Gossip.filterExtant, m3, m4, m5]
    refine ⟨?_, ?_, a2 ▸ q2, m1.trans q3, hcount.trans q1, hlone⟩
    · rw [m4]; exact q6
    · rw [m3, hfe]; exact q7

/-- C16 at a concrete input: the pass of the single node with the sentinel. -/
theorem connected_fires_only_with_sentinel_witness :
    ({ New serverWithSentinel with
        hasConnected := true,
        Connected := { buf := [], cap := 1, closed := true } } : Gossip).is.getInfo
      sampleDeps.KeySentinel 1 ≠ none :=
  (connected_fires_only_with_sentinel sampleDeps (New serverWithSentinel) (.tick 0) 1 1
    { New serverWithSentinel with
        hasConnected := true, Connected := { buf := [], cap := 1, closed := true } }
    { PassEffects.none with connectedCloses := 1 } (by decide) (by decide)).1

/-- C17: in every run of the coordinator from the state `New` creates, under
any sequence of events, the `Connected` channel is closed at most once:
`hasConnected` is false initially, `Connected` is closed exactly if
`hasConnected` is set, and from any state reached an event closes `Connected`
exactly when it takes `hasConnected` from false to true; once set,
`hasConnected` stays set and `Connected` is not closed again. -/
theorem connected_closed_at_most_once (d : Deps) (s : server) (events : List Event)
    (g : Gossip) (eff : PassEffects)
    (h : (New s).run d events = some (g, eff)) :
    (New s).hasConnected = false ∧ (New s).Connected.closed = false ∧
    eff.connectedCloses ≤ 1 ∧ (eff.connectedCloses = 1 ↔ g.hasConnected = true) ∧
    g.Connected.closed = g.hasConnected ∧
    (∀ (e : Event) (r : Gossip × PassEffects), g.step d e = some r →
      (g.hasConnected = true → r.1.hasConnected = true ∧ r.2.connectedCloses = 0) ∧
      r.2.connectedCloses ≤ 1 ∧
      (r.2.connectedCloses = 1 ↔ (g.hasConnected = false ∧ r.1.hasConnected = true))) := by
  obtain ⟨j1, -, j3, -⟩ := run_connected d events (New s) (g, eff) h rfl
  simp only [New, Bool.false_eq_true, if_false, Nat.add_zero] at j3
  refine ⟨rfl, rfl, ?_, ?_, j1, ?_⟩
  · rw [j3]; split <;> omega
  · rw [j3]
    cases g.hasConnected <;> simp
  · intro e r hs
    obtain ⟨hstep, -⟩ := step_connected d g e r hs
    rcases hstep with ⟨s1, s2, -⟩ | ⟨s1, s2, s3, -⟩
    · refine ⟨fun hx => ⟨s2.trans hx, s1⟩, by omega, ?_⟩
      constructor
      · intro hx; omega
      · rintro ⟨hx, hy⟩
        rw [s2, hx] at hy
        cases hy
    · refine ⟨fun hx => ?_, by omega, fun _ => ⟨s2, s3⟩, fun _ => s1⟩
      rw [s2] at hx; cases hx

/-- C17 at a concrete input: the single node with the sentinel, two ticks; the
first closes `Connected`, the second does not. -/
theorem connected_closed_at_most_once_witness :
    ({ PassEffects.none with connectedCloses := 1 } : PassEffects).connectedCloses ≤ 1 :=
  (connected_closed_at_most_once sampleDeps serverWithSentinel
    [.manage (.tick 0) 1 1, .manage (.tick 0) 2 2]
    { New serverWithSentinel with
        hasConnected := true, Connected := { buf := [], cap := 1, closed := true } }
    { PassEffects.none with connectedCloses := 1 } (by decide)).2.2.1

/-- C18, the code at the failing input: `New` leaves `exited` nil and nothing
allocates it afterwards. In every state the coordinator reaches from `New`,
the channel `Stop` returns is the nil channel, and the manage loop, once
`closed` is set and outgoing is empty, blocks for ever on its send
`g.exited <- nil`: no receiver on the result of `Stop` is ever signalled. -/
theorem exited_never_allocated (d : Deps) (s : server) (events : List Event)
    (g : Gossip) (eff : PassEffects)
    (h : (New s).run d events = some (g, eff)) :
    (New s).exited = none ∧ g.exited = none ∧
    (∀ r, g.Stop = some r → r.2.2 = none) ∧
    (∀ eff0, g.closed = true → g.outgoing.len = 0 →
      g.manageExit eff0 = .blocked g eff0) := by
  obtain ⟨-, -, -, j4⟩ := run_connected d events (New s) (g, eff) h rfl
  have hg : g.exited = none := j4 rfl
  refine ⟨rfl, hg, ?_, ?_⟩
  · intro r hs
    simp only [Gossip.Stop] at hs
    cases hc : Gossip.closeAll
        { g with closed := true, stalled := g.stalled + 1 } g.outgoing.asSlice with
    | none => rw [hc] at hs; cases hs
    | some r1 =>
      rw [hc] at hs
      simp only [Option.some.injEq] at hs
      subst hs
      obtain ⟨-, -, i3, -⟩ := closeAll_frame _ _ _ hc
      exact i3.trans hg
  · intro eff0 h1 h2
    simp [Gossip.manageExit, h1, h2, hg]

/-- C18 at a concrete input: a fresh node is stopped and the manage loop makes
its next pass; `Stop` has returned the nil channel and the pass ends blocked. -/
theorem exited_never_allocated_witness :
    (∀ r, ({ New server0 with closed := true, stalled := 2 } : Gossip).Stop = some r →
      r.2.2 = none) ∧
    ({ New server0 with closed := true, stalled := 1 } : Gossip).managePass sampleDeps
      (.tick 0) 1 1 =
      .blocked { New server0 with closed := true, stalled := 2 }
        { PassEffects.none with logged := [.missingSentinel] } :=
  ⟨(exited_never_allocated sampleDeps server0 [.stop, .manage (.tick 0) 1 1]
      { New server0 with closed := true, stalled := 2 }
      { PassEffects.none with logged := [.missingSentinel] } (by decide)).2.2.1,
    by decide⟩

/-- C19, the code at the failing input: the schedule `overflowEvents` takes a
fresh node, by ten bootstrap passes, one forwarded client and one more bootstrap
pass, to a state with 11 addresses in outgoing and 11 entries in the clients
map, with 12 clients started, none closed and one processed as disconnected:
11 clients are live, one more than `MaxPeers`, the capacity of the
`disconnected` channel. -/
theorem outgoing_exceeds_MaxPeers :
    ((New server0).run sampleDeps overflowEvents).map
        (fun r => (r.1.outgoing.len, r.1.clients.length, r.2.started.length,
          r.2.closed.length, r.1.disconnected.buf.length, r.1.disconnected.cap)) =
      some (11, 11, 12, 0, 0, 10) ∧
    MaxPeers = 10 := by
  refine ⟨by decide, by decide⟩

/-- Touching fields while the mutex is held keeps it held. -/
theorem muAfter_touches (body : List Shared) (rest : List MuOp) :
    muAfter true (body.map .touch ++ rest) = muAfter true rest := by
  induction body with
  | nil => rfl
  | cons f body ih => simpa [muAfter] using ih

/-- C20, the code at the failing inputs: `Stop` touches `g.outgoing`, and
`g.clients` in `closeClient`, without ever locking `g.mu`; the loop of
`bootstrap`, when it finds `closed` set, and the loop of `manage`, when its exit
condition holds, leave by `break` with the mutex still held. The passes that go
round again, and the public operations that lock and defer the unlock, keep the
discipline. -/
theorem stop_touches_without_mutex :
    (∀ n, muAfter false (StopOps n) = none) ∧
    (∀ n, disciplined (StopOps n) = false) ∧
    (∀ body, muAfter false (bootstrapOps true body) = some true) ∧
    (∀ body, disciplined (bootstrapOps true body) = false) ∧
    (∀ body, muAfter false (manageOps body true) = some true) ∧
    (∀ body, disciplined (manageOps body true) = false) ∧
    (∀ body, disciplined (bootstrapOps false body) = true) ∧
    (∀ body, disciplined (manageOps body false) = true) ∧
    (∀ body, disciplined (lockedOps body) = true) := by
  have hb : ∀ body, muAfter false (bootstrapOps true body) = some true := by
    intro body; rfl
  have hm : ∀ body, muAfter false (manageOps body true) = some true := by
    intro body
    simp only [manageOps, muAfter, Bool.false_eq_true, if_false, if_true]
    rw [muAfter_touches]
    rfl
  refine ⟨fun n => rfl, fun n => rfl, hb, ?_, hm, ?_, ?_, ?_, ?_⟩
  · intro body; simp [disciplined, hb]
  · intro body; simp [disciplined, hm]
  · intro body
    simp only [disciplined, bootstrapOps, muAfter, Bool.false_eq_true, if_false, if_true]
    rw [muAfter_touches]
    rfl
  · intro body
    simp only [disciplined, manageOps, muAfter, Bool.false_eq_true, if_false]
    rw [muAfter_touches]
    rfl
  · intro body
    simp only [disciplined, lockedOps, muAfter, Bool.false_eq_true, if_false]
    rw [muAfter_touches]
    rfl

/-! ## Further properties of `gossip.go` and `client.go` -/

/-- C21: `GetGroupInfos` returns an error exactly when `getGroupInfos` of the
infostore yields `nil`; otherwise it returns, without error, a slice of the
same length whose `i`-th element is the `Val` of the `i`-th info of the
infostore's answer. -/
theorem GetGroupInfos_spec (getGroupInfos : infoStore → GoString → Option (List info))
    (g : Gossip) (group : GoString) :
    ((∃ e, g.GetGroupInfos getGroupInfos group = .error e) ↔
      getGroupInfos g.is group = none) ∧
    (getGroupInfos g.is group = none →
      g.GetGroupInfos getGroupInfos group = .error (.doesntExist group)) ∧
    (∀ infos : List info, getGroupInfos g.is group = some infos →
      ∃ values : List Value,
        g.GetGroupInfos getGroupInfos group = .ok values ∧
        values.length = infos.length ∧
        ∀ (i : Nat) (h : i < infos.length), values[i]? = some (infos[i]).Val) := by
  refine ⟨?_, ?_, ?_⟩
  · cases h : getGroupInfos g.is group with
    | none => simp [Gossip.GetGroupInfos, h]
    | some infos => simp [Gossip.GetGroupInfos, h]
  · intro h
    simp [Gossip.GetGroupInfos, h]
  · intro infos h
    refine ⟨infos.map (fun i => i.Val), by simp [Gossip.GetGroupInfos, h], by simp, ?_⟩
    intro i hi
    simp [hi]

/-- The most recent watermark of a history, read from its oldest entry on. -/
theorem mostRecentMaxSeq_cons (init : Int) (d : Option infoStore)
    (history : List (Option infoStore)) :
    mostRecentMaxSeq init (d :: history) =
      mostRecentMaxSeq (match d with | some x => x.MaxSeq | none => init) history := by
  unfold mostRecentMaxSeq
  cases d with
  | none => simp
  | some x =>
    simp only [List.filterMap_cons, id, List.getLast?_cons]
    cases (List.filterMap id history).getLast? <;> rfl

/-- Putting effects in front of a result that is not a fault puts their
requests in front. -/
theorem sent_after (e : Effects) (res : LoopResult) (h : res ≠ .fault) :
    (res.after e).sent = e.sent ++ res.sent := by
  cases res with
  | fault => exact absurd rfl h
  | running g c vars eff => rfl
  | returned g c err eff => rfl

/-- What one iteration of a started client sends, and how it leaves the local
variables when the loop goes round again. -/
theorem gossipStep_effects (combine : infoStore → infoStore → infoStore × Int)
    (gossipInterval : Int) (c : client) (g : Gossip) (vars : loopVars) (r : Round)
    (rc : rpcClient) (hrc : c.rpcClient = some rc) :
    (∀ g1 c1 vars1 eff, c.gossipStep combine gossipInterval g vars r = .next g1 c1 vars1 eff →
      eff.sent = [c.request g vars r rc] ∧
      vars1.localMaxSeq =
        (match g.is.delta c.addr vars.localMaxSeq r.deltaTime with
          | some d => d.MaxSeq
          | none => vars.localMaxSeq) ∧
      vars1.remoteMaxSeq =
        (match r.replyDelta with
          | some d => d.MaxSeq
          | none => vars.remoteMaxSeq)) ∧
    (∀ g1 c1 e eff, c.gossipStep combine gossipInterval g vars r = .exit g1 c1 e eff →
      eff.sent = [] ∨ eff.sent = [c.request g vars r rc]) ∧
    c.gossipStep combine gossipInterval g vars r ≠ .fault := by
  cases hred : c.redundant g with
  | true =>
    refine ⟨?_, ?_, ?_⟩
    · intro g1 c1 vars1 eff h
      simp [client.gossipStep, hred] at h
    · intro g1 c1 e eff h
      simp only [client.gossipStep, hred, if_true] at h
      injection h with h1 h2 h3 h4
      left; rw [← h4]
    · simp [client.gossipStep, hred]
  | false =>
    cases hout : r.outcome with
    | timeout =>
      refine ⟨?_, ?_, ?_⟩
      · intro g1 c1 vars1 eff h
        simp [client.gossipStep, hred, hrc, hout] at h
      · intro g1 c1 e eff h
        simp only [client.gossipStep, hred, hrc, hout, Bool.false_eq_true, if_false] at h
        injection h with h1 h2 h3 h4
        right; rw [← h4]; rfl
      · simp [client.gossipStep, hred, hrc, hout]
    | closer =>
      refine ⟨?_, ?_, ?_⟩
      · intro g1 c1 vars1 eff h
        simp [client.gossipStep, hred, hrc, hout] at h
      · intro g1 c1 e eff h
        simp only [client.gossipStep, hred, hrc, hout, Bool.false_eq_true, if_false] at h
        injection h with h1 h2 h3 h4
        right; rw [← h4]; rfl
      · simp [client.gossipStep, hred, hrc, hout]
    | done error reply =>
      cases error with
      | some msg =>
        refine ⟨?_, ?_, ?_⟩
        · intro g1 c1 vars1 eff h
          simp [client.gossipStep, hred, hrc, hout] at h
        · intro g1 c1 e eff h
          simp only [client.gossipStep, hred, hrc, hout, Bool.false_eq_true, if_false] at h
          injection h with h1 h2 h3 h4
          right; rw [← h4]; rfl
        · simp [client.gossipStep, hred, hrc, hout]
      | none =>
        cases halt : reply.Alternate with
        | some alt =>
          refine ⟨?_, ?_, ?_⟩
          · intro g1 c1 vars1 eff h
            simp [client.gossipStep, hred, hrc, hout, halt] at h
          · intro g1 c1 e eff h
            simp only [client.gossipStep, hred, hrc, hout, halt, Bool.false_eq_true,
              if_false] at h
            injection h with h1 h2 h3 h4
            right; rw [← h4]; rfl
          · simp [client.gossipStep, hred, hrc, hout, halt]
        | none =>
          have hstep := gossipStep_reply combine gossipInterval c g vars r rc reply hred hrc
            hout halt
          have hrd : r.replyDelta = reply.Delta := by
            simp [Round.replyDelta, hout]
          refine ⟨?_, ?_, ?_⟩
          · intro g1 c1 vars1 eff h
            rw [hstep] at h
            split at h
            · cases h
            · injection h with h1 h2 h3 h4
              refine ⟨by rw [← h4], ?_, ?_⟩
              · rw [← h3]
                unfold client.combineReply client.afterDelta
                cases reply.Delta <;>
                  cases g.is.delta c.addr vars.localMaxSeq r.deltaTime <;> rfl
              · rw [← h3, hrd]
                unfold client.combineReply client.afterDelta
                cases reply.Delta <;>
                  cases g.is.delta c.addr vars.localMaxSeq r.deltaTime <;> rfl
          · intro g1 c1 e eff h
            rw [hstep] at h
            split at h
            · injection h with h1 h2 h3 h4
              right; rw [← h4]
            · cases h
          · rw [hstep]
            split <;> simp

/-- The `uint32` expression `k * 2 + 1` does not wrap for `k` below `2 ^ 31`. -/
theorem double_plus_one_no_wrap (k : Nat) (hk : k < 2 ^ 31) :
    (k % 2 ^ 32 * 2 + 1) % 2 ^ 32 = k * 2 + 1 := by
  have h32 : (2 : Nat) ^ 32 = 4294967296 := by norm_num
  have h31 : (2 : Nat) ^ 31 = 2147483648 := by norm_num
  rw [h31] at hk
  rw [h32]
  omega

/-- The `uint32` expression `k * 2 + 1` is odd, whatever `k`. -/
theorem double_plus_one_odd (k : Nat) : (k % 2 ^ 32 * 2 + 1) % 2 ^ 32 % 2 = 1 := by
  have h32 : (2 : Nat) ^ 32 = 4294967296 := by norm_num
  rw [h32]
  omega

/-- The value of `maxToleratedHops` when the node count `n` is found in the
store. -/
theorem maxToleratedHops_stored (ceilLogRatio : Int → Int → Nat) (KeyNodeCount : GoString)
    (g : Gossip) (now : Int) (i : info) (n : Int)
    (hget : g.is.getInfo KeyNodeCount now = some i) (hval : i.Val = .int64 n) :
    g.maxToleratedHops ceilLogRatio KeyNodeCount now =
      some ((ceilLogRatio n 10 % 2 ^ 32 * 2 + 1) % 2 ^ 32) := by
  simp [Gossip.maxToleratedHops, hget, hval, MaxPeers]

/-- C28, as the code has it: with the node count `n` stored under
`KeyNodeCount`, `maxToleratedHops` returns twice the ceiling of
`log(n) / log(MaxPeers)` plus one, which is not the ceiling plus one of the
documented formula as soon as the ceiling is positive. -/
theorem maxToleratedHops_not_documented (ceilLogRatio : Int → Int → Nat)
    (KeyNodeCount : GoString) (g : Gossip) (now : Int) (i : info) (n : Int)
    (hget : g.is.getInfo KeyNodeCount now = some i) (hval : i.Val = .int64 n)
    (hpos : 0 < ceilLogRatio n 10) (hlt : ceilLogRatio n 10 < 2 ^ 31) :
    g.maxToleratedHops ceilLogRatio KeyNodeCount now = some (ceilLogRatio n 10 * 2 + 1) ∧
    g.maxToleratedHops ceilLogRatio KeyNodeCount now ≠ some (ceilLogRatio n 10 + 1) := by
  have h := maxToleratedHops_stored ceilLogRatio KeyNodeCount g now i n hget hval
  rw [double_plus_one_no_wrap _ hlt] at h
  refine ⟨h, ?_⟩
  rw [h]
  intro hcontra
  have := Option.some.inj hcontra
  omega

/-- C28 at a concrete input: with 1000 nodes stored and the exact ceiling of
the logarithm (3), the code returns 7 where the documented formula gives 4. -/
theorem maxToleratedHops_not_documented_witness :
    (nodeWithCount 1000).maxToleratedHops ceilLogExact [110] 9 = some 7 ∧
    (nodeWithCount 1000).maxToleratedHops ceilLogExact [110] 9 ≠ some 4 :=
  maxToleratedHops_not_documented ceilLogExact [110] (nodeWithCount 1000) 9
    { Key := [110], Val := .int64 1000, Timestamp := 0, TTLStamp := 100, Hops := 0,
      NodeAddr := addrA, peerAddr := addrA, seq := 1 }
    1000 (by decide) rfl (by decide) (by decide)

/-- An iteration whose redundancy check does not fire never ends with the
error of that check. -/
theorem gossipStep_not_redundant (combine : infoStore → infoStore → infoStore × Int)
    (gossipInterval : Int) (c : client) (g : Gossip) (vars : loopVars) (r : Round)
    (hred : c.redundant g = false) (g1 : Gossip) (c1 : client) (a : Addr) (eff : Effects) :
    c.gossipStep combine gossipInterval g vars r ≠ .exit g1 c1 (some (.stoppingOutgoing a)) eff := by
  intro h
  cases hrc : c.rpcClient with
  | none => simp [client.gossipStep, hred, hrc] at h
  | some rc =>
    cases hout : r.outcome with
    | timeout => simp [client.gossipStep, hred, hrc, hout] at h
    | closer => simp [client.gossipStep, hred, hrc, hout] at h
    | done error reply =>
      cases error with
      | some msg => simp [client.gossipStep, hred, hrc, hout] at h
      | none =>
        cases halt : reply.Alternate with
        | some alt => simp [client.gossipStep, hred, hrc, hout, halt] at h
        | none =>
          rw [gossipStep_reply combine gossipInterval c g vars r rc reply hred hrc hout halt] at h
          split at h <;> simp at h

/-- C25, as the code has it: when nodes `A` and `B` each have an outgoing
client to the other and an incoming session from the other, and the address of
`A` is the lexicographically smaller one, it is the client of `A`, the node
with the smaller address, that exits on the redundancy check (with the error
"stopping outgoing client ...", before sending anything), and the check of the
client of `B`, the node with the larger address, does not fire: no iteration of
it ends with that error while the sessions stay as they are. -/
theorem smaller_address_client_exits (combine : infoStore → infoStore → infoStore × Int)
    (gossipInterval : Int) (gA gB : Gossip) (cA cB : client) (varsA varsB : loopVars)
    (roundsA : List Round) (rB : Round)
    (hA : cA.addr.String = gB.is.NodeAddr.String)
    (hB : cB.addr.String = gA.is.NodeAddr.String)
    (hinA : gA.hasIncoming cA.addr = true) (hinB : gB.hasIncoming cB.addr = true)
    (hlt : strLt gA.is.NodeAddr.String gB.is.NodeAddr.String = true) :
    cA.redundant gA = true ∧
    cA.gossipLoop combine gossipInterval gA varsA roundsA =
      .returned gA cA (some (.stoppingOutgoing cA.addr)) { sent := [], combined := [] } ∧
    cB.redundant gB = false ∧
    ∀ (g1 : Gossip) (c1 : client) (a : Addr) (eff : Effects),
      cB.gossipStep combine gossipInterval gB varsB rB ≠
        .exit g1 c1 (some (.stoppingOutgoing a)) eff := by
  have h1 : cA.redundant gA = true := by
    unfold client.redundant
    rw [hinA, hA, hlt]
    rfl
  have h2 : cB.redundant gB = false := by
    unfold client.redundant
    rw [hinB, hB, strLt_asymm _ _ hlt]
    rfl
  refine ⟨h1, ?_, h2, ?_⟩
  · cases roundsA with
    | nil => simp [client.gossipLoop, h1]
    | cons r rs => simp [client.gossipLoop, client.gossipStep, h1]
  · intro g1 c1 a eff
    exact gossipStep_not_redundant combine gossipInterval cB gB varsB rB h2 g1 c1 a eff

/-- C25 at a concrete input: node `A` serves `B` and dials `B`, node `B` serves
`A` and dials `A`; the client of `A` exits, the check of the client of `B` does
not fire. -/
theorem smaller_address_client_exits_witness :
    (startedClient addrB 0 none).redundant (nodeAt addrA [addrB]) = true ∧
    (startedClient addrB 0 none).gossipLoop combineNoGroups 2000000000 (nodeAt addrA [addrB])
        { localMaxSeq := 0, remoteMaxSeq := -1 } [] =
      .returned (nodeAt addrA [addrB]) (startedClient addrB 0 none)
        (some (.stoppingOutgoing (startedClient addrB 0 none).addr))
        { sent := [], combined := [] } ∧
    (startedClient addrA 0 none).redundant (nodeAt addrB [addrA]) = false ∧
    ∀ (g1 : Gossip) (c1 : client) (a : Addr) (eff : Effects),
      (startedClient addrA 0 none).gossipStep combineNoGroups 2000000000 (nodeAt addrB [addrA])
          { localMaxSeq := 0, remoteMaxSeq := -1 }
          (replyRound { Alternate := none, Delta := none } 1) ≠
        .exit g1 c1 (some (.stoppingOutgoing a)) eff :=
  smaller_address_client_exits combineNoGroups 2000000000 (nodeAt addrA [addrB])
    (nodeAt addrB [addrA]) (startedClient addrB 0 none) (startedClient addrA 0 none)
    { localMaxSeq := 0, remoteMaxSeq := -1 } { localMaxSeq := 0, remoteMaxSeq := -1 } []
    (replyRound { Alternate := none, Delta := none } 1)
    (by decide) (by decide) (by decide) (by decide) (by decide)

/-- C25 as stated fails: `A` and `B` serve each other and dial each other,
and `"A" < "B"`. The redundancy check of the client of `A`, the node with the
smaller address, fires and that client returns; the check of the client of
`B`, the node with the larger address, does not fire, and its next iteration
sends a request and goes round again. -/
theorem smaller_address_does_not_retain :
    strLt addrA.String addrB.String = true ∧
    (startedClient addrB 0 none).redundant (nodeAt addrA [addrB]) = true ∧
    client.gossip combineNoGroups 2000000000 (startedClient addrB 0 none)
        (nodeAt addrA [addrB]) [replyRound { Alternate := none, Delta := none } 1] =
      .returned (nodeAt addrA [addrB]) (startedClient addrB 0 none)
        (some (.stoppingOutgoing addrB)) { sent := [], combined := [] } ∧
    (startedClient addrA 0 none).redundant (nodeAt addrB [addrA]) = false ∧
    client.gossip combineNoGroups 2000000000 (startedClient addrA 0 none)
        (nodeAt addrB [addrA]) [replyRound { Alternate := none, Delta := none } 1] =
      .running (nodeAt addrB [addrA]) (startedClient addrA 0 none)
        { localMaxSeq := 0, remoteMaxSeq := -1 }
        { sent := [{ Addr := addrB, LAddr := none, MaxSeq := -1, Delta := none }],
          combined := [] } := by
  refine ⟨by decide, by decide, by decide, by decide, by decide⟩

/-- The requests a started client sends are those of its exchanges, in
order. -/
theorem gossipLoop_sent (combine : infoStore → infoStore → infoStore × Int)
    (gossipInterval : Int) (rc : rpcClient) (addr : Addr) :
    ∀ (rounds : List Round) (c : client) (g : Gossip) (vars : loopVars),
      c.rpcClient = some rc → c.addr = addr →
      (c.gossipLoop combine gossipInterval g vars rounds).sent =
        (c.exchanges combine gossipInterval g vars rounds).map
          (fun x =>
            { Addr := x.g.is.NodeAddr, LAddr := rc.LAddr, MaxSeq := x.vars.remoteMaxSeq,
              Delta := x.delta addr }) := by
  intro rounds
  induction rounds with
  | nil =>
    intro c g vars hrc haddr
    simp only [client.gossipLoop, client.exchanges, List.map_nil]
    split
    · rfl
    · split <;> rfl
  | cons r rs ih =>
    intro c g vars hrc haddr
    obtain ⟨hnext, hexit, hfault⟩ := gossipStep_effects combine gossipInterval c g vars r rc hrc
    simp only [client.gossipLoop, client.exchanges]
    cases hs : c.gossipStep combine gossipInterval g vars r with
    | fault => exact absurd hs hfault
    | exit g1 c1 e eff =>
      simp only
      rcases hexit g1 c1 e eff hs with h | h
      · simp [LoopResult.sent, h]
      · simp [LoopResult.sent, h, client.request, Exchange.delta, haddr]
    | next g1 c1 vars1 eff =>
      simp only
      have hrc1 : c1.rpcClient = some rc := by
        rw [(gossipStep_keeps (fun x => x.rpcClient) (fun _ _ _ => ⟨rfl, rfl⟩) combine
          gossipInterval c g vars r).1 g1 c1 vars1 eff hs, hrc]
      have haddr1 : c1.addr = addr := by
        rw [(gossipStep_keeps (fun x => x.addr) (fun _ _ _ => ⟨rfl, rfl⟩) combine
          gossipInterval c g vars r).1 g1 c1 vars1 eff hs, haddr]
      have hnf : c1.gossipLoop combine gossipInterval g1 vars1 rs ≠ .fault :=
        gossipLoop_no_fault combine gossipInterval rs c1 g1 vars1 (by rw [hrc1]; rfl)
      rw [sent_after _ _ hnf, ih c1 g1 vars1 hrc1 haddr1, (hnext g1 c1 vars1 eff hs).1]
      simp [client.request, Exchange.delta, haddr]

/-- The local variables at the head of each exchange are the most recent
watermarks of the exchanges before it. -/
theorem exchanges_vars (combine : infoStore → infoStore → infoStore × Int)
    (gossipInterval : Int) (rc : rpcClient) (addr : Addr) :
    ∀ (rounds : List Round) (c : client) (g : Gossip) (vars : loopVars),
      c.rpcClient = some rc → c.addr = addr →
      ∀ (k : Nat) (x : Exchange),
        (c.exchanges combine gossipInterval g vars rounds)[k]? = some x →
        x.vars.remoteMaxSeq =
          mostRecentMaxSeq vars.remoteMaxSeq
            (((c.exchanges combine gossipInterval g vars rounds).take k).map
              (fun y => y.round.replyDelta)) ∧
        x.vars.localMaxSeq =
          mostRecentMaxSeq vars.localMaxSeq
            (((c.exchanges combine gossipInterval g vars rounds).take k).map
              (fun y => y.delta addr)) := by
  intro rounds
  induction rounds with
  | nil =>
    intro c g vars hrc haddr k x hx
    simp [client.exchanges] at hx
  | cons r rs ih =>
    intro c g vars hrc haddr k x hx
    obtain ⟨hnext, -, hfault⟩ := gossipStep_effects combine gossipInterval c g vars r rc hrc
    simp only [client.exchanges] at hx ⊢
    cases hs : c.gossipStep combine gossipInterval g vars r with
    | fault => exact absurd hs hfault
    | exit g1 c1 e eff =>
      rw [hs] at hx
      simp only at hx ⊢
      cases hemp : eff.sent.isEmpty with
      | true => simp [hemp] at hx
      | false =>
        simp only [hemp, Bool.false_eq_true, if_false] at hx ⊢
        cases k with
        | zero =>
          simp only [List.getElem?_cons_zero, Option.some.injEq] at hx
          subst hx
          simp [mostRecentMaxSeq]
        | succ k => simp at hx
    | next g1 c1 vars1 eff =>
      rw [hs] at hx
      simp only at hx ⊢
      cases k with
      | zero =>
        simp only [List.getElem?_cons_zero, Option.some.injEq] at hx
        subst hx
        simp [mostRecentMaxSeq]
      | succ k =>
        simp only [List.getElem?_cons_succ] at hx
        have hrc1 : c1.rpcClient = some rc := by
          rw [(gossipStep_keeps (fun x => x.rpcClient) (fun _ _ _ => ⟨rfl, rfl⟩) combine
            gossipInterval c g vars r).1 g1 c1 vars1 eff hs, hrc]
        have haddr1 : c1.addr = addr := by
          rw [(gossipStep_keeps (fun x => x.addr) (fun _ _ _ => ⟨rfl, rfl⟩) combine
            gossipInterval c g vars r).1 g1 c1 vars1 eff hs, haddr]
        obtain ⟨h1, h2⟩ := ih c1 g1 vars1 hrc1 haddr1 k x hx
        obtain ⟨-, hl, hr⟩ := hnext g1 c1 vars1 eff hs
        simp only [List.take_succ_cons, List.map_cons, mostRecentMaxSeq_cons]
        refine ⟨?_, ?_⟩
        · rw [h1, hr]
        · rw [h2, hl]
          simp only [Exchange.delta, haddr]

/-- C26: in a session of a started client, the requests sent are those of the
iterations that get as far as sending, in order. The first carries
`MaxSeq = -1` and the delta computed with watermark 0; the request of every
later iteration carries as `MaxSeq` the `MaxSeq` of the most recent earlier
reply that carried a delta (still -1 if none did), and its delta is computed
with the `MaxSeq` of the most recent non-nil delta sent earlier as watermark
(still 0 if there is none). -/
theorem requests_carry_latest_watermarks (combine : infoStore → infoStore → infoStore × Int)
    (gossipInterval : Int) (c : client) (g : Gossip) (rounds : List Round) (rc : rpcClient)
    (hrc : c.rpcClient = some rc) :
    (c.gossip combine gossipInterval g rounds).sent.length =
      (c.exchanges combine gossipInterval g { localMaxSeq := 0, remoteMaxSeq := -1 }
        rounds).length ∧
    (∀ x : Exchange,
      (c.exchanges combine gossipInterval g { localMaxSeq := 0, remoteMaxSeq := -1 }
        rounds)[0]? = some x →
      x.g = g ∧
      (c.gossip combine gossipInterval g rounds).sent[0]? =
        some { Addr := g.is.NodeAddr, LAddr := rc.LAddr, MaxSeq := -1,
               Delta := g.is.delta c.addr 0 x.round.deltaTime }) ∧
    (∀ (k : Nat) (x : Exchange),
      (c.exchanges combine gossipInterval g { localMaxSeq := 0, remoteMaxSeq := -1 }
        rounds)[k]? = some x →
      (c.gossip combine gossipInterval g rounds).sent[k]? =
        some { Addr := x.g.is.NodeAddr, LAddr := rc.LAddr,
               MaxSeq :=
                 mostRecentMaxSeq (-1)
                   (((c.exchanges combine gossipInterval g
                       { localMaxSeq := 0, remoteMaxSeq := -1 } rounds).take k).map
                     (fun y => y.round.replyDelta)),
               Delta :=
                 x.g.is.delta c.addr
                   (mostRecentMaxSeq 0
                     (((c.gossip combine gossipInterval g rounds).sent.take k).map
                       (fun q => q.Delta)))
                   x.round.deltaTime }) := by
  have hsent := gossipLoop_sent combine gossipInterval rc c.addr rounds c g
    { localMaxSeq := 0, remoteMaxSeq := -1 } hrc rfl
  have hvars := exchanges_vars combine gossipInterval rc c.addr rounds c g
    { localMaxSeq := 0, remoteMaxSeq := -1 } hrc rfl
  have hk : ∀ (k : Nat) (x : Exchange),
      (c.exchanges combine gossipInterval g { localMaxSeq := 0, remoteMaxSeq := -1 }
        rounds)[k]? = some x →
      (c.gossip combine gossipInterval g rounds).sent[k]? =
        some { Addr := x.g.is.NodeAddr, LAddr := rc.LAddr,
               MaxSeq :=
                 mostRecentMaxSeq (-1)
                   (((c.exchanges combine gossipInterval g
                       { localMaxSeq := 0, remoteMaxSeq := -1 } rounds).take k).map
                     (fun y => y.round.replyDelta)),
               Delta :=
                 x.g.is.delta c.addr
                   (mostRecentMaxSeq 0
                     (((c.gossip combine gossipInterval g rounds).sent.take k).map
                       (fun q => q.Delta)))
                   x.round.deltaTime } := by
    intro k x hx
    obtain ⟨h1, h2⟩ := hvars k x hx
    simp only [client.gossip] at hsent ⊢
    rw [hsent]
    simp only [List.getElem?_map, hx, Option.map_some', ← List.map_take, List.map_map]
    simp only at h1 h2
    rw [h1]
    have hfun : ((fun q : GossipRequest => q.Delta) ∘ fun x : Exchange =>
        ({ Addr := x.g.is.NodeAddr, LAddr := rc.LAddr, MaxSeq := x.vars.remoteMaxSeq,
           Delta := x.delta c.addr } : GossipRequest)) = fun y => y.delta c.addr := rfl
    rw [hfun, ← h2]
    rfl
  refine ⟨?_, ?_, hk⟩
  · simp only [client.gossip] at hsent ⊢
    rw [hsent, List.length_map]
  · intro x hx
    have hg : x.g = g := by
      cases rounds with
      | nil => simp [client.exchanges] at hx
      | cons r rs =>
        simp only [client.exchanges] at hx
        split at hx
        · simp only [List.getElem?_cons_zero, Option.some.injEq] at hx
          rw [← hx]
        · split at hx
          · simp at hx
          · simp only [List.getElem?_cons_zero, Option.some.injEq] at hx
            rw [← hx]
        · simp at hx
    refine ⟨hg, ?_⟩
    rw [hk 0 x hx, hg]
    simp [mostRecentMaxSeq]

/-- C26 at a concrete input: the client of `A` to `B` meets `fourRounds`; `A`
holds one info, from `D`. -/
theorem requests_carry_latest_watermarks_witness :
    (client.gossip combineNoGroups 2000000000 (startedClient addrB 0 none)
        (distantNode addrA addrD) fourRounds).sent.length =
      (client.exchanges combineNoGroups 2000000000 (startedClient addrB 0 none)
        (distantNode addrA addrD) { localMaxSeq := 0, remoteMaxSeq := -1 } fourRounds).length ∧
    (∀ x : Exchange,
      (client.exchanges combineNoGroups 2000000000 (startedClient addrB 0 none)
        (distantNode addrA addrD) { localMaxSeq := 0, remoteMaxSeq := -1 } fourRounds)[0]? =
          some x →
      x.g = distantNode addrA addrD ∧
      (client.gossip combineNoGroups 2000000000 (startedClient addrB 0 none)
          (distantNode addrA addrD) fourRounds).sent[0]? =
        some { Addr := (distantNode addrA addrD).is.NodeAddr,
               LAddr := ({ LAddr := none } : rpcClient).LAddr, MaxSeq := -1,
               Delta := (distantNode addrA addrD).is.delta (startedClient addrB 0 none).addr 0
                 x.round.deltaTime }) ∧
    (∀ (k : Nat) (x : Exchange),
      (client.exchanges combineNoGroups 2000000000 (startedClient addrB 0 none)
        (distantNode addrA addrD) { localMaxSeq := 0, remoteMaxSeq := -1 } fourRounds)[k]? =
          some x →
      (client.gossip combineNoGroups 2000000000 (startedClient addrB 0 none)
          (distantNode addrA addrD) fourRounds).sent[k]? =
        some { Addr := x.g.is.NodeAddr, LAddr := ({ LAddr := none } : rpcClient).LAddr,
               MaxSeq :=
                 mostRecentMaxSeq (-1)
                   (((client.exchanges combineNoGroups 2000000000 (startedClient addrB 0 none)
                       (distantNode addrA addrD) { localMaxSeq := 0, remoteMaxSeq := -1 }
                       fourRounds).take k).map
                     (fun y => y.round.replyDelta)),
               Delta :=
                 x.g.is.delta (startedClient addrB 0 none).addr
                   (mostRecentMaxSeq 0
                     (((client.gossip combineNoGroups 2000000000 (startedClient addrB 0 none)
                         (distantNode addrA addrD) fourRounds).sent.take k).map
                       (fun q => q.Delta)))
                   x.round.deltaTime }) :=
  requests_carry_latest_watermarks combineNoGroups 2000000000 (startedClient addrB 0 none)
    (distantNode addrA addrD) fourRounds { LAddr := none } rfl

/-- The session of `fourRounds`, evaluated: the four requests carry the
`MaxSeq` values -1, 4, 4 and 9, and only the first carries a delta (with
watermark 1); the iterations start with the local watermarks 0, 1, 1, 1. -/
theorem fourRounds_requests :
    (client.gossip combineNoGroups 2000000000 (startedClient addrB 0 none)
        (distantNode addrA addrD) fourRounds).sent.map
      (fun q => (q.MaxSeq, q.Delta.map (fun d => d.MaxSeq))) =
      [(-1, some 1), (4, none), (4, none), (9, none)] ∧
    (client.exchanges combineNoGroups 2000000000 (startedClient addrB 0 none)
        (distantNode addrA addrD) { localMaxSeq := 0, remoteMaxSeq := -1 } fourRounds).map
      (fun x => x.vars) =
      [{ localMaxSeq := 0, remoteMaxSeq := -1 }, { localMaxSeq := 1, remoteMaxSeq := 4 },
       { localMaxSeq := 1, remoteMaxSeq := 4 }, { localMaxSeq := 1, remoteMaxSeq := 9 }] := by
  refine ⟨by decide, by decide⟩

/-- A call of `closeClient` that returns leaves the address in outgoing and
the clients map without an entry for it: a second call for the same address
panics. -/
theorem closeClient_twice_faults (g : Gossip) (addr : Addr) (r : Gossip × client)
    (h : g.closeClient addr = some r) :
    r.1.outgoing = g.outgoing ∧
    r.1.clients.lookup addr.String = none ∧
    r.1.closeClient addr = none := by
  unfold Gossip.closeClient at h
  cases hl : g.clients.lookup addr.String with
  | none => rw [hl] at h; cases h
  | some c =>
    rw [hl] at h
    simp only at h
    cases hc : c.closer with
    | true => simp [hc] at h
    | false =>
      simp only [hc, Bool.false_eq_true, if_false, Option.some.injEq] at h
      subst h
      have hd : (clientsDelete g.clients addr.String).lookup addr.String = none :=
        lookup_clientsDelete_self g.clients addr.String
      refine ⟨rfl, hd, ?_⟩
      simp only [Gossip.closeClient, hd]

/-- C29, the code at a failing input: the schedule `closeEvents` takes a fresh
node to ten outgoing clients and has a tick of `manage` close the client of the
least useful address `P0`. In the state reached, `P0` is still in outgoing and
the clients map holds no client for it: `closeClient(P0)` dereferences nil,
and so do the next tick of `manage`, which picks `P0` again, and `Stop`. -/
theorem closeClient_finds_no_client :
    ((New server0).run sampleDeps closeEvents).map
        (fun r => (r.1.outgoing.len, r.1.clients.length, r.1.outgoing.hasAddr (peer 0))) =
      some (10, 9, true) ∧
    ((New server0).run sampleDeps closeEvents).map
        (fun r => r.1.clients.lookup (peer 0).String) = some none ∧
    ((New server0).run sampleDeps closeEvents).map (fun r => r.2.closed) =
      some [{ newClient (peer 0) with closer := true }] ∧
    ((New server0).run sampleDeps closeEvents).map (fun r => r.1.closeClient (peer 0)) =
      some none ∧
    ((New server0).run sampleDeps closeEvents).map (fun r => r.1.Stop.isNone) = some true ∧
    (New server0).run sampleDeps (closeEvents ++ [.manage (.tick 0) 21 21]) = none ∧
    (New server0).run sampleDeps (closeEvents ++ [.stop]) = none := by
  refine ⟨by decide, by decide, by decide, by decide, by decide, by decide, by decide⟩

/-- The search of `ceilLogExact` over the exponents `s`, `s + 1`, ... returns
an exponent from `s` on, or the default 64. -/
theorem ceilLog_search_ge (x p : Int) : ∀ (len s : Nat), s + len ≤ 64 →
    s ≤ (List.range' s len).foldr (fun k r => if x ≤ p ^ k then k else r) 64 := by
  intro len
  induction len with
  | zero => intro s h; simpa using h
  | succ len ih =>
    intro s h
    simp only [List.range'_succ, List.foldr_cons]
    split
    · exact le_refl s
    · exact le_trans (Nat.le_succ s) (ih (s + 1) (by omega))

/-- The search of `ceilLogExact` returns at most 64. -/
theorem ceilLog_search_le (x p : Int) : ∀ (len s : Nat), s + len ≤ 64 →
    (List.range' s len).foldr (fun k r => if x ≤ p ^ k then k else r) 64 ≤ 64 := by
  intro len
  induction len with
  | zero => intro s h; simp
  | succ len ih =>
    intro s h
    simp only [List.range'_succ, List.foldr_cons]
    split
    · omega
    · exact ih (s + 1) (by omega)

/-- The search of `ceilLogExact` is monotone in the number searched for. -/
theorem ceilLog_search_mono (n m p : Int) (hnm : n ≤ m) : ∀ (len s : Nat), s + len ≤ 64 →
    (List.range' s len).foldr (fun k r => if n ≤ p ^ k then k else r) 64 ≤
      (List.range' s len).foldr (fun k r => if m ≤ p ^ k then k else r) 64 := by
  intro len
  induction len with
  | zero => intro s h; simp
  | succ len ih =>
    intro s h
    simp only [List.range'_succ, List.foldr_cons]
    by_cases hm : m ≤ p ^ s
    · rw [if_pos hm, if_pos (le_trans hnm hm)]
    · rw [if_neg hm]
      by_cases hn : n ≤ p ^ s
      · rw [if_pos hn]
        exact le_trans (Nat.le_succ s) (ceilLog_search_ge m p len (s + 1) (by omega))
      · rw [if_neg hn]
        exact ih (s + 1) (by omega)

/-- The exact ceiling of the logarithm is monotone in `n`, at most 64, and 0 at
`n = 1`. -/
theorem ceilLogExact_facts (p : Int) :
    (∀ n m : Int, n ≤ m → ceilLogExact n p ≤ ceilLogExact m p) ∧
    (∀ n : Int, ceilLogExact n p < 2 ^ 31) ∧
    ceilLogExact 1 p = 0 := by
  refine ⟨?_, ?_, ?_⟩
  · intro n m hnm
    simp only [ceilLogExact, List.range_eq_range']
    exact ceilLog_search_mono n m p hnm 64 0 (by omega)
  · intro n
    have h := ceilLog_search_le n p 64 0 (by omega)
    simp only [ceilLogExact, List.range_eq_range']
    have h31 : (2 : Nat) ^ 31 = 2147483648 := by norm_num
    rw [h31]
    omega
  · simp only [ceilLogExact, List.range_eq_range']
    have : (List.range' 0 64) = 0 :: List.range' 1 63 := by decide
    rw [this]
    simp

/-- With exact arithmetic for the logarithm, the value of `maxToleratedHops`
is monotone in the stored node count, without further assumption. -/
theorem maxToleratedHops_exact_monotone (KeyNodeCount : GoString) (g gm : Gossip)
    (now nowm : Int) (i im : info) (n m : Int)
    (hget : g.is.getInfo KeyNodeCount now = some i) (hval : i.Val = .int64 n)
    (hgetm : gm.is.getInfo KeyNodeCount nowm = some im) (hvalm : im.Val = .int64 m)
    (hnm : n ≤ m) :
    g.maxToleratedHops ceilLogExact KeyNodeCount now = some (ceilLogExact n 10 * 2 + 1) ∧
    gm.maxToleratedHops ceilLogExact KeyNodeCount nowm = some (ceilLogExact m 10 * 2 + 1) ∧
    ceilLogExact n 10 * 2 + 1 ≤ ceilLogExact m 10 * 2 + 1 := by
  obtain ⟨hmono, hbound, -⟩ := ceilLogExact_facts 10
  refine ⟨?_, ?_, ?_⟩
  · rw [maxToleratedHops_stored ceilLogExact KeyNodeCount g now i n hget hval,
      double_plus_one_no_wrap _ (hbound n)]
  · rw [maxToleratedHops_stored ceilLogExact KeyNodeCount gm nowm im m hgetm hvalm,
      double_plus_one_no_wrap _ (hbound m)]
  · have := hmono n m hnm
    omega

/-! ## Properties of `maxToleratedHops` in `float64` -/

set_option maxRecDepth 100000

/-- The conversion to `uint32` gives a value of 32 bits. -/
theorem toUint32_lt (x : Float64) : x.toUint32 < 2 ^ 32 := by
  have helper : ∀ t : Int,
      (if -2 ^ 63 ≤ t ∧ t < 2 ^ 63 then (t % 2 ^ 32).toNat else 0) < 2 ^ 32 := by
    intro t
    by_cases h : -2 ^ 63 ≤ t ∧ t < 2 ^ 63
    · rw [if_pos h]
      have h1 := Int.emod_lt_of_pos t (show (0 : Int) < 2 ^ 32 by norm_num)
      have h0 := Int.emod_nonneg t (show (2 : Int) ^ 32 ≠ 0 by norm_num)
      have h32 : (2 : Nat) ^ 32 = 4294967296 := by norm_num
      have h32i : (2 : Int) ^ 32 = 4294967296 := by norm_num
      rw [h32]
      rw [h32i] at h1 h0 ⊢
      omega
    · rw [if_neg h]
      norm_num
  cases x with
  | nan => simp [Float64.toUint32]
  | inf s => simp [Float64.toUint32]
  | finite m e => exact helper _

/-- The ceiling of the quotient of two real logarithms, between two powers of
the base 10. -/
theorem ceil_log_real (x : ℝ) (k : ℕ) (hlo : (10 : ℝ) ^ k < x) (hhi : x ≤ (10 : ℝ) ^ (k + 1)) :
    Nat.ceil (Real.log x / Real.log 10) = k + 1 := by
  have hx : 0 < x := lt_trans (by positivity) hlo
  have h10 : (1 : ℝ) < 10 := by norm_num
  rw [Real.log_div_log]
  rw [Nat.ceil_eq_iff (Nat.succ_ne_zero k)]
  constructor
  · have hk : ((k + 1 - 1 : ℕ) : ℝ) = (k : ℝ) := by simp
    rw [hk, Real.lt_logb_iff_rpow_lt h10 hx, Real.rpow_natCast]
    exact hlo
  · rw [Real.logb_le_iff_le_rpow h10 hx]
    rw [Real.rpow_natCast]
    exact hhi

/-- The natural logarithm of 10 in `float64`: `2.302585092994046`. -/
theorem Log_ten : (Float64.ofInt64 10).Log = .finite 5184960683398422 (-51) := by decide

/-- The natural logarithm of 1000 in `float64`: `6.907755278982137`. -/
theorem Log_thousand : (Float64.ofInt64 1000).Log = .finite 7777441025097632 (-50) := by
  decide

/-- The natural logarithm of `10 ^ 15 + 1` in `float64`: `34.538776394910684`,
which is also that of `10 ^ 15`. -/
theorem Log_large :
    (Float64.ofInt64 (10 ^ 15 + 1)).Log = .finite 4860900640686020 (-47) := by decide

/-- The `float64` expression of `maxToleratedHops` at the default node count:
the quotient is `2.9999999999999996`, its ceiling 3. -/
theorem ceilLogFloat_default :
    (Float64.ofInt64 1000).Log.div (Float64.ofInt64 10).Log = .finite 6755399441055743 (-51) ∧
    ceilLogFloat 1000 10 = 3 := by
  simp only [ceilLogFloat, Log_ten, Log_thousand]
  refine ⟨by decide, by decide⟩

/-- The `float64` expression of `maxToleratedHops` at `10 ^ 15 + 1` nodes: the
quotient is `14.999999999999998`, its ceiling 15. -/
theorem ceilLogFloat_large :
    (Float64.ofInt64 (10 ^ 15 + 1)).Log.div (Float64.ofInt64 10).Log =
      .finite 8444249301319679 (-49) ∧
    ceilLogFloat (10 ^ 15 + 1) 10 = 15 := by
  simp only [ceilLogFloat, Log_ten, Log_large]
  refine ⟨by decide, by decide⟩

/-- The `float64` expression of `maxToleratedHops` at one node: `math.Log(1)`
is 0, and so is the ceiling of the quotient. -/
theorem ceilLogFloat_one :
    (Float64.ofInt64 1).Log = .finite 0 0 ∧ ceilLogFloat 1 10 = 0 := by
  have h1 : (Float64.ofInt64 1).Log = .finite 0 0 := by decide
  simp only [ceilLogFloat, Log_ten, h1]
  refine ⟨by trivial, by decide⟩

/-- C4, as the code has it: `maxToleratedHops` returns `uint32(c) * 2 + 1`,
where `c` is the ceiling of the quotient of `math.Log(float64(nodeCount))` by
`math.Log(float64(MaxPeers))` as `float64` arithmetic gives it, with
`MaxPeers = 10`, and `nodeCount` is the `int64` stored under `KeyNodeCount`
when `getInfo` finds it and 1000 otherwise (`getInfo` finds nothing exactly
when the info is absent or expired). It returns 7 whenever the info is absent
or expired: the `float64` quotient at 1000 is `2.9999999999999996`, and its
ceiling 3 is the ceiling of the quotient of the real logarithms. -/
theorem maxToleratedHops_float64 (KeyNodeCount : GoString) (g : Gossip) (now : Int) :
    (∀ (i : info) (n : Int), g.is.getInfo KeyNodeCount now = some i → i.Val = .int64 n →
      g.maxToleratedHops ceilLogFloat KeyNodeCount now =
        some ((((Float64.ofInt64 n).Log.div (Float64.ofInt64 10).Log).Ceil.toUint32 * 2 + 1)
          % 2 ^ 32)) ∧
    ((g.is.Infos.lookup KeyNodeCount = none ∨
        ∃ i, g.is.Infos.lookup KeyNodeCount = some i ∧ i.expired now = true) →
      g.maxToleratedHops ceilLogFloat KeyNodeCount now =
          some ((((Float64.ofInt64 1000).Log.div (Float64.ofInt64 10).Log).Ceil.toUint32 * 2
            + 1) % 2 ^ 32) ∧
      g.maxToleratedHops ceilLogFloat KeyNodeCount now = some 7) ∧
    (Float64.ofInt64 1000).Log.div (Float64.ofInt64 10).Log =
      .finite 6755399441055743 (-51) ∧
    ((Float64.ofInt64 1000).Log.div (Float64.ofInt64 10).Log).Ceil.toUint32 = 3 ∧
    Nat.ceil (Real.log 1000 / Real.log 10) = 3 := by
  have hmod : ∀ x : Float64, x.toUint32 % 2 ^ 32 = x.toUint32 := fun x =>
    Nat.mod_eq_of_lt (toUint32_lt x)
  have hstored : ∀ (i : info) (n : Int), g.is.getInfo KeyNodeCount now = some i →
      i.Val = .int64 n →
      g.maxToleratedHops ceilLogFloat KeyNodeCount now =
        some ((((Float64.ofInt64 n).Log.div (Float64.ofInt64 10).Log).Ceil.toUint32 * 2 + 1)
          % 2 ^ 32) := by
    intro i n hget hval
    have h := ((maxToleratedHops_formula ceilLogFloat KeyNodeCount g now).1 i n hget hval).1
    rw [h]
    simp only [ceilLogFloat, hmod]
  have habsent : (g.is.Infos.lookup KeyNodeCount = none ∨
        ∃ i, g.is.Infos.lookup KeyNodeCount = some i ∧ i.expired now = true) →
      g.maxToleratedHops ceilLogFloat KeyNodeCount now = some 7 := fun h =>
    (maxToleratedHops_formula ceilLogFloat KeyNodeCount g now).2.2 ceilLogFloat_default.2 h
  refine ⟨hstored, ?_, ceilLogFloat_default.1, ceilLogFloat_default.2,
    ceil_log_real 1000 2 (by norm_num) (by norm_num)⟩
  intro h
  refine ⟨?_, habsent h⟩
  rw [habsent h]
  have h3 : ((Float64.ofInt64 1000).Log.div (Float64.ofInt64 10).Log).Ceil.toUint32 = 3 :=
    ceilLogFloat_default.2
  rw [h3]
  rfl

/-- C4 at concrete inputs: a node whose store is empty, and a node whose node
count expired at time 5, read at time 9, both get 7 hops; a node with 1000
nodes stored gets 7 as well. -/
theorem maxToleratedHops_float64_witness :
    (nodeAt addrA []).maxToleratedHops ceilLogFloat [110] 9 = some 7 ∧
    ({ nodeAt addrA [] with
        is := { Infos := [([110], infoFrom addrA 0 5)], NodeAddr := addrA, MaxSeq := 1 } } :
      Gossip).maxToleratedHops ceilLogFloat [110] 9 = some 7 ∧
    (nodeWithCount 1000).maxToleratedHops ceilLogFloat [110] 9 =
      some ((((Float64.ofInt64 1000).Log.div (Float64.ofInt64 10).Log).Ceil.toUint32 * 2 + 1)
        % 2 ^ 32) :=
  ⟨((maxToleratedHops_float64 [110] (nodeAt addrA []) 9).2.1 (Or.inl (by decide))).2,
   ((maxToleratedHops_float64 [110]
      { nodeAt addrA [] with
          is := { Infos := [([110], infoFrom addrA 0 5)], NodeAddr := addrA, MaxSeq := 1 } }
      9).2.1 (Or.inr ⟨infoFrom addrA 0 5, by decide, by decide⟩)).2,
   (maxToleratedHops_float64 [110] (nodeWithCount 1000) 9).1
      { Key := [110], Val := .int64 1000, Timestamp := 0, TTLStamp := 100, Hops := 0,
        NodeAddr := addrA, peerAddr := addrA, seq := 1 }
      1000 (by decide) rfl⟩

/-- C4 as stated fails: with `10 ^ 15 + 1` nodes stored, the logarithm in
`float64` is that of `10 ^ 15`, the quotient by `math.Log(10)` is
`14.999999999999998` and its ceiling 15, so that `maxToleratedHops` returns 31;
the ceiling of the quotient of the real logarithms is 16, `10 ^ 15 + 1` lying
above `10 ^ 15`, and the formula gives 33. -/
theorem maxToleratedHops_float_below_exact :
    largeNode.is.getInfo [110] 9 =
      some { Key := [110], Val := .int64 (10 ^ 15 + 1), Timestamp := 0, TTLStamp := 100,
             Hops := 0, NodeAddr := addrA, peerAddr := addrA, seq := 1 } ∧
    (Float64.ofInt64 (10 ^ 15 + 1)).Log = (Float64.ofInt64 (10 ^ 15)).Log ∧
    (Float64.ofInt64 (10 ^ 15 + 1)).Log.div (Float64.ofInt64 10).Log =
      .finite 8444249301319679 (-49) ∧
    largeNode.maxToleratedHops ceilLogFloat [110] 9 = some 31 ∧
    Nat.ceil (Real.log (10 ^ 15 + 1) / Real.log 10) = 16 ∧
    Nat.ceil (Real.log (10 ^ 15 + 1) / Real.log 10) * 2 + 1 = 33 := by
  have hget : largeNode.is.getInfo [110] 9 =
      some { Key := [110], Val := .int64 (10 ^ 15 + 1), Timestamp := 0, TTLStamp := 100,
             Hops := 0, NodeAddr := addrA, peerAddr := addrA, seq := 1 } := by decide
  have hlog : (Float64.ofInt64 (10 ^ 15)).Log = .finite 4860900640686020 (-47) := by decide
  have hceil : Nat.ceil (Real.log (10 ^ 15 + 1) / Real.log 10) = 16 :=
    ceil_log_real (10 ^ 15 + 1) 15 (by norm_num) (by norm_num)
  refine ⟨hget, by rw [Log_large, hlog], ceilLogFloat_large.1, ?_, hceil, by rw [hceil]⟩
  have h := ((maxToleratedHops_formula ceilLogFloat [110] largeNode 9).1 _ (10 ^ 15 + 1) hget
    rfl).1
  rw [h, ceilLogFloat_large.2]
  decide

/-- With the node count `n` stored under `KeyNodeCount`, `maxToleratedHops`
returns an odd number, at least 1, whatever the `float64` expression
evaluates to. -/
theorem maxToleratedHops_odd (ceilLogRatio : Int → Int → Nat)
    (KeyNodeCount : GoString) (g : Gossip) (now : Int) (i : info) (n : Int)
    (hget : g.is.getInfo KeyNodeCount now = some i) (hval : i.Val = .int64 n) :
    ∃ h : Nat, g.maxToleratedHops ceilLogRatio KeyNodeCount now = some h ∧
      h % 2 = 1 ∧ 1 ≤ h := by
  refine ⟨_, maxToleratedHops_stored ceilLogRatio KeyNodeCount g now i n hget hval,
    double_plus_one_odd _, ?_⟩
  have := double_plus_one_odd (ceilLogRatio n 10)
  omega

/-- With one node stored under `KeyNodeCount`, `maxToleratedHops` in `float64`
returns 1. -/
theorem maxToleratedHops_one_node (KeyNodeCount : GoString) (g : Gossip) (now : Int)
    (i : info) (hget : g.is.getInfo KeyNodeCount now = some i) (hval : i.Val = .int64 1) :
    g.maxToleratedHops ceilLogFloat KeyNodeCount now = some 1 := by
  rw [maxToleratedHops_stored ceilLogFloat KeyNodeCount g now i 1 hget hval,
    ceilLogFloat_one.2]
  decide

/-! ## Properties of `server/server.go` and `storage/config.go` -/

/-- A match of the second alternative of `dataDirRE` is a slice of five
strings. -/
theorem matchDisk_length : ∀ (s : GoString) (m : List GoString),
    matchDisk s = some m → m.length = 5
  | [], m, h => by simp [matchDisk] at h
  | b :: rest, m, h => by
    simp only [matchDisk] at h
    split at h
    · simp only [Option.some.injEq] at h
      rw [← h]
      rfl
    · exact matchDisk_length rest m h

/-- A match of `dataDirRE` is a slice of five strings: the match and the four
groups. -/
theorem FindStringSubmatch_length (spec : GoString) (m : List GoString)
    (h : dataDirRE.FindStringSubmatch spec = some m) : m.length = 5 := by
  simp only [dataDirRE.FindStringSubmatch] at h
  split at h
  · simp only [Option.some.injEq] at h
    rw [← h]
    rfl
  · exact matchDisk_length spec m h

/-- The documented forms do match `dataDirRE`, with the disk type or `mem` and
the path or size in their groups. -/
theorem FindStringSubmatch_documented :
    dataDirRE.FindStringSubmatch
        [109, 101, 109, 61, 49, 48, 55, 51, 55, 52, 49, 56, 50, 52] =
      some [[109, 101, 109, 61, 49, 48, 55, 51, 55, 52, 49, 56, 50, 52], [109, 101, 109],
            [49, 48, 55, 51, 55, 52, 49, 56, 50, 52], [], []] ∧
    dataDirRE.FindStringSubmatch [115, 115, 100, 61, 47, 100] =
      some [[115, 115, 100, 61, 47, 100], [], [], [115, 115, 100], [47, 100]] ∧
    dataDirRE.FindStringSubmatch [104, 100, 100, 61, 47, 100] =
      some [[104, 100, 100, 61, 47, 100], [], [], [104, 100, 100], [47, 100]] ∧
    ParseInt [49, 48, 55, 51, 55, 52, 49, 56, 50, 52] = some 1073741824 := by
  refine ⟨by decide, by decide, by decide, by decide⟩

/-- C22, as the code has it: `initEngine` returns the error "invalid engine
specification" for every specification, whatever the file system; among them
the documented forms `mem=1073741824`, `ssd=/d` and `hdd=/d`, which
`dataDirRE` does match: the expression has four groups, so that a match is a
slice of five strings and never the three that `initEngine` asks for. -/
theorem initEngine_always_invalid (statfs : GoString → Bool) (spec : GoString) :
    initEngine statfs spec = .error (.invalidSpecification spec) ∧
    (∀ m, dataDirRE.FindStringSubmatch spec = some m → m.length = 5) ∧
    initEngine statfs [109, 101, 109, 61, 49, 48, 55, 51, 55, 52, 49, 56, 50, 52] ≠
      .ok (.InMem 1073741824) ∧
    initEngine statfs [115, 115, 100, 61, 47, 100] ≠ .ok (.RocksDB .SSD [47, 100]) ∧
    initEngine statfs [104, 100, 100, 61, 47, 100] ≠ .ok (.RocksDB .HDD [47, 100]) := by
  have hall : ∀ sp : GoString, initEngine statfs sp = .error (.invalidSpecification sp) := by
    intro sp
    unfold initEngine
    cases h : dataDirRE.FindStringSubmatch sp with
    | none => rfl
    | some m =>
      have hlen := FindStringSubmatch_length sp m h
      match m, hlen with
      | [_, _, _, _, _], _ => rfl
  refine ⟨hall spec, FindStringSubmatch_length spec, ?_, ?_, ?_⟩ <;>
    · rw [hall]
      intro hcontra
      cases hcontra

/-- C23: `ChooseRandomReplica` returns nil exactly when the slice is empty; for
a non-empty slice it returns, whatever the random source draws, a pointer to
the element at an index below the length of the slice, one of the slice's own
elements; it never panics. -/
theorem ChooseRandomReplica_spec (replicas : List Replica) (draw : Nat) :
    (ChooseRandomReplica replicas draw = some .nil ↔ replicas = []) ∧
    ChooseRandomReplica replicas draw ≠ none ∧
    (replicas ≠ [] →
      ∃ i : Nat, i < replicas.length ∧
        ChooseRandomReplica replicas draw = some (.elem i) ∧
        ∃ r : Replica, (ReplicaPtr.elem i).deref replicas = some r ∧ r ∈ replicas) := by
  cases replicas with
  | nil => simp [ChooseRandomReplica]
  | cons a rest =>
    have hpos : 0 < (a :: rest).length := by simp
    have hlt : draw % (a :: rest).length < (a :: rest).length := Nat.mod_lt _ hpos
    have hres : ChooseRandomReplica (a :: rest) draw =
        some (.elem (draw % (a :: rest).length)) := by
      simp only [ChooseRandomReplica, Intn]
      rw [if_neg (by omega), if_neg (by omega)]
      simp only
      rw [if_pos hlt]
    refine ⟨?_, ?_, ?_⟩
    · rw [hres]; simp
    · rw [hres]; simp
    · intro _
      refine ⟨draw % (a :: rest).length, hlt, hres, (a :: rest)[draw % (a :: rest).length], ?_,
        List.getElem_mem _⟩
      simp only [ReplicaPtr.deref]
      exact List.getElem?_eq_getElem hlt

/-- Once `initHTTP` has run on the mux of `newServer`, with two key prefixes
that are rooted paths, a request for `/_admin/healthz` is dispatched to
`handleHealthz`. -/
theorem initHTTP_healthz (KVKeyPrefix StructuredKeyPrefix : GoString) (s : httpServer)
    (hinit : newServer.initHTTP KVKeyPrefix StructuredKeyPrefix = some s)
    (hkv : KVKeyPrefix.head? = some 47) (hst : StructuredKeyPrefix.head? = some 47)
    (host : GoString) :
    s.mux.handler host healthzPath = some .handleHealthz := by
  simp only [httpServer.initHTTP, newServer, ServeMux.HandleFunc] at hinit
  have h1 : (healthzPath.isEmpty || (List.lookup healthzPath ([] : List (GoString × Handler))).isSome)
      = false := by decide
  simp only [h1, Bool.false_eq_true, if_false, List.nil_append] at hinit
  split at hinit
  · cases hinit
  · rename_i m2 hm2
    split at hm2
    · cases hm2
    · simp only [Option.some.injEq] at hm2
      subst hm2
      split at hinit
      · cases hinit
      · rename_i m3 hm3
        split at hm3
        · cases hm3
        · simp only [Option.some.injEq] at hm3 hinit
          subst hm3
          subst hinit
          have hhead : healthzPath.head? = some 47 := by decide
          simp [ServeMux.handler, ServeMux.match, hkv, hst, hhead, List.lookup]

/-- The string `"ok"` is within `"ok\n"`. -/
theorem ok_contained : Contains [111, 107, 10] [111, 107] = true := by decide

/-- C24: on the server as `newServer` and `initHTTP` set it up (the two key
prefixes being rooted paths), for every request for `/_admin/healthz`:
when the `Accept-Encoding` value of the request contains `"gzip"`, `ServeHTTP`
sets `Content-Encoding: gzip` and writes the gzip encoding of `"ok\n"`;
otherwise it leaves `Content-Encoding` alone and writes `"ok\n"` itself. So a
response that starts empty says `Content-Encoding: gzip` exactly when the
request's `Accept-Encoding` contains `"gzip"`, and its body, decoded according
to its `Content-Encoding` by a decoder that inverts the encoder, contains
`"ok"`. -/
theorem healthz_gzip_iff (gzipEncode : List Byte → List Byte)
    (gunzip : List Byte → Option (List Byte))
    (kvREST structuredREST : Request → List Action)
    (KVKeyPrefix StructuredKeyPrefix : GoString) (s : httpServer)
    (hinit : newServer.initHTTP KVKeyPrefix StructuredKeyPrefix = some s)
    (hkv : KVKeyPrefix.head? = some 47) (hst : StructuredKeyPrefix.head? = some 47)
    (hcodec : ∀ data, gunzip (gzipEncode data) = some data)
    (w : ResponseWriter) (r : Request) (hpath : r.Path = healthzPath) :
    (Contains (r.Header.Get acceptEncoding) gzipName = true →
      s.ServeHTTP gzipEncode kvREST structuredREST w r =
        { header := (w.header.Set contentEncoding gzipName).Set contentType textPlain,
          body := w.body ++ gzipEncode [111, 107, 10] }) ∧
    (Contains (r.Header.Get acceptEncoding) gzipName = false →
      s.ServeHTTP gzipEncode kvREST structuredREST w r =
        { header := w.header.Set contentType textPlain,
          body := w.body ++ [111, 107, 10] }) ∧
    ((s.ServeHTTP gzipEncode kvREST structuredREST { header := [], body := [] } r).header.Get
        contentEncoding = gzipName ↔
      Contains (r.Header.Get acceptEncoding) gzipName = true) ∧
    ∃ b : List Byte,
      decodeBody gunzip
        (s.ServeHTTP gzipEncode kvREST structuredREST { header := [], body := [] } r) = some b ∧
      Contains b [111, 107] = true := by
  have hh : s.mux.ServeHTTP kvREST structuredREST r = handleHealthz r := by
    simp only [ServeMux.ServeHTTP, hpath,
      initHTTP_healthz KVKeyPrefix StructuredKeyPrefix s hinit hkv hst r.Host]
  have hgz : ∀ w0 : ResponseWriter, Contains (r.Header.Get acceptEncoding) gzipName = true →
      s.ServeHTTP gzipEncode kvREST structuredREST w0 r =
        { header := (w0.header.Set contentEncoding gzipName).Set contentType textPlain,
          body := w0.body ++ gzipEncode [111, 107, 10] } := by
    intro w0 hc
    simp only [httpServer.ServeHTTP, hc, hh, handleHealthz, Bool.not_true, Bool.false_eq_true,
      if_false, List.foldl_cons, List.foldl_nil, gzipResponseWriter.act,
      newGzipResponseWriter, gzipResponseWriter.Write, gzipResponseWriter.Close,
      ResponseWriter.Write, List.nil_append]
  have hplain : ∀ w0 : ResponseWriter, Contains (r.Header.Get acceptEncoding) gzipName = false →
      s.ServeHTTP gzipEncode kvREST structuredREST w0 r =
        { header := w0.header.Set contentType textPlain,
          body := w0.body ++ [111, 107, 10] } := by
    intro w0 hc
    simp only [httpServer.ServeHTTP, hc, hh, handleHealthz, Bool.not_false, if_true,
      List.foldl_cons, List.foldl_nil, ResponseWriter.act, ResponseWriter.Write]
  refine ⟨hgz w, hplain w, ?_, ?_⟩
  · cases hc : Contains (r.Header.Get acceptEncoding) gzipName with
    | true =>
      rw [hgz _ hc]
      simp only [iff_true]
      decide
    | false =>
      rw [hplain _ hc]
      simp only [Bool.false_eq_true, iff_false]
      decide
  · cases hc : Contains (r.Header.Get acceptEncoding) gzipName with
    | true =>
      rw [hgz _ hc]
      refine ⟨[111, 107, 10], ?_, ok_contained⟩
      have hget : Header.Get ((Header.Set [] contentEncoding gzipName).Set contentType textPlain)
          contentEncoding = gzipName := by decide
      simp only [decodeBody, hget, if_true, List.nil_append, hcodec]
    | false =>
      rw [hplain _ hc]
      refine ⟨[111, 107, 10], ?_, ok_contained⟩
      have hget : ¬ Header.Get (Header.Set [] contentType textPlain) contentEncoding = gzipName := by
        decide
      simp only [decodeBody, hget, if_false, List.nil_append]

/-- C24 at a concrete input: a request with `Accept-Encoding: gzip, deflate`,
served with the sample encoding of gzip, the key prefixes being `"/k/"` and
`"/s/"`. -/
theorem healthz_gzip_iff_witness :
    (Contains (gzipRequest.Header.Get acceptEncoding) gzipName = true →
      servedServer.ServeHTTP sampleGzip (fun _ => []) (fun _ => []) { header := [], body := [] }
          gzipRequest =
        { header := (Header.Set [] contentEncoding gzipName).Set contentType textPlain,
          body := [] ++ sampleGzip [111, 107, 10] }) ∧
    (Contains (gzipRequest.Header.Get acceptEncoding) gzipName = false →
      servedServer.ServeHTTP sampleGzip (fun _ => []) (fun _ => []) { header := [], body := [] }
          gzipRequest =
        { header := Header.Set [] contentType textPlain, body := [] ++ [111, 107, 10] }) ∧
    ((servedServer.ServeHTTP sampleGzip (fun _ => []) (fun _ => []) { header := [], body := [] }
          gzipRequest).header.Get contentEncoding = gzipName ↔
      Contains (gzipRequest.Header.Get acceptEncoding) gzipName = true) ∧
    ∃ b : List Byte,
      decodeBody sampleGunzip
        (servedServer.ServeHTTP sampleGzip (fun _ => []) (fun _ => [])
          { header := [], body := [] } gzipRequest) = some b ∧
      Contains b [111, 107] = true :=
  healthz_gzip_iff sampleGzip sampleGunzip (fun _ => []) (fun _ => []) [47, 107, 47]
    [47, 115, 47] servedServer (by decide) (by decide) (by decide) (fun _ => rfl)
    { header := [], body := [] } gzipRequest rfl

/-- The two responses of the sample server, evaluated: with
`Accept-Encoding: gzip, deflate` the body is the sample gzip stream of `"ok\n"`
under `Content-Encoding: gzip`; without `Accept-Encoding` it is `"ok\n"`
itself and no `Content-Encoding` is set. -/
theorem healthz_responses :
    servedServer.ServeHTTP sampleGzip (fun _ => []) (fun _ => []) { header := [], body := [] }
        gzipRequest =
      { header := [(contentType, [textPlain]), (contentEncoding, [gzipName])],
        body := [31, 139, 111, 107, 10] } ∧
    servedServer.ServeHTTP sampleGzip (fun _ => []) (fun _ => []) { header := [], body := [] }
        (healthzRequest []) =
      { header := [(contentType, [textPlain])], body := [111, 107, 10] } := by
  refine ⟨by decide, by decide⟩

/-- What `Less` returns for two `StoreAttributes`: whether the receiver's
fraction of available disk is less than that of the supplied value. -/
theorem Less_eq (a b : StoreAttributes) :
    a.Less (.storeAttributes b) =
      some (a.Capacity.PercentAvail.lt b.Capacity.PercentAvail) := rfl

/-- C27, the code at a failing input: with 10 of 100 bytes available in `a` and
50 of 100 in `b`, both fractions are exact quotients of `float64`s
(`0.1` and `0.5`); `a.Less(b)` is true although the supplied value `b` is not
less than `a` (the fraction of `b` is the larger one), and `b.Less(a)` is false
although the supplied value `a` is less than `b`. -/
theorem Less_is_receiver_less :
    (storeWith 100 10).Capacity.PercentAvail = .finite 7205759403792794 (-56) ∧
    (storeWith 100 50).Capacity.PercentAvail = .finite 4503599627370496 (-53) ∧
    (storeWith 100 10).Less (.storeAttributes (storeWith 100 50)) = some true ∧
    (storeWith 100 50).Capacity.PercentAvail.lt (storeWith 100 10).Capacity.PercentAvail
      = false ∧
    ¬ ((storeWith 100 50).Capacity.Available * (storeWith 100 10).Capacity.Capacity <
        (storeWith 100 10).Capacity.Available * (storeWith 100 50).Capacity.Capacity) ∧
    (storeWith 100 50).Less (.storeAttributes (storeWith 100 10)) = some false ∧
    (storeWith 100 10).Capacity.PercentAvail.lt (storeWith 100 50).Capacity.PercentAvail
      = true := by
  refine ⟨by decide, by decide, by decide, by decide, by decide, by decide, by decide⟩

end GossipGo
